import Mathlib

/-!
# ONeSAMP command line arguments: `refactor/arguments/refactor_arguments.c`

A shallow embedding of the argument store of ONeSAMP and of the routines that
fill it from the command line, followed by theorems about them.

Conventions of the embedding.

* A C string is a `List Char` (without the terminating NUL); reading the
  character at the position of the terminator gives `'\x00'`.
* `int` is `Int`, within the range of a 32-bit `int`: the conversion `%d` of a
  number that does not fit, and a sum or product of `initializeMicrosat1` and
  `initializeMicrosat2` that does not fit, are not defined.
* A `double` returned by a token reader is a `Dbl`: a rational, an infinity or
  a NaN. A decimal or hexadecimal literal denotes its exact value, the rounding
  to the nearest `double` not being followed, except that a literal too large
  for a `double` reads as an infinity and one too small as zero.
* The store holds rationals. A run that stores an infinity or a NaN, and a run
  on input that the C standard and the C library in use read differently, ends
  with `Err.outside`: the embedding says nothing about such a run.
* A pointer to an allocated block is an `Option`: `none` is `NULL`.
* The error reporters end the process (`exit(1)`); a routine that can reach one
  returns `Except Err _` and the error carries the text given to the reporter.
* `malloc` does not fail.
-/

namespace ONeSAMP

/-! ## How a run ends -/

/-- How a run ends when it does not return: the four reporters print their
message and call `exit(1)`. `undefined` marks a step whose behaviour C does not
define (reading through a null pointer or past the end of a vector, a number
that does not fit its type). `outside` marks a step that the program does take
and that this embedding does not follow: see the conventions at the head of
the file. -/
inductive Err where
  | parse (message : String) (row column : Int)
  | general (message : String)
  | argument (message : String)
  | theta (message : String) (thetaMin thetaMax : ℚ)
  | undefined (what : String)
  | outside (what : String)
  deriving DecidableEq

/-! ## Numbers -/

/-- The largest value of an `int`, for the 32-bit `int` of the platforms
ONeSAMP is built for (`INT_MAX` of `<limits.h>`). -/
def INT_MAX : Int := 2147483647

/-- The smallest value of an `int` (`INT_MIN` of `<limits.h>`). -/
def INT_MIN : Int := -2147483648

/-- A value of type `double` as returned by the token readers: a number, an
infinity or a NaN. -/
inductive Dbl where
  | finite (value : ℚ)
  | infinite (negative : Bool)
  | nan
  deriving DecidableEq

/-- The operator `<` on two `double` values; it is false when an operand is a
NaN. -/
def Dbl.lt : Dbl → Dbl → Bool
  | .finite x, .finite y => decide (x < y)
  | .finite _, .infinite negative => !negative
  | .infinite negative, .finite _ => negative
  | .infinite n1, .infinite n2 => n1 && !n2
  | .nan, _ => false
  | _, .nan => false

/-- The operator `==` on two `double` values; it is false when an operand is a
NaN. -/
def Dbl.eq : Dbl → Dbl → Bool
  | .finite x, .finite y => decide (x = y)
  | .infinite n1, .infinite n2 => decide (n1 = n2)
  | _, _ => false

/-- The order `≤` on two `double` values. -/
def Dbl.le (x y : Dbl) : Bool := Dbl.lt x y || Dbl.eq x y

/-- The number `2^64`. -/
def two64 : Nat := 18446744073709551616

/-- The number `2^1024`. -/
def two1024 : Nat :=
  (two64 * two64 * two64 * two64) * (two64 * two64 * two64 * two64)
    * (two64 * two64 * two64 * two64) * (two64 * two64 * two64 * two64)

/-- The least magnitude that is nearer to `2^1024` than to the largest
`double`: `2^1024 - 2^970`, where `2^970` is `2^1024 / 2^54`. -/
def overflowBound : Nat := two1024 - two1024 / 18014398509481984

/-- The number `2^1075`, which is `2^1024 * 2^51`: a magnitude up to `2^-1075`
is nearer to zero than to the least positive `double`, or as near. -/
def underflowScale : Nat := two1024 * 2251799813685248

/-- The `double` nearest to a rational, as far as its kind goes: from
`2^1024 - 2^970` on the nearest `double` is an infinity, up to `2^-1075` it is
zero. In between the rational itself stands for the `double`. -/
def toDouble (q : ℚ) : Dbl :=
  if (overflowBound : ℚ) ≤ |q| then .infinite (decide (q < 0))
  else if |q| * (underflowScale : ℚ) ≤ 1 then .finite 0
  else .finite q

/-- The value that the store of the embedding holds for a `double`. -/
def storedDouble : Dbl → Except Err ℚ
  | .finite q => .ok q
  | .infinite _ => .error (.outside "an infinity is stored")
  | .nan => .error (.outside "a NaN is stored")

/-- The values that the store of the embedding holds for a range. -/
def storedDoublePair (p : Dbl × Dbl) : Except Err (ℚ × ℚ) :=
  match storedDouble p.1, storedDouble p.2 with
  | .ok lo, .ok hi => .ok (lo, hi)
  | .error e, _ => .error e
  | .ok _, .error e => .error e

/-! ## The `sscanf` conversions used by the token readers -/

/-- The characters for which `isspace` holds in the C locale; `%d` and `%lf`
skip them before the number. -/
def isSpaceC (c : Char) : Bool :=
  c = ' ' || c = '\t' || c = '\n' || c = '\x0b' || c = '\x0c' || c = '\r'

/-- Decimal digit test. -/
def isDigitC (c : Char) : Bool := decide ('0' ≤ c) && decide (c ≤ '9')

/-- Value of a decimal digit character. -/
def digitVal (c : Char) : Nat := c.toNat - 48

/-- Value of a string of decimal digits, most significant first. -/
def digitsValue (ds : List Char) : Nat :=
  ds.foldl (fun acc c => 10 * acc + digitVal c) 0

/-- Hexadecimal digit test. -/
def isHexDigitC (c : Char) : Bool :=
  isDigitC c || (decide ('a' ≤ c) && decide (c ≤ 'f')) || (decide ('A' ≤ c) && decide (c ≤ 'F'))

/-- Value of a hexadecimal digit character. -/
def hexDigitVal (c : Char) : Nat :=
  if isDigitC c then c.toNat - 48
  else if decide ('a' ≤ c) && decide (c ≤ 'f') then c.toNat - 87
  else c.toNat - 55

/-- Value of a string of hexadecimal digits, most significant first. -/
def hexDigitsValue (ds : List Char) : Nat :=
  ds.foldl (fun acc c => 16 * acc + hexDigitVal c) 0

/-- An optional sign: returns whether it was `-`, and the text after it. -/
def scanSign : List Char → Bool × List Char
  | '-' :: cs => (true, cs)
  | '+' :: cs => (false, cs)
  | cs => (false, cs)

/-- The conversion `%d`: leading white space, an optional sign and a nonempty
run of decimal digits. Gives the value and the unread text, or `none` when the
input does not match (nothing is stored then). The conversion of a number that
does not fit an `int` is not defined. -/
def scanInt (input : List Char) : Except Err (Option (Int × List Char)) :=
  let body := scanSign (input.dropWhile isSpaceC)
  let ds := body.2.takeWhile isDigitC
  if ds = [] then .ok none
  else if INT_MIN ≤ (if body.1 then -(digitsValue ds : Int) else (digitsValue ds : Int))
      ∧ (if body.1 then -(digitsValue ds : Int) else (digitsValue ds : Int)) ≤ INT_MAX then
    .ok (some ((if body.1 then -(digitsValue ds : Int) else (digitsValue ds : Int)),
      body.2.dropWhile isDigitC))
  else .error (.undefined "conversion %d of a number that does not fit an int")

/-- An exponent part: the letter `letter` in either case, an optional sign and
a nonempty run of decimal digits. Without the letter there is no exponent and
no character is consumed. After the letter, what `sscanf` does when no digit
follows is left to the implementation (the C standard makes the conversion
fail, the GNU library reads the number without the exponent and consumes the
letter): the embedding does not follow such a run. -/
def scanExponent (letter : Char) (input : List Char) : Except Err (Int × List Char) :=
  match input with
  | c :: cs =>
    if c.toLower = letter then
      if (scanSign cs).2.takeWhile isDigitC = [] then
        .error (.outside "an exponent without digits is read")
      else
        .ok ((if (scanSign cs).1 then -(digitsValue ((scanSign cs).2.takeWhile isDigitC) : Int)
            else (digitsValue ((scanSign cs).2.takeWhile isDigitC) : Int)),
          (scanSign cs).2.dropWhile isDigitC)
    else .ok (0, input)
  | [] => .ok (0, input)

/-- Scaling by a power of ten. -/
def scale10 (x : ℚ) (e : Int) : ℚ :=
  if 0 ≤ e then x * ((10 ^ e.toNat : Nat) : ℚ) else x / ((10 ^ (-e).toNat : Nat) : ℚ)

/-- Scaling by a power of two. -/
def scale2 (x : ℚ) (e : Int) : ℚ :=
  if 0 ≤ e then x * ((2 ^ e.toNat : Nat) : ℚ) else x / ((2 ^ (-e).toNat : Nat) : ℚ)

/-- The digits before and after an optional radix point, and the unread text.
`isDigit` tells the digits of the base. -/
def scanMantissa (isDigit : Char → Bool) (text : List Char) :
    List Char × List Char × List Char :=
  match text.dropWhile isDigit with
  | '.' :: cs => (text.takeWhile isDigit, cs.takeWhile isDigit, cs.dropWhile isDigit)
  | rest => (text.takeWhile isDigit, [], rest)

/-- A decimal floating literal without its sign: digits with an optional radix
point (at least one digit in all) and an optional exponent. -/
def scanDecimal (text : List Char) : Except Err (Option (ℚ × List Char)) :=
  if (scanMantissa isDigitC text).1 = [] ∧ (scanMantissa isDigitC text).2.1 = [] then .ok none
  else
    match scanExponent 'e' (scanMantissa isDigitC text).2.2 with
    | .error e => .error e
    | .ok ex =>
      .ok (some (scale10
        (mkRat (digitsValue ((scanMantissa isDigitC text).1 ++ (scanMantissa isDigitC text).2.1))
          (10 ^ (scanMantissa isDigitC text).2.1.length)) ex.1, ex.2))

/-- A hexadecimal floating literal after its `0x`: hexadecimal digits with an
optional radix point (at least one digit in all) and an optional binary
exponent after `p`. -/
def scanHexadecimal (text : List Char) : Except Err (Option (ℚ × List Char)) :=
  if (scanMantissa isHexDigitC text).1 = [] ∧ (scanMantissa isHexDigitC text).2.1 = [] then
    .ok none
  else
    match scanExponent 'p' (scanMantissa isHexDigitC text).2.2 with
    | .error e => .error e
    | .ok ex =>
      .ok (some (scale2
        (mkRat (hexDigitsValue
            ((scanMantissa isHexDigitC text).1 ++ (scanMantissa isHexDigitC text).2.1))
          (16 ^ (scanMantissa isHexDigitC text).2.1.length)) ex.1, ex.2))

/-- Whether the text begins with the word, given in lower case, the letters of
the text being taken in either case. -/
def beginsWith (word text : List Char) : Bool :=
  decide ((text.take word.length).map Char.toLower = word)

/-- The conversion `%lf` after the white space and the sign: `infinity` or
`inf`, `nan`, a hexadecimal literal or a decimal literal. What `sscanf` does on
`inf` followed by a further `i` that does not start `inity`, and on `nan(`, is
left to the implementation. -/
def scanUnsigned (text : List Char) : Except Err (Option (Dbl × List Char)) :=
  if beginsWith ['i', 'n', 'f', 'i', 'n', 'i', 't', 'y'] text then
    .ok (some (.infinite false, text.drop 8))
  else if beginsWith ['i', 'n', 'f', 'i'] text then
    .error (.outside "the start of the word infinity is read")
  else if beginsWith ['i', 'n', 'f'] text then .ok (some (.infinite false, text.drop 3))
  else if beginsWith ['n', 'a', 'n', '('] text then
    .error (.outside "a NaN with a character sequence is read")
  else if beginsWith ['n', 'a', 'n'] text then .ok (some (.nan, text.drop 3))
  else if beginsWith ['0', 'x'] text then
    match scanHexadecimal (text.drop 2) with
    | .error e => .error e
    | .ok none => .ok none
    | .ok (some (q, rest)) => .ok (some (toDouble q, rest))
  else
    match scanDecimal text with
    | .error e => .error e
    | .ok none => .ok none
    | .ok (some (q, rest)) => .ok (some (toDouble q, rest))

/-- The opposite of a `double`. -/
def Dbl.neg : Dbl → Dbl
  | .finite q => .finite (-q)
  | .infinite negative => .infinite (!negative)
  | .nan => .nan

/-- The conversion `%lf`: leading white space, an optional sign, and a number
as read by `scanUnsigned`. Gives the value and the unread text, or `none` when
the input does not match (nothing is stored then). -/
def scanDouble (input : List Char) : Except Err (Option (Dbl × List Char)) :=
  match scanUnsigned (scanSign (input.dropWhile isSpaceC)).2 with
  | .error e => .error e
  | .ok none => .ok none
  | .ok (some (v, rest)) =>
    .ok (some ((if (scanSign (input.dropWhile isSpaceC)).1 then Dbl.neg v else v), rest))

/-- The call `sscanf(text, "%d,%d", a, b)`: which of the two targets are
assigned, and with what. -/
def sscanfIntPair (text : List Char) : Except Err (Option Int × Option Int) :=
  match scanInt text with
  | .error e => .error e
  | .ok none => .ok (none, none)
  | .ok (some (a, ',' :: rest)) =>
    match scanInt rest with
    | .error e => .error e
    | .ok (some (b, _)) => .ok (some a, some b)
    | .ok none => .ok (some a, none)
  | .ok (some (a, _)) => .ok (some a, none)

/-- The call `sscanf(text, "%lf,%lf", a, b)`. -/
def sscanfDoublePair (text : List Char) : Except Err (Option Dbl × Option Dbl) :=
  match scanDouble text with
  | .error e => .error e
  | .ok none => .ok (none, none)
  | .ok (some (a, ',' :: rest)) =>
    match scanDouble rest with
    | .error e => .error e
    | .ok (some (b, _)) => .ok (some a, some b)
    | .ok none => .ok (some a, none)
  | .ok (some (a, _)) => .ok (some a, none)

/-! ## Token readers (`parsePositiveInt` and friends)

Each takes the argument `argv[argNum]` itself and reads from `arg + 2`, which
lies past the terminator when the argument has less than two characters. -/

/-- Embeds `parsePositiveInt`: the number after the flag letter, `-1` when
there is none or it is negative. -/
def parsePositiveInt (arg : List Char) : Except Err Int :=
  if arg.length < 2 then .error (.undefined "read past the terminator of the argument")
  else
    match scanInt (arg.drop 2) with
    | .error e => .error e
    | .ok none => .ok (-1)
    | .ok (some (v, _)) => .ok (if v < 0 then -1 else v)

/-- Embeds `parsePositiveDouble`. -/
def parsePositiveDouble (arg : List Char) : Except Err Dbl :=
  if arg.length < 2 then .error (.undefined "read past the terminator of the argument")
  else
    match scanDouble (arg.drop 2) with
    | .error e => .error e
    | .ok none => .ok (.finite (-1))
    | .ok (some (v, _)) => .ok (if Dbl.lt v (.finite 0) then .finite (-1) else v)

/-- The statements of `parsePositiveIntPair` after the call of `sscanf`, on
the two entries of `result`. -/
def orderIntPair (r0 r1 : Int) : Int × Int :=
  let r0 := if r0 < 0 then -1 else r0
  let r1 := if r1 < 0 then -1 else r1
  let r1 := if r1 = -1 then r0 else r1
  if r0 > r1 then (r1, r0) else (r0, r1)

/-- Embeds `parsePositiveIntPair`: both entries start at `-1`, negative entries
are set to `-1`, a second entry equal to `-1` takes the value of the first, and
the two are put in order. -/
def parsePositiveIntPair (arg : List Char) : Except Err (Int × Int) :=
  if arg.length < 2 then .error (.undefined "read past the terminator of the argument")
  else
    match sscanfIntPair (arg.drop 2) with
    | .error e => .error e
    | .ok scanned => .ok (orderIntPair (scanned.1.getD (-1)) (scanned.2.getD (-1)))

/-- The statements of `parsePositiveDoublePair` after the call of `sscanf`. -/
def orderDoublePair (r0 r1 : Dbl) : Dbl × Dbl :=
  let r0 := if Dbl.lt r0 (.finite 0) then .finite (-1) else r0
  let r1 := if Dbl.lt r1 (.finite 0) then .finite (-1) else r1
  let r1 := if Dbl.eq r1 (.finite (-1)) then r0 else r1
  if Dbl.lt r1 r0 then (r1, r0) else (r0, r1)

/-- Embeds `parsePositiveDoublePair`. -/
def parsePositiveDoublePair (arg : List Char) : Except Err (Dbl × Dbl) :=
  if arg.length < 2 then .error (.undefined "read past the terminator of the argument")
  else
    match sscanfDoublePair (arg.drop 2) with
    | .error e => .error e
    | .ok scanned =>
      .ok (orderDoublePair (scanned.1.getD (.finite (-1))) (scanned.2.getD (.finite (-1))))

/-! ## The argument store -/

/-- Modelled from the spec: the macro `TRUE` of `refactor_arguments.h`, a
header that is not part of the sources at hand; the flags are booleans. -/
def TRUE : Int := 1

/-- Modelled from the spec: the macro `FALSE` of `refactor_arguments.h`. -/
def FALSE : Int := 0

/-- The file-scope variables of `refactor_arguments.c`, under their own names
(`example` is a keyword of Lean and is written `example_`).
Pointers are options; an allocated vector is the list of its entries. -/
structure Store where
  randomFlag : Int
  num_loci : Int
  input_individuals_count : Int
  bottleneck_individuals_count : Option (Int × Int)
  bottleneck_length : Option (Int × Int)
  final_individuals_count : Int
  isMicrosats : Int
  minAlleleFrequency : ℚ
  omitThreshold : ℚ
  theta : Option (ℚ × ℚ)
  mutation_rate : Option (ℚ × ℚ)
  repetitions : Int
  programName : Option (List Char)
  syntax_check : Int
  example_ : Int
  raw_stats : Int
  single_generation : Int
  example_pop : Int
  absentDataExtrapolate : Int
  input_individuals_count_allocation : Int
  num_loci_allocation : Int
  motif_lengths : Option (List Int)
  bottleneck_individuals_count_random_choices : Option (List Int)
  bottleneck_length_random_choices : Option (List Int)
  theta_random_choices : Option (List ℚ)
  mutation_rate_random_choices : Option (List ℚ)
  proportionMissingData : ℚ
  deriving DecidableEq

/-- The store at program start: objects of static storage duration without an
initialiser are zero, the two allocation sizes are initialised to `-1`. -/
def initialStore : Store where
  randomFlag := 0
  num_loci := 0
  input_individuals_count := 0
  bottleneck_individuals_count := none
  bottleneck_length := none
  final_individuals_count := 0
  isMicrosats := 0
  minAlleleFrequency := 0
  omitThreshold := 0
  theta := none
  mutation_rate := none
  repetitions := 0
  programName := none
  syntax_check := 0
  example_ := 0
  raw_stats := 0
  single_generation := 0
  example_pop := 0
  absentDataExtrapolate := 0
  input_individuals_count_allocation := -1
  num_loci_allocation := -1
  motif_lengths := none
  bottleneck_individuals_count_random_choices := none
  bottleneck_length_random_choices := none
  theta_random_choices := none
  mutation_rate_random_choices := none
  proportionMissingData := 0

/-- Embeds `reportError`. -/
def reportError {α : Type} (message : String) : Except Err α :=
  .error (.general message)

/-- Embeds `reportArgumentError`. -/
def reportArgumentError {α : Type} (message : String) : Except Err α :=
  .error (.argument message)

/-- Embeds `reportThetaArgumentError`. -/
def reportThetaArgumentError {α : Type} (message : String) (thetaMin thetaMax : ℚ) :
    Except Err α :=
  .error (.theta message thetaMin thetaMax)

/-- Embeds `resetArguments`. The routine assigns neither `example_pop`, nor the
two allocation sizes, nor the proportion of missing data; it frees the motif
lengths without clearing the pointer, whose value therefore stays. -/
def resetArguments (s : Store) : Store :=
  { s with
    randomFlag := -1
    num_loci := -1
    input_individuals_count := -1
    final_individuals_count := -1
    isMicrosats := -1
    repetitions := -1
    minAlleleFrequency := -1
    omitThreshold := -1
    syntax_check := FALSE
    example_ := FALSE
    raw_stats := FALSE
    single_generation := FALSE
    absentDataExtrapolate := FALSE
    programName := none
    bottleneck_length := none
    bottleneck_length_random_choices := none
    bottleneck_individuals_count := none
    bottleneck_individuals_count_random_choices := none
    mutation_rate := none
    mutation_rate_random_choices := none
    theta := none
    theta_random_choices := none }

/-! ## Messages of the accessors -/

def msgMinAlleleFrequency : String :=
  "%s: argument -f, minimum proportion of mutated alleles, is either missing or not a floating point number between 0 and 0.5"

def msgOmitLocusThreshold : String :=
  "%s: argument -o, minimum proportion of individuals with completely specified genotypes for loci to be included in computation, is not specified"

def msgFormFlag : String :=
  "%s: argument -s or -m, SNPs or microsatellites loci, not specified."

def msgIterations : String :=
  "%s: argument -t, number of repetitions, must be a positive integer."

def msgNLoci : String :=
  "%s: argument -l, num of unlinked polymorphic loci, must be a positive integer."

def msgInputSamples : String :=
  "%s: argument -i, num of input samples, must be a positive integer."

def msgBottleneck : String :=
  "%s: argument -b, num of individuals in bottleneck generation, must be a positive even integer"

def msgBottleneckLength : String :=
  "%s: argument -d, duration of bottleneck generations, must be a nonnegative integer"

def msgTheta : String :=
  "%s: argument -v, theta value, must be a positive real number"

def msgThetaRecommended : String :=
  "%s: argument -v, theta value, must be a positive real number. Recommended input based on choices of mutation rate and bottleneck min and max: -v%e,%e"

def msgMRate : String :=
  "%s: argument -u, mutation rate during simulation, must be a nonnegative real number"

def msgRFlag : String :=
  "%s: argument -r, flag to determine source of random numbers, must be -rGFSR (for GFSR values), -rRESET (for GFSR values with a reset of the GFSR register), or -rC (for values from C's random number generator)"

def msgBottleneckEven : String :=
  "%s: argument -b, num of individuals in bottleneck generation, must be a positive even integer at least 2"

def msgMissingOperation : String :=
  "%s: missing an operation to perform on the input file: -x (syntax check operation), -w (compute statistics of input sample), -g (simulate a single generation from an input population and display to standard out), -p (dump out an example population with known effective population size), or -e (compute stats of coalescent sample after a few generations have passed)"

def msgDuplicateMode : String :=
  "Duplicate flag: -x and/or -e and/or -w and/or -g and/or -p"

/-! ## Accessors -/

/-- The read `vector[samp]` of a draw vector. -/
def readSample {α : Type} (vector : Option (List α)) (samp : Int) : Except Err α :=
  match vector with
  | none => .error (.undefined "read through a null draw vector")
  | some v =>
    if samp < 0 then .error (.undefined "read before the start of a draw vector")
    else
      match v.get? samp.toNat with
      | some x => .ok x
      | none => .error (.undefined "read past the end of a draw vector")

/-- Embeds `parseProgramName`. -/
def parseProgramName (s : Store) : Option (List Char) := s.programName

/-- Embeds `parseFillInAbsentData`. -/
def parseFillInAbsentData (s : Store) : Int := s.absentDataExtrapolate

/-- Embeds `parseMinAlleleFrequency`. -/
def parseMinAlleleFrequency (s : Store) : Except Err ℚ :=
  if s.minAlleleFrequency < 0 ∨ s.minAlleleFrequency > 1 / 2 then
    reportArgumentError msgMinAlleleFrequency
  else .ok s.minAlleleFrequency

/-- Embeds `parseOmitLocusThreshold`. -/
def parseOmitLocusThreshold (s : Store) : Except Err ℚ :=
  if s.omitThreshold = -1 then reportArgumentError msgOmitLocusThreshold
  else .ok s.omitThreshold

/-- Embeds `parseFormFlag`. -/
def parseFormFlag (s : Store) : Except Err Int :=
  if s.isMicrosats = -1 then reportArgumentError msgFormFlag else .ok s.isMicrosats

/-- Embeds `parseIterations`. -/
def parseIterations (s : Store) : Except Err Int :=
  if s.repetitions ≤ 0 then reportArgumentError msgIterations else .ok s.repetitions

/-- Embeds `parseNLoci`. -/
def parseNLoci (s : Store) : Except Err Int :=
  if s.num_loci ≤ 0 then reportArgumentError msgNLoci else .ok s.num_loci

/-- Embeds `setNLoci`. -/
def setNLoci (s : Store) (size : Int) : Store := { s with num_loci := size }

/-- Embeds `parseNLociAllocation`. -/
def parseNLociAllocation (s : Store) : Int := s.num_loci_allocation

/-- Embeds `parseInputSamples`. -/
def parseInputSamples (s : Store) : Except Err Int :=
  if s.input_individuals_count ≤ 0 then reportArgumentError msgInputSamples
  else .ok s.input_individuals_count

/-- Embeds `setInputSamples`. -/
def setInputSamples (s : Store) (size : Int) : Store :=
  { s with input_individuals_count := size, final_individuals_count := size }

/-- Embeds `parseInputSamplesAllocation`. -/
def parseInputSamplesAllocation (s : Store) : Int := s.input_individuals_count_allocation

/-- Embeds `parseBottleneck`. -/
def parseBottleneck (s : Store) (samp : Int) : Except Err Int :=
  match s.bottleneck_individuals_count with
  | none => reportArgumentError msgBottleneck
  | some _ => readSample s.bottleneck_individuals_count_random_choices samp

/-- Embeds `parseBottleneckMin`. -/
def parseBottleneckMin (s : Store) : Except Err Int :=
  match s.bottleneck_individuals_count with
  | none => reportArgumentError msgBottleneck
  | some b => .ok b.1

/-- Embeds `parseBottleneckMax`. -/
def parseBottleneckMax (s : Store) : Except Err Int :=
  match s.bottleneck_individuals_count with
  | none => reportArgumentError msgBottleneck
  | some b => .ok b.2

/-- Embeds `parseBottleneckLength`. -/
def parseBottleneckLength (s : Store) (samp : Int) : Except Err Int :=
  match s.bottleneck_length with
  | none => reportArgumentError msgBottleneckLength
  | some d =>
    if d.1 < 0 ∨ d.2 < 0 then reportArgumentError msgBottleneckLength
    else readSample s.bottleneck_length_random_choices samp

/-- Embeds `parseBottleneckLengthMin`. -/
def parseBottleneckLengthMin (s : Store) : Except Err Int :=
  match s.bottleneck_length with
  | none => reportArgumentError msgBottleneckLength
  | some d =>
    if d.1 < 0 ∨ d.2 < 0 then reportArgumentError msgBottleneckLength else .ok d.1

/-- Embeds `parseBottleneckLengthMax`. -/
def parseBottleneckLengthMax (s : Store) : Except Err Int :=
  match s.bottleneck_length with
  | none => reportArgumentError msgBottleneckLength
  | some d =>
    if d.1 < 0 ∨ d.2 < 0 then reportArgumentError msgBottleneckLength else .ok d.2

/-- Embeds `parseMRate`. -/
def parseMRate (s : Store) (samp : Int) : Except Err ℚ :=
  match s.mutation_rate with
  | none => reportArgumentError msgMRate
  | some u =>
    if u.1 < 0 ∨ u.2 < 0 then reportArgumentError msgMRate
    else readSample s.mutation_rate_random_choices samp

/-- Embeds `parseMRateMin`. -/
def parseMRateMin (s : Store) : Except Err ℚ :=
  match s.mutation_rate with
  | none => reportArgumentError msgMRate
  | some u => if u.1 < 0 ∨ u.2 < 0 then reportArgumentError msgMRate else .ok u.1

/-- Embeds `parseMRateMax`. -/
def parseMRateMax (s : Store) : Except Err ℚ :=
  match s.mutation_rate with
  | none => reportArgumentError msgMRate
  | some u => if u.1 < 0 ∨ u.2 < 0 then reportArgumentError msgMRate else .ok u.2

/-- Embeds `parseTheta`. -/
def parseTheta (s : Store) (samp : Int) : Except Err ℚ :=
  match s.theta with
  | none => reportArgumentError msgTheta
  | some v =>
    if v.1 ≤ 0 ∨ v.2 ≤ 0 then reportArgumentError msgTheta
    else readSample s.theta_random_choices samp

/-- The call of `reportThetaArgumentError` in `parseThetaMin` and
`parseThetaMax`: its two numbers are computed by calling the mutation rate
accessors again. -/
def thetaRecommendation {α : Type} (s : Store) : Except Err α := do
  let mrateMin ← parseMRateMin s
  let mrateMax ← parseMRateMax s
  reportThetaArgumentError msgThetaRecommended (4000 * mrateMin) (400000 * mrateMax)

/-- Embeds `parseThetaMin`. -/
def parseThetaMin (s : Store) : Except Err ℚ := do
  let _ ← parseMRateMin s
  let _ ← parseMRateMax s
  let _ ← parseBottleneckMin s
  let _ ← parseBottleneckMax s
  match s.theta with
  | none => thetaRecommendation s
  | some v => if v.1 ≤ 0 ∨ v.2 ≤ 0 then thetaRecommendation s else .ok v.1

/-- Embeds `parseThetaMax`. -/
def parseThetaMax (s : Store) : Except Err ℚ := do
  let _ ← parseMRateMin s
  let _ ← parseMRateMax s
  let _ ← parseBottleneckMin s
  let _ ← parseBottleneckMax s
  match s.theta with
  | none => thetaRecommendation s
  | some v => if v.1 ≤ 0 ∨ v.2 ≤ 0 then thetaRecommendation s else .ok v.2

/-- Embeds `parseRFlag`. -/
def parseRFlag (s : Store) : Except Err Int :=
  if s.randomFlag = -1 then reportArgumentError msgRFlag else .ok s.randomFlag

/-- Embeds `parseSyntaxCheck`. -/
def parseSyntaxCheck (s : Store) : Int := s.syntax_check

/-- Embeds `parseExample`. -/
def parseExample (s : Store) : Int := s.example_

/-- Embeds `parseExamplePop`. -/
def parseExamplePop (s : Store) : Int := s.example_pop

/-- Embeds `parseRawSample`. -/
def parseRawSample (s : Store) : Int := s.raw_stats

/-- Embeds `parseSingleGeneration`. -/
def parseSingleGeneration (s : Store) : Int := s.single_generation

/-- Embeds `getMotifLengths`. -/
def getMotifLengths (s : Store) : Option (List Int) := s.motif_lengths

/-- Embeds `setMotifLengths`. -/
def setMotifLengths (s : Store) (new_motif_lengths : Option (List Int)) : Store :=
  { s with motif_lengths := new_motif_lengths }

/-- Embeds `getProportionMissingData`. -/
def getProportionMissingData (s : Store) : ℚ := s.proportionMissingData

/-- Embeds `setProportionMissingData`. -/
def setProportionMissingData (s : Store) (val : ℚ) : Store :=
  { s with proportionMissingData := val }

/-- Embeds `reportParseError`. -/
def reportParseError {α : Type} (message : String) (row column : Int) : Except Err α :=
  .error (.parse message row column)

/-! ## Drawing the parameter vectors -/

/-- The collaborator `randomQuantizedIntervalSelection`, whose definition is
not part of this file. A draw is identified by the vector being filled (7 to
10, after the `allocateStruct` routine) and the position `j` in it, and depends
on the bounds and the quantum it is given. The first field is the value as it
is stored in a vector of `int`, the second as it is stored in a vector of
`double`. -/
structure Extern where
  randomQuantizedIntervalSelectionInt : Nat → Nat → Int → Int → Int → Int
  randomQuantizedIntervalSelection : Nat → Nat → ℚ → ℚ → ℚ → ℚ

/-- The loop `for(j = start; j < start + count; j++) vector[j] = body(j)`; it
stops at the first round that reports an error. -/
def fillVector {α : Type} (body : Nat → Except Err α) : Nat → Nat → Except Err (List α)
  | _, 0 => .ok []
  | j, count + 1 =>
    match body j with
    | .error e => .error e
    | .ok x =>
      match fillVector body (j + 1) count with
      | .error e => .error e
      | .ok xs => .ok (x :: xs)

/-- Embeds `allocateStruct7`: `parseIterations()` entries, each drawn between
`parseBottleneckMin()` and `parseBottleneckMax()`. The store does not change
while the loop runs, so its bound is the value read for the allocation. -/
def allocateStruct7 (ext : Extern) (s : Store) : Except Err Store := do
  let n ← parseIterations s
  let v ← fillVector (fun j => do
    let lo ← parseBottleneckMin s
    let hi ← parseBottleneckMax s
    pure (ext.randomQuantizedIntervalSelectionInt 7 j lo hi 1)) 0 n.toNat
  pure { s with bottleneck_individuals_count_random_choices := some v }

/-- Embeds `allocateStruct8`. -/
def allocateStruct8 (ext : Extern) (s : Store) : Except Err Store := do
  let n ← parseIterations s
  let v ← fillVector (fun j => do
    let lo ← parseBottleneckLengthMin s
    let hi ← parseBottleneckLengthMax s
    pure (ext.randomQuantizedIntervalSelectionInt 8 j lo hi 1)) 0 n.toNat
  pure { s with bottleneck_length_random_choices := some v }

/-- Embeds `allocateStruct9`. -/
def allocateStruct9 (ext : Extern) (s : Store) : Except Err Store := do
  let n ← parseIterations s
  let v ← fillVector (fun j => do
    let lo ← parseThetaMin s
    let hi ← parseThetaMax s
    pure (ext.randomQuantizedIntervalSelection 9 j lo hi (1 / 100000000))) 0 n.toNat
  pure { s with theta_random_choices := some v }

/-- Embeds `allocateStruct10`. -/
def allocateStruct10 (ext : Extern) (s : Store) : Except Err Store := do
  let n ← parseIterations s
  let v ← fillVector (fun j => do
    let lo ← parseMRateMin s
    let hi ← parseMRateMax s
    pure (ext.randomQuantizedIntervalSelection 10 j lo hi (1 / 100000000))) 0 n.toNat
  pure { s with mutation_rate_random_choices := some v }

/-! ## `parseArguments` -/

/-- The character `currentArg[k]`; at the end of the string this is the
terminator. -/
def charAt (arg : List Char) (k : Nat) : Char := arg.getD k '\x00'

/-- The operator `&` on two `int` values. -/
def bitAnd (a b : Int) : Int := Int.land a b

/-- The value of a C comparison: `1` when it holds, `0` otherwise. -/
def cTruth (p : Prop) [Decidable p] : Int := if p then 1 else 0

/-! The loop of `parseArguments` is a chain of tests on `currentArg[1]`; each
branch of the chain is a definition of its own, named after the flag. -/

/-- Branch `-r`: the source of random numbers. The calls `opengfsr()` and
`resetgfsr()` act on the random number generator only and leave the store
alone. -/
def onFlagR (s : Store) (currentArg : List Char) : Except Err Store :=
  if s.randomFlag = 1 ∨ s.randomFlag = 0 then reportError "Duplicate flag: -r"
  else if currentArg.length < 3 then
    reportError "Mangled command line argument under -r: check documentation."
  else if currentArg.drop 2 = ['C'] then .ok { s with randomFlag := 1 }
  else if currentArg.drop 2 = ['G', 'F', 'S', 'R'] then .ok { s with randomFlag := 0 }
  else if currentArg.drop 2 = ['R', 'E', 'S', 'E', 'T'] then .ok { s with randomFlag := 0 }
  else reportError "Mangled command line argument under -r: check documentation."

/-- Branch `-l`: the number of loci. -/
def onFlagL (s : Store) (currentArg : List Char) : Except Err Store :=
  if s.num_loci ≠ -1 then reportError "Duplicate flag: -l"
  else
    match parsePositiveInt currentArg with
    | .error e => .error e
    | .ok n => .ok { s with num_loci := n, num_loci_allocation := n }

/-- Branch `-i`: the number of input individuals. -/
def onFlagI (s : Store) (currentArg : List Char) : Except Err Store :=
  if s.input_individuals_count ≠ -1 then reportError "Duplicate flag: -i"
  else
    match parsePositiveInt currentArg with
    | .error e => .error e
    | .ok n =>
      .ok { s with
        input_individuals_count := n
        input_individuals_count_allocation := n
        final_individuals_count := n }

/-- Branch `-b`: the range of the bottleneck size. In the test, `!=` binds
tighter than `&`, so that the right operand of `&` is the value of `1 != 0`. -/
def onFlagB (s : Store) (currentArg : List Char) : Except Err Store :=
  if s.bottleneck_individuals_count ≠ none then reportError "Duplicate flag: -b"
  else
    match parsePositiveIntPair currentArg with
    | .error e => .error e
    | .ok b =>
      if b.1 ≤ 0 ∨ bitAnd b.1 (cTruth ((1 : Int) ≠ 0)) ≠ 0
          ∨ b.2 ≤ 0 ∨ bitAnd b.2 (cTruth ((1 : Int) ≠ 0)) ≠ 0 then
        reportArgumentError msgBottleneckEven
      else .ok { s with bottleneck_individuals_count := some (b.1 / 2, b.2 / 2) }

/-- Branch `-d`: the range of the bottleneck length. -/
def onFlagD (s : Store) (currentArg : List Char) : Except Err Store :=
  if s.bottleneck_length ≠ none then reportError "Duplicate flag: -d"
  else
    match parsePositiveIntPair currentArg with
    | .error e => .error e
    | .ok d => .ok { s with bottleneck_length := some d }

/-- Branch `-m` or `-s`: microsatellites or SNPs. -/
def onFlagMS (s : Store) (currentArg : List Char) : Except Err Store :=
  if s.isMicrosats ≠ -1 then reportError "Duplicate flag: -m and/or -s"
  else if charAt currentArg 1 = 'm' then .ok { s with isMicrosats := TRUE }
  else .ok { s with isMicrosats := FALSE }

/-- Branch `-t`: the number of repetitions. -/
def onFlagT (s : Store) (currentArg : List Char) : Except Err Store :=
  if s.repetitions ≠ -1 then reportError "Duplicate flag: -t"
  else
    match parsePositiveInt currentArg with
    | .error e => .error e
    | .ok n => .ok { s with repetitions := n }

/-- Branch `-u`: the range of the mutation rate. -/
def onFlagU (s : Store) (currentArg : List Char) : Except Err Store :=
  if s.mutation_rate ≠ none then reportError "Duplicate flag: -u"
  else
    match parsePositiveDoublePair currentArg >>= storedDoublePair with
    | .error e => .error e
    | .ok u => .ok { s with mutation_rate := some u }

/-- Branch `-v`: the range of theta. -/
def onFlagV (s : Store) (currentArg : List Char) : Except Err Store :=
  if s.theta ≠ none then reportError "Duplicate flag: -v"
  else
    match parsePositiveDoublePair currentArg >>= storedDoublePair with
    | .error e => .error e
    | .ok v => .ok { s with theta := some v }

/-- Branch `-x`, `-e`, `-w`, `-g` or `-p`: the operation. -/
def onFlagMode (s : Store) (currentArg : List Char) : Except Err Store :=
  if s.syntax_check ≠ FALSE ∨ s.example_ ≠ FALSE ∨ s.raw_stats ≠ FALSE
      ∨ s.single_generation ≠ FALSE then
    reportError msgDuplicateMode
  else
    .ok { s with
      example_ := if charAt currentArg 1 = 'e' then TRUE else s.example_
      syntax_check := if charAt currentArg 1 = 'x' then TRUE else s.syntax_check
      raw_stats := if charAt currentArg 1 = 'w' then TRUE else s.raw_stats
      single_generation := if charAt currentArg 1 = 'g' then TRUE else s.single_generation
      example_pop := if charAt currentArg 1 = 'p' then TRUE else s.example_pop }

/-- Branch `-f`: the minimum allele frequency. -/
def onFlagF (s : Store) (currentArg : List Char) : Except Err Store :=
  if s.minAlleleFrequency ≠ -1 then reportError "Duplicate flag: -f"
  else
    match parsePositiveDouble currentArg >>= storedDouble with
    | .error e => .error e
    | .ok f => .ok { s with minAlleleFrequency := f }

/-- Branch `-a`: whether absent data are filled in. -/
def onFlagA (s : Store) : Except Err Store :=
  if s.absentDataExtrapolate ≠ FALSE then reportError "Duplicate flag: -a"
  else .ok { s with absentDataExtrapolate := TRUE }

/-- Branch `-o`: the threshold for omitting loci. -/
def onFlagO (s : Store) (currentArg : List Char) : Except Err Store :=
  if s.omitThreshold ≠ -1 then reportError "Duplicate flag: -o"
  else
    match parsePositiveDouble currentArg >>= storedDouble with
    | .error e => .error e
    | .ok o => .ok { s with omitThreshold := o }

/-- The body of the loop of `parseArguments` over `argv[1..argc-1]`: what one
argument does to the store. -/
def parseArgumentsBody (s : Store) (currentArg : List Char) : Except Err Store :=
  if charAt currentArg 0 ≠ '-' then
    reportError "Arguments to OneSamp must start with hypens."
  else if charAt currentArg 1 = 'r' then onFlagR s currentArg
  else if charAt currentArg 1 = 'l' then onFlagL s currentArg
  else if charAt currentArg 1 = 'i' then onFlagI s currentArg
  else if charAt currentArg 1 = 'b' then onFlagB s currentArg
  else if charAt currentArg 1 = 'd' then onFlagD s currentArg
  else if charAt currentArg 1 = 'm' ∨ charAt currentArg 1 = 's' then onFlagMS s currentArg
  else if charAt currentArg 1 = 't' then onFlagT s currentArg
  else if charAt currentArg 1 = 'u' then onFlagU s currentArg
  else if charAt currentArg 1 = 'v' then onFlagV s currentArg
  else if charAt currentArg 1 = 'x' ∨ charAt currentArg 1 = 'e' ∨ charAt currentArg 1 = 'w'
      ∨ charAt currentArg 1 = 'g' ∨ charAt currentArg 1 = 'p' then onFlagMode s currentArg
  else if charAt currentArg 1 = 'f' then onFlagF s currentArg
  else if charAt currentArg 1 = 'a' then onFlagA s
  else if charAt currentArg 1 = 'o' then onFlagO s currentArg
  else reportError "Unknown flag passed in to OneSamp."

/-- The loop `for(i = 1; i < argc; i++)` of `parseArguments`, over the
arguments after the program name. -/
def parseArgumentsLoop (s : Store) : List (List Char) → Except Err Store
  | [] => .ok s
  | currentArg :: rest =>
    match parseArgumentsBody s currentArg with
    | .error e => .error e
    | .ok s1 => parseArgumentsLoop s1 rest

/-- The overrides of the raw statistics mode. Writing the two entries of the
bottleneck range needs the range to be allocated. -/
def rawStatsOverrides (s : Store) : Except Err Store :=
  match s.bottleneck_individuals_count with
  | none => .error (.undefined "write through a null bottleneck range")
  | some _ =>
    .ok { s with
      final_individuals_count := s.input_individuals_count
      bottleneck_length := none
      bottleneck_individuals_count := some (2, 2)
      repetitions := 1 }

/-- A call whose value is discarded, under `if(!parseRawSample())`. -/
def unlessRawSample {α : Type} (s : Store) (call : Except Err α) : Except Err Unit :=
  if parseRawSample s = 0 then do
    let _ ← call
    pure ()
  else pure ()

/-- The draws that follow the loop of `parseArguments`, with the overrides of
the single generation and raw statistics modes. -/
def parseArgumentsDraws (ext : Extern) (s : Store) : Except Err Store := do
  let s := if parseSingleGeneration s ≠ 0 then { s with repetitions := 1 } else s
  let s ← allocateStruct7 ext s
  if parseRawSample s ≠ 0 then rawStatsOverrides s
  else if parseSyntaxCheck s = 0 then do
    let s ← (if parseSingleGeneration s = 0 then do
      let s ← allocateStruct8 ext s
      allocateStruct9 ext s
    else pure s)
    allocateStruct10 ext s
  else pure s

/-- The arguments fetched in single generation mode. -/
def fetchSingleGeneration (s : Store) : Except Err Unit := do
  let _ ← parseNLoci s
  let _ ← parseInputSamples s
  let _ ← parseMRate s 0
  let _ ← parseBottleneck s 0
  let _ ← parseFormFlag s
  let _ ← parseRFlag s
  pure ()

/-- The arguments fetched in the other modes. -/
def fetchGeneral (s : Store) : Except Err Unit := do
  let _ ← parseFormFlag s
  unlessRawSample s (parseIterations s)
  let _ ← parseNLoci s
  let _ ← parseInputSamples s
  let _ ← parseFormFlag s
  let _ ← parseOmitLocusThreshold s
  unlessRawSample s (parseBottleneck s 0)
  unlessRawSample s (parseBottleneckLength s 0)
  unlessRawSample s (parseMRate s 0)
  unlessRawSample s (parseRFlag s)
  unlessRawSample s (parseTheta s 0)

/-- The part of `parseArguments` after the loop: the draws, the checks made by
fetching the arguments, and the test that an operation was selected. -/
def parseArgumentsResolve (ext : Extern) (s : Store) : Except Err Store := do
  let s ← (if parseSyntaxCheck s = 0 then do
    let s ← parseArgumentsDraws ext s
    (if parseSingleGeneration s ≠ 0 then fetchSingleGeneration s else fetchGeneral s)
    pure s
  else pure s)
  if parseSyntaxCheck s = 0 ∧ parseRawSample s = 0 ∧ parseExample s = 0
      ∧ parseSingleGeneration s = 0 ∧ parseExamplePop s = 0 then
    reportArgumentError msgMissingOperation
  else pure s

/-- The start of `parseArguments`: the reset, and the copy of `argv[0]` into
the program name. The loop runs on this store. -/
def loopStart (s : Store) (programArg : List Char) : Store :=
  { resetArguments s with programName := some programArg }

/-- Embeds `parseArguments`; `programArg` is `argv[0]` and `args` are
`argv[1]` to `argv[argc-1]`. -/
def parseArguments (ext : Extern) (s : Store) (programArg : List Char)
    (args : List (List Char)) : Except Err Store :=
  match parseArgumentsLoop (loopStart s programArg) args with
  | .error e => .error e
  | .ok s1 => parseArgumentsResolve ext s1

/-- Embeds `flushArguments`: the program name, the bottleneck range and its
draws are released in every mode, the other ranges and draws in raw statistics
mode only. -/
def flushArguments (s : Store) : Store :=
  let s := { s with
    programName := none
    bottleneck_individuals_count := none
    bottleneck_individuals_count_random_choices := none }
  if parseRawSample s ≠ 0 then
    { s with
      bottleneck_length := none
      theta := none
      mutation_rate := none
      bottleneck_length_random_choices := none
      theta_random_choices := none
      mutation_rate_random_choices := none }
  else s

/-- A collaborator that always draws the lower bound. -/
def lowestDraw : Extern where
  randomQuantizedIntervalSelectionInt := fun _ _ lo _ _ => lo
  randomQuantizedIntervalSelection := fun _ _ lo _ _ => lo

/-! ## Vocabulary of the statements -/

/-- The test made by the loop before it accepts an operation flag. -/
def modeGuard (s : Store) : Prop :=
  s.syntax_check ≠ FALSE ∨ s.example_ ≠ FALSE ∨ s.raw_stats ≠ FALSE ∨ s.single_generation ≠ FALSE


/-- The argument carries one of the operation flags `-x`, `-e`, `-w`, `-g`,
`-p`. -/
def isModeFlag (a : List Char) : Prop :=
  charAt a 1 = 'x' ∨ charAt a 1 = 'e' ∨ charAt a 1 = 'w' ∨ charAt a 1 = 'g' ∨ charAt a 1 = 'p'

instance (a : List Char) : Decidable (isModeFlag a) := by
  unfold isModeFlag; infer_instance

/-- At most one of the four operation flags tested by the loop is set. -/
def atMostOneMode (s : Store) : Prop :=
  (s.syntax_check = FALSE ∨ s.example_ = FALSE)
  ∧ (s.syntax_check = FALSE ∨ s.raw_stats = FALSE)
  ∧ (s.syntax_check = FALSE ∨ s.single_generation = FALSE)
  ∧ (s.example_ = FALSE ∨ s.raw_stats = FALSE)
  ∧ (s.example_ = FALSE ∨ s.single_generation = FALSE)
  ∧ (s.raw_stats = FALSE ∨ s.single_generation = FALSE)

/-- The arguments fetched after the draws in the modes other than single
generation and raw statistics are all valid: repetitions, bottleneck size,
bottleneck length, mutation rate, theta, kind of loci, number of loci, number
of input individuals, omission threshold and source of random numbers. -/
def generalFetchesValid (s : Store) : Prop :=
  0 < s.repetitions
  ∧ (∃ b, s.bottleneck_individuals_count = some b)
  ∧ (∃ d, s.bottleneck_length = some d ∧ 0 ≤ d.1 ∧ 0 ≤ d.2)
  ∧ (∃ u, s.mutation_rate = some u ∧ 0 ≤ u.1 ∧ 0 ≤ u.2)
  ∧ (∃ t, s.theta = some t ∧ 0 < t.1 ∧ 0 < t.2)
  ∧ s.isMicrosats ≠ -1
  ∧ 0 < s.num_loci
  ∧ 0 < s.input_individuals_count
  ∧ s.omitThreshold ≠ -1
  ∧ s.randomFlag ≠ -1

/-! ## Command lines used as examples -/

/-- The arguments of a command line, from the words as typed. -/
def words (l : List String) : List (List Char) := l.map String.toList

/-- The program name used in the examples. -/
def onesamp : List Char := "onesamp".toList

/-- A complete command line that selects both `-p` and `-e`. -/
def argsExamplePopThenExample : List (List Char) :=
  words ["-rC", "-l10", "-i10", "-s", "-t5", "-o0.5", "-b10,20", "-d1,2", "-u1e-7,1e-6",
    "-v0.04,4.0", "-p", "-e"]

/-- The command line `-l10 -i10 -s -t5 -o0.9`: no operation, no `-r`. -/
def argsNoOperationShort : List (List Char) :=
  words ["-l10", "-i10", "-s", "-t5", "-o0.9"]

/-- A complete command line without an operation flag. -/
def argsNoOperationComplete : List (List Char) :=
  words ["-rC", "-l50", "-i30", "-b10,20", "-d1,5", "-s", "-t3", "-u1e-6,1e-5", "-v0.04,4.0",
    "-f0.05", "-o0.8"]

/-- The store after the loop over `argsNoOperationComplete`. -/
def storeNoOperationComplete : Store :=
  { loopStart initialStore onesamp with
    randomFlag := 1
    num_loci := 50
    num_loci_allocation := 50
    input_individuals_count := 30
    input_individuals_count_allocation := 30
    final_individuals_count := 30
    bottleneck_individuals_count := some (5, 10)
    bottleneck_length := some (1, 5)
    isMicrosats := 0
    repetitions := 3
    mutation_rate := some (1 / 1000000, 1 / 100000)
    theta := some (1 / 25, 4)
    minAlleleFrequency := 1 / 20
    omitThreshold := 4 / 5 }

/-- A raw statistics command line with `-t` and `-b`. -/
def argsRawStats : List (List Char) :=
  words ["-rGFSR", "-l10", "-i20", "-s", "-o1.0", "-t5", "-b4,8", "-w"]

/-- The store after the loop over `argsRawStats`. -/
def storeRawStats : Store :=
  { loopStart initialStore onesamp with
    randomFlag := 0
    num_loci := 10
    num_loci_allocation := 10
    input_individuals_count := 20
    input_individuals_count_allocation := 20
    final_individuals_count := 20
    bottleneck_individuals_count := some (2, 4)
    isMicrosats := 0
    repetitions := 5
    omitThreshold := 1
    raw_stats := 1 }

/-- The command line `-rGFSR -l10 -i20 -s -o1.0 -w`: raw statistics without
`-t` and `-b`. -/
def argsRawStatsShort : List (List Char) :=
  words ["-rGFSR", "-l10", "-i20", "-s", "-o1.0", "-w"]

/-- The store after `parseArguments` on `argsRawStats`, with `lowestDraw`. -/
def storeRawStatsResolved : Store :=
  { storeRawStats with
    bottleneck_individuals_count_random_choices := some [2, 2, 2, 2, 2]
    bottleneck_individuals_count := some (2, 2)
    bottleneck_length := none
    final_individuals_count := 20
    repetitions := 1 }

/-- A raw statistics command line with none of `-r`, `-d`, `-u`, `-v`, `-f`. -/
def argsRawStatsMinimal : List (List Char) :=
  words ["-l10", "-i20", "-s", "-o1.0", "-t1", "-b2", "-w"]

/-- The store after the loop over `argsRawStatsMinimal`. -/
def storeRawStatsMinimal : Store :=
  { loopStart initialStore onesamp with
    num_loci := 10
    num_loci_allocation := 10
    input_individuals_count := 20
    input_individuals_count_allocation := 20
    final_individuals_count := 20
    bottleneck_individuals_count := some (1, 1)
    isMicrosats := 0
    repetitions := 1
    omitThreshold := 1
    raw_stats := 1 }

/-- The command line `-lx -l5 -x`: the flag `-l` twice, the first time with a
payload that is not a number. -/
def argsLociTwice : List (List Char) := words ["-lx", "-l5", "-x"]

/-- The command line `-rGFSR -l10 -i20 -s -o1.0 -t1 -w`: raw statistics with
`-t` and without `-b`. -/
def argsRawStatsNoBottleneck : List (List Char) :=
  words ["-rGFSR", "-l10", "-i20", "-s", "-o1.0", "-t1", "-w"]

/-! ## The initial microsatellite lengths -/

/-- The read `getMotifLengths()[val]`. -/
def readMotifLength (s : Store) (val : Int) : Except Err Int :=
  match getMotifLengths s with
  | none => .error (.undefined "read through a null vector of motif lengths")
  | some v =>
    if val < 0 then .error (.undefined "read before the start of the motif lengths")
    else
      match v.get? val.toNat with
      | some x => .ok x
      | none => .error (.undefined "read past the end of the motif lengths")

/-- The sum of the `2n` alleles of the individuals `0` to `n - 1` at the locus
`val`. The collaborator `loadInitialGenotype`, which is not part of this file,
is a function from the individual and the locus to the two genes it stores. -/
def sumGenotypes (loadInitialGenotype : Int → Int → Int × Int) (val : Int) : Nat → Int
  | 0 => 0
  | i + 1 =>
    sumGenotypes loadInitialGenotype val i
      + ((loadInitialGenotype i val).1 + (loadInitialGenotype i val).2)

/-- The result of an arithmetic operator on two `int` operands, from its
mathematical value: an overflow is not defined. -/
def intResult (x : Int) : Except Err Int :=
  if INT_MIN ≤ x ∧ x ≤ INT_MAX then .ok x
  else .error (.undefined "signed integer overflow")

/-- The loop of `initializeMicrosat1`: the value of `totalMicrosatLength` after
the rounds `i = 0` to `i = n - 1`, each of which computes `gene1 + gene2` and
adds it to the total. -/
def totalMicrosatLength (loadInitialGenotype : Int → Int → Int × Int) (val : Int) :
    Nat → Except Err Int
  | 0 => .ok 0
  | i + 1 => do
    let total ← totalMicrosatLength loadInitialGenotype val i
    let genes ← intResult ((loadInitialGenotype i val).1 + (loadInitialGenotype i val).2)
    intResult (total + genes)

/-- Embeds `initializeMicrosat1`. The operators `%` and `/` of C truncate
towards zero; a division by zero is not defined. Every intermediate result of
the last expression has to fit an `int`, `2 * m * n` being `(2 * m) * n`. -/
def initializeMicrosat1 (loadInitialGenotype : Int → Int → Int × Int) (s : Store)
    (locus : Int) : Except Err Int := do
  let nLoci ← parseNLoci s
  let val := Int.tmod locus nLoci
  if parseExamplePop s ≠ 0 then pure 192
  else do
    let n ← parseInputSamples s
    let total ← totalMicrosatLength loadInitialGenotype val n.toNat
    let m ← readMotifLength s val
    let product ← intResult (total * m)
    let dividend ← intResult (product + Int.tdiv m 2)
    let twice ← intResult (2 * m)
    let divisor ← intResult (twice * n)
    if divisor = 0 then .error (.undefined "division by zero")
    else intResult (Int.tdiv dividend divisor)

/-- Embeds `initializeMicrosat2`. -/
def initializeMicrosat2 (loadInitialGenotype : Int → Int → Int × Int) (s : Store)
    (locus : Int) : Except Err Int := do
  let first ← initializeMicrosat1 loadInitialGenotype s locus
  let nLoci ← parseNLoci s
  let m ← readMotifLength s (Int.tmod locus nLoci)
  intResult (first + m)

/-! ## Releasing the motif lengths

The value of a pointer does not tell whether the block it points to is still
allocated. Nine of the ten pointers of the store are cleared in the statement
that follows their `free`, so that a value other than `NULL` stands for a live
block. `motif_lengths` is released by `resetArguments` and by
`freeMotifLengths` without being cleared. -/

/-- The store, and whether the block that `motif_lengths` points to has been
passed to `free`. -/
structure Memory where
  store : Store
  motifLengthsReleased : Bool
  deriving DecidableEq

/-- Embeds `resetArguments` on the store and the state of the block of
`motif_lengths`: the values are those of `resetArguments`; the statement
`if(motif_lengths != NULL) free(motif_lengths);` releases the block, which is
not defined when the block was released before. -/
def resetArgumentsMemory (m : Memory) : Except Err Memory :=
  match m.store.motif_lengths with
  | none => .ok { store := resetArguments m.store, motifLengthsReleased := m.motifLengthsReleased }
  | some _ =>
    if m.motifLengthsReleased then
      .error (.undefined "free of a block that was released before")
    else .ok { store := resetArguments m.store, motifLengthsReleased := true }

/-- The call of `resetArguments` twice in a row. -/
def resetArgumentsTwice (m : Memory) : Except Err Memory := do
  let m1 ← resetArgumentsMemory m
  resetArgumentsMemory m1

/-! ## Further command lines used as examples -/

/-- The command line
`-rRESET -l5 -i4 -b4,4 -d0,0 -m2,3 -t10 -u0,0 -v0.01,0.01 -f0 -o0.5 -g`. -/
def argsSingleGeneration : List (List Char) :=
  words ["-rRESET", "-l5", "-i4", "-b4,4", "-d0,0", "-m2,3", "-t10", "-u0,0", "-v0.01,0.01",
    "-f0", "-o0.5", "-g"]

/-- The store after the loop over `argsSingleGeneration`. -/
def storeSingleGeneration : Store :=
  { loopStart initialStore onesamp with
    randomFlag := 0
    num_loci := 5
    num_loci_allocation := 5
    input_individuals_count := 4
    input_individuals_count_allocation := 4
    final_individuals_count := 4
    bottleneck_individuals_count := some (2, 2)
    bottleneck_length := some (0, 0)
    isMicrosats := 1
    repetitions := 10
    mutation_rate := some (0, 0)
    theta := some (1 / 100, 1 / 100)
    minAlleleFrequency := 0
    omitThreshold := 1 / 2
    single_generation := 1 }

/-- A single generation command line without `-t`, `-d`, `-v`, `-o`, `-f`. -/
def argsSingleGenerationMinimal : List (List Char) :=
  words ["-rRESET", "-l5", "-i4", "-b4,4", "-m2,3", "-u0,0", "-g"]

/-- The store after the loop over `argsSingleGenerationMinimal`. -/
def storeSingleGenerationMinimal : Store :=
  { loopStart initialStore onesamp with
    randomFlag := 0
    num_loci := 5
    num_loci_allocation := 5
    input_individuals_count := 4
    input_individuals_count_allocation := 4
    final_individuals_count := 4
    bottleneck_individuals_count := some (2, 2)
    isMicrosats := 1
    mutation_rate := some (0, 0)
    single_generation := 1 }

/-- The command line
`-rC -l50 -i30 -b10,20 -d1,5 -s -t100 -u1e-6,1e-5 -v0.04,4.0 -f0.05 -o0.8 -e`. -/
def argsCoalescentExample : List (List Char) :=
  words ["-rC", "-l50", "-i30", "-b10,20", "-d1,5", "-s", "-t100", "-u1e-6,1e-5", "-v0.04,4.0",
    "-f0.05", "-o0.8", "-e"]

/-- The store after the loop over `argsCoalescentExample`. -/
def storeCoalescentExample : Store :=
  { storeNoOperationComplete with
    repetitions := 100
    example_ := 1 }

/-- The command line `-l0 -tmany -x`: syntax check with a number of loci that
is not positive and repetitions that are not a number. -/
def argsSyntaxCheck : List (List Char) := words ["-l0", "-tmany", "-x"]

/-- The store after the loop over `argsSyntaxCheck`. -/
def storeSyntaxCheck : Store :=
  { loopStart initialStore onesamp with
    num_loci := 0
    num_loci_allocation := 0
    syntax_check := 1 }

/-- The command line `-o5 -x`: an omission threshold above 1. -/
def argsOmitFive : List (List Char) := words ["-o5", "-x"]

/-- The store after `parseArguments` on `argsOmitFive`. -/
def storeOmitFive : Store :=
  { loopStart initialStore onesamp with
    omitThreshold := 5
    syntax_check := 1 }

/-- A store with one locus of motif length `m` and two input individuals. -/
def storeMicrosat (m : Int) : Store :=
  { initialStore with
    num_loci := 1
    input_individuals_count := 2
    motif_lengths := some [m] }

/-- Genotypes `(1, 2)` for individual 0 and `(2, 2)` for the others, at every
locus: the four alleles of two individuals add up to 7. -/
def genotypesSeven : Int → Int → Int × Int :=
  fun i _ => if i = 0 then (1, 2) else (2, 2)

/-- A store whose motif lengths are allocated, in a block that is live. -/
def memoryWithMotifLengths : Memory :=
  { store := { initialStore with motif_lengths := some [2, 3] }
    motifLengthsReleased := false }

/-- The command line
`-rC -l50 -i30 -b10,20 -d1,5 -s -t3 -u1e-6,1e-5 -v0.04,4.0 -o0.8 -e`: coalescent
example mode without `-f`. -/
def argsNoFrequency : List (List Char) :=
  words ["-rC", "-l50", "-i30", "-b10,20", "-d1,5", "-s", "-t3", "-u1e-6,1e-5", "-v0.04,4.0",
    "-o0.8", "-e"]

/-- The same command line with `-f0.9`, a frequency above 0.5. -/
def argsFrequencyTooLarge : List (List Char) :=
  words ["-rC", "-l50", "-i30", "-b10,20", "-d1,5", "-s", "-t3", "-u1e-6,1e-5", "-v0.04,4.0",
    "-f0.9", "-o0.8", "-e"]

/-- The command line
`-rC -l50 -i30 -b10,20 -d1,5 -s -t3 -u1e-6,1e-5 -v0.04,4.0 -f0.05 -o0.8 -p`:
the complete command line of `argsNoOperationComplete` with the operation
`-p`. -/
def argsExamplePopulation : List (List Char) :=
  words ["-rC", "-l50", "-i30", "-b10,20", "-d1,5", "-s", "-t3", "-u1e-6,1e-5", "-v0.04,4.0",
    "-f0.05", "-o0.8", "-p"]

/-- The same command line with the operation `-e`. -/
def argsCoalescentThree : List (List Char) :=
  words ["-rC", "-l50", "-i30", "-b10,20", "-d1,5", "-s", "-t3", "-u1e-6,1e-5", "-v0.04,4.0",
    "-f0.05", "-o0.8", "-e"]

/-- The command line `-d1,5 -x`: syntax check with a bottleneck length. -/
def argsSyntaxCheckLength : List (List Char) := words ["-d1,5", "-x"]

/-! ## The motif lengths given on the command line -/

/-- The loop over `i` of `readMicrosatelliteMotifLengths` on the argument
`argvj`: the rounds that are left, the value of `i`, and the entries of
`inputsList` assigned so far. Each round reads an entry with `%d` from
`argvj + 2 * i + 2`; `none` is the `return -1` made at the first entry that is
not 2, 3, 4 or 6. When the text does not match `%d`, `sscanf` stores nothing
and the entry tested is the content of a fresh block, which is not defined. -/
def readMotifEntries (argvj : List Char) :
    Nat → Nat → List Int → Except Err (Option (List Int))
  | 0, _, inputsList => .ok (some inputsList)
  | rounds + 1, i, inputsList =>
    match scanInt (argvj.drop (2 * i + 2)) with
    | .error e => .error e
    | .ok none => .error (.undefined "read of an entry of inputsList that has no value")
    | .ok (some (v, _)) =>
      if ¬(v = 2 ∨ v = 3 ∨ v = 4 ∨ v = 6) then .ok none
      else readMotifEntries argvj rounds (i + 1) (inputsList ++ [v])

/-- The loop over `j` of `readMicrosatelliteMotifLengths` and the two
statements after it, on the arguments that are left; `locals` holds `inputs`
and `inputsList` once they are assigned. The result is the value returned and
the store. The test `argv[j][1] != 'm'` reads past the terminator of an empty
argument, which is not defined; so is the use of the two locals when no
argument assigned them. -/
def readMicrosatelliteMotifLengthsLoop (s : Store) :
    List (List Char) → Option (Int × List Int) → Except Err (Int × Store)
  | [], none => .error (.undefined "use of inputs and inputsList, which have no value")
  | [], some (inputs, inputsList) => .ok (inputs, { s with motif_lengths := some inputsList })
  | argvj :: rest, locals =>
    if argvj = [] then .error (.undefined "read past the terminator of an empty argument")
    else if charAt argvj 1 ≠ 'm' then readMicrosatelliteMotifLengthsLoop s rest locals
    else
      match readMotifEntries argvj ((argvj.length - 1) / 2) 0 [] with
      | .error e => .error e
      | .ok none => .ok (-1, s)
      | .ok (some inputsList) =>
        readMicrosatelliteMotifLengthsLoop s rest
          (some ((((argvj.length - 1) / 2 : Nat) : Int), inputsList))

/-- Embeds `readMicrosatelliteMotifLengths`; `args` are `argv[1]` to
`argv[argc-1]`. -/
def readMicrosatelliteMotifLengths (s : Store) (args : List (List Char)) :
    Except Err (Int × Store) :=
  readMicrosatelliteMotifLengthsLoop s args none

/-- A payload of single digits separated by commas. -/
def motifPayload : List Char → List Char
  | [] => []
  | [d] => [d]
  | d :: e :: ds => d :: ',' :: motifPayload (e :: ds)

/-- The argument `-m` followed by the digits `ds` separated by commas. -/
def motifArgument (ds : List Char) : List Char := '-' :: 'm' :: motifPayload ds

/-- The integers denoted by a list of digits. -/
def motifValues (ds : List Char) : List Int := ds.map (fun d => (digitVal d : Int))

/-- The motif lengths of ONeSAMP: 2, 3, 4 and 6. -/
def isMotifLength (v : Int) : Prop := v = 2 ∨ v = 3 ∨ v = 4 ∨ v = 6

instance (v : Int) : Decidable (isMotifLength v) := by
  unfold isMotifLength; infer_instance

/-- An argument other than `-m`: it is not empty and its second character is
not `m`. -/
def notMotifArgument (a : List Char) : Prop := a ≠ [] ∧ charAt a 1 ≠ 'm'

instance (a : List Char) : Decidable (notMotifArgument a) := by
  unfold notMotifArgument; infer_instance

/-- Genotypes `(250000000, 250000000)` for every individual at every locus. -/
def genotypesLarge : Int → Int → Int × Int := fun _ _ => (250000000, 250000000)

/-! ## The endpoints of a `-b` payload -/

/-- The two endpoints that a payload holds, from what `sscanf` reads of it: the
two numbers of `a,b`, the number of `a` twice, none when no number is read. -/
def payloadEndpoints : Option Int × Option Int → Option (Int × Int)
  | (some x, some y) => some (x, y)
  | (some x, none) => some (x, x)
  | (none, _) => none

/-- A number that the test of branch `-b` lets through: positive and even. -/
def positiveEven (x : Int) : Prop := 0 < x ∧ x % 2 = 0

instance (x : Int) : Decidable (positiveEven x) := by
  unfold positiveEven; infer_instance

/-! # Theorems -/

/-! ## Sequencing in `Except` -/

@[simp] theorem bind_ok {α β : Type} (a : α) (f : α → Except Err β) :
    (Except.ok a >>= f) = f a := rfl

@[simp] theorem bind_error {α β : Type} (e : Err) (f : α → Except Err β) :
    ((Except.error e : Except Err α) >>= f) = Except.error e := rfl

@[simp] theorem pure_eq_ok {α : Type} (a : α) : (pure a : Except Err α) = Except.ok a := rfl

theorem bind_eq_ok {α β : Type} {x : Except Err α} {f : α → Except Err β} {b : β}
    (h : (x >>= f) = Except.ok b) : ∃ a, x = Except.ok a ∧ f a = Except.ok b := by
  cases x with
  | error e => simp at h
  | ok a => exact ⟨a, rfl, h⟩

/-! ## One argument -/

/-- On a positive `int`, the test `x & 1 != 0` of the source is the parity
test: the operand `1 != 0` has the value `1`. -/
theorem bitAnd_one (x : Int) (hx : 0 < x) : bitAnd x (cTruth ((1 : Int) ≠ 0)) = x % 2 := by
  obtain ⟨n, rfl⟩ := Int.eq_ofNat_of_zero_le hx.le
  have h1 : cTruth ((1 : Int) ≠ 0) = ((1 : Nat) : Int) := by simp [cTruth]
  rw [h1]
  show ((n &&& 1 : Nat) : Int) = _
  rw [Nat.and_one_is_mod]
  norm_cast

/-- The test of branch `-b` fails exactly on a pair of positive even numbers. -/
theorem bottleneck_test_iff (b : Int × Int) :
    ¬(b.1 ≤ 0 ∨ bitAnd b.1 (cTruth ((1 : Int) ≠ 0)) ≠ 0
        ∨ b.2 ≤ 0 ∨ bitAnd b.2 (cTruth ((1 : Int) ≠ 0)) ≠ 0)
      ↔ (0 < b.1 ∧ b.1 % 2 = 0) ∧ (0 < b.2 ∧ b.2 % 2 = 0) := by
  constructor
  · intro h
    simp only [not_or, not_le, ne_eq, not_not] at h
    obtain ⟨h1, h2, h3, h4⟩ := h
    rw [bitAnd_one _ h1] at h2
    rw [bitAnd_one _ h3] at h4
    exact ⟨⟨h1, h2⟩, ⟨h3, h4⟩⟩
  · rintro ⟨⟨h1, h2⟩, ⟨h3, h4⟩⟩
    simp only [not_or, not_le, ne_eq, not_not]
    exact ⟨h1, by rw [bitAnd_one _ h1]; exact h2, h3, by rw [bitAnd_one _ h3]; exact h4⟩

/-- What a successful round of the loop does, branch by branch. -/
theorem parseArgumentsBody_ok {s s1 : Store} {a : List Char}
    (h : parseArgumentsBody s a = .ok s1) :
    charAt a 0 = '-' ∧
    ((charAt a 1 = 'r' ∧ s.randomFlag ≠ 1 ∧ s.randomFlag ≠ 0
        ∧ ∃ v : Int, (v = 1 ∨ v = 0) ∧ s1 = { s with randomFlag := v })
    ∨ (charAt a 1 = 'l' ∧ s.num_loci = -1
        ∧ ∃ n, parsePositiveInt a = .ok n
          ∧ s1 = { s with num_loci := n, num_loci_allocation := n })
    ∨ (charAt a 1 = 'i' ∧ s.input_individuals_count = -1
        ∧ ∃ n, parsePositiveInt a = .ok n
          ∧ s1 = { s with
              input_individuals_count := n
              input_individuals_count_allocation := n
              final_individuals_count := n })
    ∨ (charAt a 1 = 'b' ∧ s.bottleneck_individuals_count = none
        ∧ ∃ b : Int × Int, parsePositiveIntPair a = .ok b
          ∧ ((0 < b.1 ∧ b.1 % 2 = 0) ∧ (0 < b.2 ∧ b.2 % 2 = 0))
          ∧ s1 = { s with bottleneck_individuals_count := some (b.1 / 2, b.2 / 2) })
    ∨ (charAt a 1 = 'd' ∧ s.bottleneck_length = none
        ∧ ∃ d, parsePositiveIntPair a = .ok d ∧ s1 = { s with bottleneck_length := some d })
    ∨ ((charAt a 1 = 'm' ∨ charAt a 1 = 's') ∧ s.isMicrosats = -1
        ∧ s1 = { s with isMicrosats := if charAt a 1 = 'm' then TRUE else FALSE })
    ∨ (charAt a 1 = 't' ∧ s.repetitions = -1
        ∧ ∃ n, parsePositiveInt a = .ok n ∧ s1 = { s with repetitions := n })
    ∨ (charAt a 1 = 'u' ∧ s.mutation_rate = none
        ∧ ∃ u, (parsePositiveDoublePair a >>= storedDoublePair) = .ok u
          ∧ s1 = { s with mutation_rate := some u })
    ∨ (charAt a 1 = 'v' ∧ s.theta = none
        ∧ ∃ v, (parsePositiveDoublePair a >>= storedDoublePair) = .ok v
          ∧ s1 = { s with theta := some v })
    ∨ ((charAt a 1 = 'x' ∨ charAt a 1 = 'e' ∨ charAt a 1 = 'w' ∨ charAt a 1 = 'g'
          ∨ charAt a 1 = 'p')
        ∧ (s.syntax_check = FALSE ∧ s.example_ = FALSE ∧ s.raw_stats = FALSE
          ∧ s.single_generation = FALSE)
        ∧ s1 = { s with
            example_ := if charAt a 1 = 'e' then TRUE else s.example_
            syntax_check := if charAt a 1 = 'x' then TRUE else s.syntax_check
            raw_stats := if charAt a 1 = 'w' then TRUE else s.raw_stats
            single_generation := if charAt a 1 = 'g' then TRUE else s.single_generation
            example_pop := if charAt a 1 = 'p' then TRUE else s.example_pop })
    ∨ (charAt a 1 = 'f' ∧ s.minAlleleFrequency = -1
        ∧ ∃ f, (parsePositiveDouble a >>= storedDouble) = .ok f
          ∧ s1 = { s with minAlleleFrequency := f })
    ∨ (charAt a 1 = 'a' ∧ s.absentDataExtrapolate = FALSE
        ∧ s1 = { s with absentDataExtrapolate := TRUE })
    ∨ (charAt a 1 = 'o' ∧ s.omitThreshold = -1
        ∧ ∃ o, (parsePositiveDouble a >>= storedDouble) = .ok o
          ∧ s1 = { s with omitThreshold := o })) := by
  unfold parseArgumentsBody at h
  by_cases h0 : charAt a 0 = '-'
  swap
  · rw [if_pos h0] at h
    cases h
  rw [if_neg (not_not.mpr h0)] at h
  refine ⟨h0, ?_⟩
  by_cases hc : charAt a 1 = 'r'
  · rw [if_pos hc] at h
    refine Or.inl ⟨hc, ?_⟩
    unfold onFlagR at h
    split_ifs at h with h1 h2 h3 h4 h5
    · cases h
    · cases h
    · exact ⟨fun e => h1 (Or.inl e), fun e => h1 (Or.inr e), 1, Or.inl rfl,
        (Except.ok.inj h).symm⟩
    · exact ⟨fun e => h1 (Or.inl e), fun e => h1 (Or.inr e), 0, Or.inr rfl,
        (Except.ok.inj h).symm⟩
    · exact ⟨fun e => h1 (Or.inl e), fun e => h1 (Or.inr e), 0, Or.inr rfl,
        (Except.ok.inj h).symm⟩
    · cases h
  rw [if_neg hc] at h
  clear hc
  by_cases hc : charAt a 1 = 'l'
  · rw [if_pos hc] at h
    refine Or.inr (Or.inl ⟨hc, ?_⟩)
    unfold onFlagL at h
    split_ifs at h with h1
    · cases h
    · cases hr : (parsePositiveInt a) with
      | error e =>
        rw [hr] at h
        cases h
      | ok n =>
        rw [hr] at h
        exact ⟨not_not.mp h1, n, rfl, (Except.ok.inj h).symm⟩
  rw [if_neg hc] at h
  clear hc
  by_cases hc : charAt a 1 = 'i'
  · rw [if_pos hc] at h
    refine Or.inr (Or.inr (Or.inl ⟨hc, ?_⟩))
    unfold onFlagI at h
    split_ifs at h with h1
    · cases h
    · cases hr : (parsePositiveInt a) with
      | error e =>
        rw [hr] at h
        cases h
      | ok n =>
        rw [hr] at h
        exact ⟨not_not.mp h1, n, rfl, (Except.ok.inj h).symm⟩
  rw [if_neg hc] at h
  clear hc
  by_cases hc : charAt a 1 = 'b'
  · rw [if_pos hc] at h
    refine Or.inr (Or.inr (Or.inr (Or.inl ⟨hc, ?_⟩)))
    unfold onFlagB at h
    by_cases h1 : s.bottleneck_individuals_count ≠ none
    · rw [if_pos h1] at h
      cases h
    rw [if_neg h1] at h
    cases hr : parsePositiveIntPair a with
    | error e =>
      rw [hr] at h
      cases h
    | ok b =>
      rw [hr] at h
      by_cases h2 : b.1 ≤ 0 ∨ bitAnd b.1 (cTruth ((1 : Int) ≠ 0)) ≠ 0
          ∨ b.2 ≤ 0 ∨ bitAnd b.2 (cTruth ((1 : Int) ≠ 0)) ≠ 0
      · simp only [if_pos h2] at h
        cases h
      · simp only [if_neg h2] at h
        exact ⟨not_not.mp h1, b, rfl, (bottleneck_test_iff _).mp h2, (Except.ok.inj h).symm⟩
  rw [if_neg hc] at h
  clear hc
  by_cases hc : charAt a 1 = 'd'
  · rw [if_pos hc] at h
    refine Or.inr (Or.inr (Or.inr (Or.inr (Or.inl ⟨hc, ?_⟩))))
    unfold onFlagD at h
    split_ifs at h with h1
    · cases h
    · cases hr : (parsePositiveIntPair a) with
      | error e =>
        rw [hr] at h
        cases h
      | ok n =>
        rw [hr] at h
        exact ⟨not_not.mp h1, n, rfl, (Except.ok.inj h).symm⟩
  rw [if_neg hc] at h
  clear hc
  by_cases hc : charAt a 1 = 'm' ∨ charAt a 1 = 's'
  · rw [if_pos hc] at h
    refine Or.inr (Or.inr (Or.inr (Or.inr (Or.inr (Or.inl ⟨hc, ?_⟩)))))
    unfold onFlagMS at h
    split_ifs at h with h1 h2
    · cases h
    · exact ⟨not_not.mp h1, by rw [if_pos h2]; exact (Except.ok.inj h).symm⟩
    · exact ⟨not_not.mp h1, by rw [if_neg h2]; exact (Except.ok.inj h).symm⟩
  rw [if_neg hc] at h
  clear hc
  by_cases hc : charAt a 1 = 't'
  · rw [if_pos hc] at h
    refine Or.inr (Or.inr (Or.inr (Or.inr (Or.inr (Or.inr (Or.inl ⟨hc, ?_⟩))))))
    unfold onFlagT at h
    split_ifs at h with h1
    · cases h
    · cases hr : (parsePositiveInt a) with
      | error e =>
        rw [hr] at h
        cases h
      | ok n =>
        rw [hr] at h
        exact ⟨not_not.mp h1, n, rfl, (Except.ok.inj h).symm⟩
  rw [if_neg hc] at h
  clear hc
  by_cases hc : charAt a 1 = 'u'
  · rw [if_pos hc] at h
    refine Or.inr (Or.inr (Or.inr (Or.inr (Or.inr (Or.inr (Or.inr (Or.inl ⟨hc, ?_⟩)))))))
    unfold onFlagU at h
    split_ifs at h with h1
    · cases h
    · cases hr : (parsePositiveDoublePair a >>= storedDoublePair) with
      | error e =>
        rw [hr] at h
        cases h
      | ok n =>
        rw [hr] at h
        exact ⟨not_not.mp h1, n, rfl, (Except.ok.inj h).symm⟩
  rw [if_neg hc] at h
  clear hc
  by_cases hc : charAt a 1 = 'v'
  · rw [if_pos hc] at h
    refine Or.inr (Or.inr (Or.inr (Or.inr (Or.inr (Or.inr (Or.inr (Or.inr (Or.inl ⟨hc, ?_⟩))))))))
    unfold onFlagV at h
    split_ifs at h with h1
    · cases h
    · cases hr : (parsePositiveDoublePair a >>= storedDoublePair) with
      | error e =>
        rw [hr] at h
        cases h
      | ok n =>
        rw [hr] at h
        exact ⟨not_not.mp h1, n, rfl, (Except.ok.inj h).symm⟩
  rw [if_neg hc] at h
  clear hc
  by_cases hc : charAt a 1 = 'x' ∨ charAt a 1 = 'e' ∨ charAt a 1 = 'w'
      ∨ charAt a 1 = 'g' ∨ charAt a 1 = 'p'
  · rw [if_pos hc] at h
    refine Or.inr (Or.inr (Or.inr (Or.inr (Or.inr (Or.inr (Or.inr (Or.inr (Or.inr (Or.inl ⟨hc, ?_⟩)))))))))
    unfold onFlagMode at h
    by_cases h1 : s.syntax_check ≠ FALSE ∨ s.example_ ≠ FALSE ∨ s.raw_stats ≠ FALSE
        ∨ s.single_generation ≠ FALSE
    · rw [if_pos h1] at h
      cases h
    · rw [if_neg h1] at h
      simp only [not_or, not_not] at h1
      exact ⟨h1, (Except.ok.inj h).symm⟩
  rw [if_neg hc] at h
  clear hc
  by_cases hc : charAt a 1 = 'f'
  · rw [if_pos hc] at h
    refine Or.inr (Or.inr (Or.inr (Or.inr (Or.inr (Or.inr (Or.inr (Or.inr (Or.inr (Or.inr (Or.inl ⟨hc, ?_⟩))))))))))
    unfold onFlagF at h
    split_ifs at h with h1
    · cases h
    · cases hr : (parsePositiveDouble a >>= storedDouble) with
      | error e =>
        rw [hr] at h
        cases h
      | ok n =>
        rw [hr] at h
        exact ⟨not_not.mp h1, n, rfl, (Except.ok.inj h).symm⟩
  rw [if_neg hc] at h
  clear hc
  by_cases hc : charAt a 1 = 'a'
  · rw [if_pos hc] at h
    refine Or.inr (Or.inr (Or.inr (Or.inr (Or.inr (Or.inr (Or.inr (Or.inr (Or.inr (Or.inr (Or.inr (Or.inl ⟨hc, ?_⟩)))))))))))
    unfold onFlagA at h
    split_ifs at h with h1
    · cases h
    · exact ⟨not_not.mp h1, (Except.ok.inj h).symm⟩
  rw [if_neg hc] at h
  clear hc
  by_cases hc : charAt a 1 = 'o'
  · rw [if_pos hc] at h
    refine Or.inr (Or.inr (Or.inr (Or.inr (Or.inr (Or.inr (Or.inr (Or.inr (Or.inr (Or.inr (Or.inr (Or.inr (⟨hc, ?_⟩))))))))))))
    unfold onFlagO at h
    split_ifs at h with h1
    · cases h
    · cases hr : (parsePositiveDouble a >>= storedDouble) with
      | error e =>
        rw [hr] at h
        cases h
      | ok n =>
        rw [hr] at h
        exact ⟨not_not.mp h1, n, rfl, (Except.ok.inj h).symm⟩
  rw [if_neg hc] at h
  clear hc
  cases h


/-- The branch taken by an argument with a given flag letter. -/
theorem parseArgumentsBody_mode {s : Store} {a : List Char} (h0 : charAt a 0 = '-')
    (h1 : charAt a 1 = 'x' ∨ charAt a 1 = 'e' ∨ charAt a 1 = 'w' ∨ charAt a 1 = 'g'
      ∨ charAt a 1 = 'p') :
    parseArgumentsBody s a = onFlagMode s a := by
  unfold parseArgumentsBody
  rcases h1 with h | h | h | h | h <;> rw [h0, h] <;> rfl

/-! ## The loop over the arguments -/

theorem parseArgumentsLoop_append (s : Store) (xs ys : List (List Char)) :
    parseArgumentsLoop s (xs ++ ys) =
      match parseArgumentsLoop s xs with
      | .error e => .error e
      | .ok s1 => parseArgumentsLoop s1 ys := by
  induction xs generalizing s with
  | nil => simp [parseArgumentsLoop]
  | cons x xs ih =>
    simp only [List.cons_append, parseArgumentsLoop]
    cases parseArgumentsBody s x with
    | error e => rfl
    | ok s1 => exact ih s1

/-- A run of the loop that succeeds passes through every argument: it splits
at any position into a run over the arguments before, one round of the body,
and a run over the arguments after. -/
theorem parseArgumentsLoop_split {s s3 : Store} {pre post : List (List Char)} {a : List Char}
    (h : parseArgumentsLoop s (pre ++ a :: post) = .ok s3) :
    ∃ s1 s2, parseArgumentsLoop s pre = .ok s1 ∧ parseArgumentsBody s1 a = .ok s2
      ∧ parseArgumentsLoop s2 post = .ok s3 := by
  rw [parseArgumentsLoop_append] at h
  cases h1 : parseArgumentsLoop s pre with
  | error e => rw [h1] at h; cases h
  | ok s1 =>
    rw [h1] at h
    simp only [parseArgumentsLoop] at h
    cases h2 : parseArgumentsBody s1 a with
    | error e => rw [h2] at h; cases h
    | ok s2 =>
      rw [h2] at h
      exact ⟨s1, s2, rfl, h2, h⟩

/-- An error raised by an argument ends the loop with that error, whatever
follows. -/
theorem parseArgumentsLoop_error {s s1 : Store} {pre : List (List Char)} {a : List Char}
    {e : Err} (post : List (List Char)) (h1 : parseArgumentsLoop s pre = .ok s1) (h2 : parseArgumentsBody s1 a = .error e) :
    parseArgumentsLoop s (pre ++ a :: post) = .error e := by
  rw [parseArgumentsLoop_append, h1]
  simp only [parseArgumentsLoop, h2]

/-- A property of the store that every argument of a list keeps is kept by
the loop over that list. -/
theorem parseArgumentsLoop_invariant (P : Store → Prop) (args : List (List Char))
    (hbody : ∀ a ∈ args, ∀ s s1, parseArgumentsBody s a = .ok s1 → P s → P s1)
    {s s1 : Store} (h : parseArgumentsLoop s args = .ok s1) (hs : P s) : P s1 := by
  induction args generalizing s with
  | nil =>
    simp only [parseArgumentsLoop, Except.ok.injEq] at h
    exact h ▸ hs
  | cons a rest ih =>
    simp only [parseArgumentsLoop] at h
    cases hb : parseArgumentsBody s a with
    | error e => rw [hb] at h; cases h
    | ok s2 =>
      rw [hb] at h
      exact ih (fun b hb2 => hbody b (List.mem_cons_of_mem _ hb2)) h
        (hbody a (List.mem_cons_self _ _) s s2 hb hs)

theorem parseArgumentsBody_modeGuard {s s1 : Store} {a : List Char}
    (h : parseArgumentsBody s a = .ok s1) (hs : modeGuard s) : modeGuard s1 := by
  unfold modeGuard at *
  rcases (parseArgumentsBody_ok h).2 with
    ⟨_, _, _, v, _, rfl⟩ | ⟨_, _, _, _, rfl⟩ | ⟨_, _, _, _, rfl⟩ | ⟨_, _, _, _, _, rfl⟩
    | ⟨_, _, _, _, rfl⟩ | ⟨_, _, rfl⟩ | ⟨_, _, _, _, rfl⟩ | ⟨_, _, _, _, rfl⟩
    | ⟨_, _, _, _, rfl⟩ | ⟨_, hg, rfl⟩ | ⟨_, _, _, _, rfl⟩
    | ⟨_, _, rfl⟩ | ⟨_, _, _, _, rfl⟩
  all_goals first | exact hs | skip
  exact absurd hg.1 (by
    rcases hs with h1 | h1 | h1 | h1
    · exact fun _ => h1 hg.1
    · exact fun _ => h1 hg.2.1
    · exact fun _ => h1 hg.2.2.1
    · exact fun _ => h1 hg.2.2.2)



/-! ## Filling a draw vector -/

theorem fillVector_length {α : Type} {body : Nat → Except Err α} {j n : Nat} {v : List α}
    (h : fillVector body j n = .ok v) : v.length = n := by
  induction n generalizing j v with
  | zero =>
    simp only [fillVector, Except.ok.injEq] at h
    rw [← h]; rfl
  | succ n ih =>
    simp only [fillVector] at h
    cases hb : body j with
    | error e => rw [hb] at h; cases h
    | ok x =>
      rw [hb] at h
      cases hr : fillVector body (j + 1) n with
      | error e => rw [hr] at h; cases h
      | ok xs =>
        rw [hr] at h
        simp only [Except.ok.injEq] at h
        rw [← h, List.length_cons, ih hr]

/-- When every round succeeds the vector is filled. -/
theorem fillVector_of_ok {α : Type} (body : Nat → Except Err α) (g : Nat → α)
    (hbody : ∀ k, body k = .ok (g k)) (j n : Nat) :
    ∃ v, fillVector body j n = .ok v ∧ v.length = n := by
  induction n generalizing j with
  | zero => exact ⟨[], rfl, rfl⟩
  | succ n ih =>
    obtain ⟨v, hv, hl⟩ := ih (j + 1)
    refine ⟨g j :: v, ?_, by simp [hl]⟩
    simp only [fillVector, hbody, hv]

/-- The first round that fails ends the loop. -/
theorem fillVector_error {α : Type} {body : Nat → Except Err α} {e : Err} (j n : Nat)
    (hbody : body j = .error e) : fillVector body j (n + 1) = .error e := by
  simp only [fillVector, hbody]

/-- A filled vector with at least one entry means the first round succeeded. -/
theorem fillVector_first {α : Type} {body : Nat → Except Err α} {j n : Nat} {v : List α}
    (h : fillVector body j (n + 1) = .ok v) : ∃ x, body j = .ok x := by
  simp only [fillVector] at h
  cases hb : body j with
  | error e => rw [hb] at h; cases h
  | ok x => exact ⟨x, rfl⟩

theorem toNat_succ_pred {n : Int} (h : 0 < n) : n.toNat = (n.toNat - 1) + 1 := by
  omega

/-! ## The accessors on a store whose fields are known -/

theorem parseIterations_ok {s : Store} (h : 0 < s.repetitions) :
    parseIterations s = .ok s.repetitions := by
  simp [parseIterations, not_le.mpr h]

theorem parseIterations_error {s : Store} (h : s.repetitions ≤ 0) :
    parseIterations s = .error (.argument msgIterations) := by
  simp [parseIterations, h, reportArgumentError]

theorem parseIterations_inv {s : Store} {n : Int} (h : parseIterations s = .ok n) :
    0 < s.repetitions ∧ n = s.repetitions := by
  unfold parseIterations at h
  split_ifs at h with h1
  · cases h
  · exact ⟨not_le.mp h1, (Except.ok.inj h).symm⟩

/-! ## `allocateStruct7` -/

theorem allocateStruct7_inv {ext : Extern} {s s1 : Store} (h : allocateStruct7 ext s = .ok s1) :
    0 < s.repetitions ∧ (∃ b, s.bottleneck_individuals_count = some b)
      ∧ ∃ v : List Int, s1 = { s with bottleneck_individuals_count_random_choices := some v }
        ∧ (v.length : Int) = s.repetitions := by
  unfold allocateStruct7 at h
  obtain ⟨n, hn, h2⟩ := bind_eq_ok h
  obtain ⟨v, hv, h3⟩ := bind_eq_ok h2
  obtain ⟨hpos, rfl⟩ := parseIterations_inv hn
  have hlen := fillVector_length hv
  refine ⟨hpos, ?_, v, (Except.ok.inj h3).symm, by rw [hlen]; omega⟩
  rw [toNat_succ_pred hpos] at hv
  obtain ⟨x, hx⟩ := fillVector_first hv
  cases hb : s.bottleneck_individuals_count with
  | some b => exact ⟨b, rfl⟩
  | none => simp [parseBottleneckMin, hb, reportArgumentError] at hx

theorem allocateStruct7_of_valid (ext : Extern) {s : Store} {b : Int × Int}
    (hpos : 0 < s.repetitions) (hb : s.bottleneck_individuals_count = some b) :
    ∃ v : List Int,
      allocateStruct7 ext s = .ok { s with bottleneck_individuals_count_random_choices := some v }
        ∧ (v.length : Int) = s.repetitions := by
  obtain ⟨v, hv, hl⟩ := fillVector_of_ok
    (fun j => do
      let lo ← parseBottleneckMin s
      let hi ← parseBottleneckMax s
      pure (ext.randomQuantizedIntervalSelectionInt 7 j lo hi 1))
    (fun j => ext.randomQuantizedIntervalSelectionInt 7 j b.1 b.2 1)
    (fun k => by simp [parseBottleneckMin, parseBottleneckMax, hb]) 0 s.repetitions.toNat
  refine ⟨v, ?_, by rw [hl]; omega⟩
  unfold allocateStruct7
  rw [parseIterations_ok hpos, bind_ok, hv]
  rfl

theorem allocateStruct7_error_iterations (ext : Extern) {s : Store} (h : s.repetitions ≤ 0) :
    allocateStruct7 ext s = .error (.argument msgIterations) := by
  simp only [allocateStruct7, parseIterations_error h, bind_error]

theorem allocateStruct7_error_bottleneck (ext : Extern) {s : Store} (hpos : 0 < s.repetitions)
    (hb : s.bottleneck_individuals_count = none) :
    allocateStruct7 ext s = .error (.argument msgBottleneck) := by
  simp only [allocateStruct7, parseIterations_ok hpos, bind_ok]
  rw [toNat_succ_pred hpos, fillVector_error]
  · rfl
  · simp [parseBottleneckMin, hb, reportArgumentError]

/-! ## `allocateStruct8`, `allocateStruct9` and `allocateStruct10` -/

theorem parseBottleneckLengthMin_ok {s : Store} {d : Int × Int}
    (hd : s.bottleneck_length = some d) (h1 : 0 ≤ d.1) (h2 : 0 ≤ d.2) :
    parseBottleneckLengthMin s = .ok d.1 := by
  simp [parseBottleneckLengthMin, hd, not_lt.mpr h1, not_lt.mpr h2]

theorem parseBottleneckLengthMax_ok {s : Store} {d : Int × Int}
    (hd : s.bottleneck_length = some d) (h1 : 0 ≤ d.1) (h2 : 0 ≤ d.2) :
    parseBottleneckLengthMax s = .ok d.2 := by
  simp [parseBottleneckLengthMax, hd, not_lt.mpr h1, not_lt.mpr h2]

theorem parseMRateMin_ok {s : Store} {u : ℚ × ℚ}
    (hu : s.mutation_rate = some u) (h1 : 0 ≤ u.1) (h2 : 0 ≤ u.2) :
    parseMRateMin s = .ok u.1 := by
  simp [parseMRateMin, hu, not_lt.mpr h1, not_lt.mpr h2]

theorem parseMRateMax_ok {s : Store} {u : ℚ × ℚ}
    (hu : s.mutation_rate = some u) (h1 : 0 ≤ u.1) (h2 : 0 ≤ u.2) :
    parseMRateMax s = .ok u.2 := by
  simp [parseMRateMax, hu, not_lt.mpr h1, not_lt.mpr h2]

theorem parseBottleneckMin_ok {s : Store} {b : Int × Int}
    (hb : s.bottleneck_individuals_count = some b) : parseBottleneckMin s = .ok b.1 := by
  simp [parseBottleneckMin, hb]

theorem parseBottleneckMax_ok {s : Store} {b : Int × Int}
    (hb : s.bottleneck_individuals_count = some b) : parseBottleneckMax s = .ok b.2 := by
  simp [parseBottleneckMax, hb]

theorem parseThetaMin_ok {s : Store} {u t : ℚ × ℚ} {b : Int × Int}
    (hu : s.mutation_rate = some u) (hu1 : 0 ≤ u.1) (hu2 : 0 ≤ u.2)
    (hb : s.bottleneck_individuals_count = some b)
    (ht : s.theta = some t) (ht1 : 0 < t.1) (ht2 : 0 < t.2) :
    parseThetaMin s = .ok t.1 := by
  unfold parseThetaMin
  rw [parseMRateMin_ok hu hu1 hu2, parseMRateMax_ok hu hu1 hu2, parseBottleneckMin_ok hb,
    parseBottleneckMax_ok hb]
  simp [ht, not_le.mpr ht1, not_le.mpr ht2]

theorem parseThetaMax_ok {s : Store} {u t : ℚ × ℚ} {b : Int × Int}
    (hu : s.mutation_rate = some u) (hu1 : 0 ≤ u.1) (hu2 : 0 ≤ u.2)
    (hb : s.bottleneck_individuals_count = some b)
    (ht : s.theta = some t) (ht1 : 0 < t.1) (ht2 : 0 < t.2) :
    parseThetaMax s = .ok t.2 := by
  unfold parseThetaMax
  rw [parseMRateMin_ok hu hu1 hu2, parseMRateMax_ok hu hu1 hu2, parseBottleneckMin_ok hb,
    parseBottleneckMax_ok hb]
  simp [ht, not_le.mpr ht1, not_le.mpr ht2]

theorem allocateStruct8_inv {ext : Extern} {s s1 : Store} (h : allocateStruct8 ext s = .ok s1) :
    ∃ v : List Int, s1 = { s with bottleneck_length_random_choices := some v }
      ∧ (v.length : Int) = s.repetitions := by
  unfold allocateStruct8 at h
  obtain ⟨n, hn, h2⟩ := bind_eq_ok h
  obtain ⟨v, hv, h3⟩ := bind_eq_ok h2
  obtain ⟨hpos, rfl⟩ := parseIterations_inv hn
  have hlen := fillVector_length hv
  exact ⟨v, (Except.ok.inj h3).symm, by rw [hlen]; omega⟩

theorem allocateStruct9_inv {ext : Extern} {s s1 : Store} (h : allocateStruct9 ext s = .ok s1) :
    ∃ v : List ℚ, s1 = { s with theta_random_choices := some v }
      ∧ (v.length : Int) = s.repetitions := by
  unfold allocateStruct9 at h
  obtain ⟨n, hn, h2⟩ := bind_eq_ok h
  obtain ⟨v, hv, h3⟩ := bind_eq_ok h2
  obtain ⟨hpos, rfl⟩ := parseIterations_inv hn
  have hlen := fillVector_length hv
  exact ⟨v, (Except.ok.inj h3).symm, by rw [hlen]; omega⟩

theorem allocateStruct10_inv {ext : Extern} {s s1 : Store} (h : allocateStruct10 ext s = .ok s1) :
    ∃ v : List ℚ, s1 = { s with mutation_rate_random_choices := some v }
      ∧ (v.length : Int) = s.repetitions := by
  unfold allocateStruct10 at h
  obtain ⟨n, hn, h2⟩ := bind_eq_ok h
  obtain ⟨v, hv, h3⟩ := bind_eq_ok h2
  obtain ⟨hpos, rfl⟩ := parseIterations_inv hn
  have hlen := fillVector_length hv
  exact ⟨v, (Except.ok.inj h3).symm, by rw [hlen]; omega⟩

theorem allocateStruct8_of_valid (ext : Extern) {s : Store} {d : Int × Int}
    (hpos : 0 < s.repetitions) (hd : s.bottleneck_length = some d) (h1 : 0 ≤ d.1)
    (h2 : 0 ≤ d.2) :
    ∃ v : List Int,
      allocateStruct8 ext s = .ok { s with bottleneck_length_random_choices := some v }
        ∧ (v.length : Int) = s.repetitions := by
  obtain ⟨v, hv, hl⟩ := fillVector_of_ok
    (fun j => do
      let lo ← parseBottleneckLengthMin s
      let hi ← parseBottleneckLengthMax s
      pure (ext.randomQuantizedIntervalSelectionInt 8 j lo hi 1))
    (fun j => ext.randomQuantizedIntervalSelectionInt 8 j d.1 d.2 1)
    (fun k => by
      rw [parseBottleneckLengthMin_ok hd h1 h2, parseBottleneckLengthMax_ok hd h1 h2]; rfl)
    0 s.repetitions.toNat
  refine ⟨v, ?_, by rw [hl]; omega⟩
  unfold allocateStruct8
  rw [parseIterations_ok hpos, bind_ok, hv]
  rfl

theorem allocateStruct9_of_valid (ext : Extern) {s : Store} {u t : ℚ × ℚ} {b : Int × Int}
    (hpos : 0 < s.repetitions)
    (hu : s.mutation_rate = some u) (hu1 : 0 ≤ u.1) (hu2 : 0 ≤ u.2)
    (hb : s.bottleneck_individuals_count = some b)
    (ht : s.theta = some t) (ht1 : 0 < t.1) (ht2 : 0 < t.2) :
    ∃ v : List ℚ,
      allocateStruct9 ext s = .ok { s with theta_random_choices := some v }
        ∧ (v.length : Int) = s.repetitions := by
  obtain ⟨v, hv, hl⟩ := fillVector_of_ok
    (fun j => do
      let lo ← parseThetaMin s
      let hi ← parseThetaMax s
      pure (ext.randomQuantizedIntervalSelection 9 j lo hi (1 / 100000000)))
    (fun j => ext.randomQuantizedIntervalSelection 9 j t.1 t.2 (1 / 100000000))
    (fun k => by
      rw [parseThetaMin_ok hu hu1 hu2 hb ht ht1 ht2, parseThetaMax_ok hu hu1 hu2 hb ht ht1 ht2]
      rfl)
    0 s.repetitions.toNat
  refine ⟨v, ?_, by rw [hl]; omega⟩
  unfold allocateStruct9
  rw [parseIterations_ok hpos, bind_ok, hv]
  rfl

theorem allocateStruct10_of_valid (ext : Extern) {s : Store} {u : ℚ × ℚ}
    (hpos : 0 < s.repetitions)
    (hu : s.mutation_rate = some u) (hu1 : 0 ≤ u.1) (hu2 : 0 ≤ u.2) :
    ∃ v : List ℚ,
      allocateStruct10 ext s = .ok { s with mutation_rate_random_choices := some v }
        ∧ (v.length : Int) = s.repetitions := by
  obtain ⟨v, hv, hl⟩ := fillVector_of_ok
    (fun j => do
      let lo ← parseMRateMin s
      let hi ← parseMRateMax s
      pure (ext.randomQuantizedIntervalSelection 10 j lo hi (1 / 100000000)))
    (fun j => ext.randomQuantizedIntervalSelection 10 j u.1 u.2 (1 / 100000000))
    (fun k => by rw [parseMRateMin_ok hu hu1 hu2, parseMRateMax_ok hu hu1 hu2]; rfl)
    0 s.repetitions.toNat
  refine ⟨v, ?_, by rw [hl]; omega⟩
  unfold allocateStruct10
  rw [parseIterations_ok hpos, bind_ok, hv]
  rfl

theorem parseArgumentsBody_atMostOneMode {s s1 : Store} {a : List Char}
    (h : parseArgumentsBody s a = .ok s1) (hs : atMostOneMode s) : atMostOneMode s1 := by
  unfold atMostOneMode at *
  rcases (parseArgumentsBody_ok h).2 with
    ⟨_, _, _, v, _, rfl⟩ | ⟨_, _, _, _, rfl⟩ | ⟨_, _, _, _, rfl⟩ | ⟨_, _, _, _, _, rfl⟩
    | ⟨_, _, _, _, rfl⟩ | ⟨_, _, rfl⟩ | ⟨_, _, _, _, rfl⟩ | ⟨_, _, _, _, rfl⟩
    | ⟨_, _, _, _, rfl⟩ | ⟨hc, hg, rfl⟩ | ⟨_, _, _, _, rfl⟩
    | ⟨_, _, rfl⟩ | ⟨_, _, _, _, rfl⟩
  all_goals first | exact hs | skip
  obtain ⟨g1, g2, g3, g4⟩ := hg
  simp only [g1, g2, g3, g4]
  rcases hc with hc | hc | hc | hc | hc <;> simp [hc, FALSE]

theorem loopStart_atMostOneMode (s : Store) (programArg : List Char) :
    atMostOneMode (loopStart s programArg) := by
  simp [atMostOneMode, loopStart, resetArguments]

theorem loopStart_not_modeGuard (s : Store) (programArg : List Char) :
    (loopStart s programArg).syntax_check = FALSE ∧ (loopStart s programArg).example_ = FALSE
      ∧ (loopStart s programArg).raw_stats = FALSE
      ∧ (loopStart s programArg).single_generation = FALSE := by
  simp [loopStart, resetArguments]

/-- After a loop that succeeds at most one of `-x`, `-e`, `-w`, `-g` is set. -/
theorem parseArgumentsLoop_atMostOneMode {s0 s : Store} {programArg : List Char}
    {args : List (List Char)} (h : parseArgumentsLoop (loopStart s0 programArg) args = .ok s) :
    atMostOneMode s :=
  parseArgumentsLoop_invariant atMostOneMode args
    (fun _ _ _ _ hb hs => parseArgumentsBody_atMostOneMode hb hs) h
    (loopStart_atMostOneMode s0 programArg)

/-- An argument without an operation flag leaves the five operation flags. -/
theorem parseArgumentsBody_modes_unchanged {s s1 : Store} {a : List Char}
    (h : parseArgumentsBody s a = .ok s1) (ha : ¬ isModeFlag a) :
    s1.syntax_check = s.syntax_check ∧ s1.example_ = s.example_ ∧ s1.raw_stats = s.raw_stats
      ∧ s1.single_generation = s.single_generation ∧ s1.example_pop = s.example_pop := by
  rcases (parseArgumentsBody_ok h).2 with
    ⟨_, _, _, v, _, rfl⟩ | ⟨_, _, _, _, rfl⟩ | ⟨_, _, _, _, rfl⟩ | ⟨_, _, _, _, _, rfl⟩
    | ⟨_, _, _, _, rfl⟩ | ⟨_, _, rfl⟩ | ⟨_, _, _, _, rfl⟩ | ⟨_, _, _, _, rfl⟩
    | ⟨_, _, _, _, rfl⟩ | ⟨hc, hg, rfl⟩ | ⟨_, _, _, _, rfl⟩
    | ⟨_, _, rfl⟩ | ⟨_, _, _, _, rfl⟩
  all_goals first | exact ⟨rfl, rfl, rfl, rfl, rfl⟩ | skip
  exact absurd hc ha

theorem parseArgumentsLoop_modes_unchanged {s s1 : Store} {args : List (List Char)}
    (h : parseArgumentsLoop s args = .ok s1) (ha : ∀ a ∈ args, ¬ isModeFlag a) :
    s1.syntax_check = s.syntax_check ∧ s1.example_ = s.example_ ∧ s1.raw_stats = s.raw_stats
      ∧ s1.single_generation = s.single_generation ∧ s1.example_pop = s.example_pop :=
  parseArgumentsLoop_invariant
    (fun t => t.syntax_check = s.syntax_check ∧ t.example_ = s.example_
      ∧ t.raw_stats = s.raw_stats ∧ t.single_generation = s.single_generation
      ∧ t.example_pop = s.example_pop) args
    (fun a hmem t t1 hb ht => by
      obtain ⟨h1, h2, h3, h4, h5⟩ := parseArgumentsBody_modes_unchanged hb (ha a hmem)
      exact ⟨h1.trans ht.1, h2.trans ht.2.1, h3.trans ht.2.2.1, h4.trans ht.2.2.2.1,
        h5.trans ht.2.2.2.2⟩) h ⟨rfl, rfl, rfl, rfl, rfl⟩

/-- Once `-w` is set it stays set. -/
theorem parseArgumentsBody_raw_stats {s s1 : Store} {a : List Char}
    (h : parseArgumentsBody s a = .ok s1) (hs : s.raw_stats ≠ 0) : s1.raw_stats ≠ 0 := by
  rcases (parseArgumentsBody_ok h).2 with
    ⟨_, _, _, v, _, rfl⟩ | ⟨_, _, _, _, rfl⟩ | ⟨_, _, _, _, rfl⟩ | ⟨_, _, _, _, _, rfl⟩
    | ⟨_, _, _, _, rfl⟩ | ⟨_, _, rfl⟩ | ⟨_, _, _, _, rfl⟩ | ⟨_, _, _, _, rfl⟩
    | ⟨_, _, _, _, rfl⟩ | ⟨hc, hg, rfl⟩ | ⟨_, _, _, _, rfl⟩
    | ⟨_, _, rfl⟩ | ⟨_, _, _, _, rfl⟩
  all_goals first | exact hs | skip
  exact absurd hg.2.2.1 hs

/-- A loop that succeeds on a command line with `-w` ends with `raw_stats`
set and with `syntax_check` and `single_generation` clear. -/
theorem parseArgumentsLoop_raw_stats {s0 s : Store} {programArg : List Char}
    {args : List (List Char)} (h : parseArgumentsLoop (loopStart s0 programArg) args = .ok s)
    (hw : ∃ a ∈ args, charAt a 1 = 'w') :
    s.raw_stats ≠ 0 ∧ s.syntax_check = 0 ∧ s.single_generation = 0 := by
  obtain ⟨a, hmem, hc⟩ := hw
  obtain ⟨pre, post, rfl⟩ := List.append_of_mem hmem
  obtain ⟨s1, s2, _, h2, h3⟩ := parseArgumentsLoop_split h
  have hraw2 : s2.raw_stats ≠ 0 := by
    rcases (parseArgumentsBody_ok h2).2 with
      ⟨hr, _⟩ | ⟨hr, _⟩ | ⟨hr, _⟩ | ⟨hr, _⟩
      | ⟨hr, _⟩ | ⟨hr, _⟩ | ⟨hr, _⟩ | ⟨hr, _⟩
      | ⟨hr, _⟩ | ⟨_, _, rfl⟩ | ⟨hr, _⟩
      | ⟨hr, _⟩ | ⟨hr, _⟩
    all_goals first | exact absurd hr (by rw [hc]; decide) | skip
    · simp [hc, TRUE]
  have hraw : s.raw_stats ≠ 0 :=
    parseArgumentsLoop_invariant (fun t => t.raw_stats ≠ 0) post
      (fun _ _ _ _ hb hs => parseArgumentsBody_raw_stats hb hs) h3 hraw2
  have hone := parseArgumentsLoop_atMostOneMode h
  unfold atMostOneMode at hone
  obtain ⟨_, h12, _, _, _, h34⟩ := hone
  refine ⟨hraw, ?_, ?_⟩
  · rcases h12 with h12 | h12
    · exact h12
    · exact absurd h12 hraw
  · rcases h34 with h34 | h34
    · exact absurd h34 hraw
    · exact h34

/-! ## After the loop -/

theorem rawStatsOverrides_inv {s s1 : Store} (h : rawStatsOverrides s = .ok s1) :
    s1 = { s with
      final_individuals_count := s.input_individuals_count
      bottleneck_length := none
      bottleneck_individuals_count := some (2, 2)
      repetitions := 1 } := by
  unfold rawStatsOverrides at h
  cases hb : s.bottleneck_individuals_count with
  | none => rw [hb] at h; cases h
  | some b => rw [hb] at h; exact (Except.ok.inj h).symm

/-- What the draws leave in the store when they succeed. `t` is the store with
the override of the repetitions made in single generation mode. -/
theorem parseArgumentsDraws_inv {ext : Extern} {s s2 : Store}
    (h : parseArgumentsDraws ext s = .ok s2) :
    ∃ (t : Store) (v : List Int),
      t = (if s.single_generation ≠ 0 then { s with repetitions := 1 } else s)
      ∧ 0 < t.repetitions ∧ (v.length : Int) = t.repetitions
      ∧ s2.bottleneck_individuals_count_random_choices = some v
      ∧ s2.syntax_check = s.syntax_check ∧ s2.example_ = s.example_
      ∧ s2.raw_stats = s.raw_stats ∧ s2.single_generation = s.single_generation
      ∧ s2.example_pop = s.example_pop
      ∧ s2.input_individuals_count = s.input_individuals_count
      ∧ s2.isMicrosats = s.isMicrosats
      ∧ (s.raw_stats ≠ 0 →
          s2.repetitions = 1 ∧ s2.bottleneck_individuals_count = some (2, 2)
            ∧ s2.final_individuals_count = s.input_individuals_count)
      ∧ (s.raw_stats = 0 →
          s2.repetitions = t.repetitions
            ∧ s2.bottleneck_individuals_count = s.bottleneck_individuals_count) := by
  unfold parseArgumentsDraws at h
  simp only [parseSingleGeneration, parseRawSample, parseSyntaxCheck] at h
  generalize ht : (if s.single_generation ≠ 0 then { s with repetitions := 1 } else s) = t at h
  have hflags : t.syntax_check = s.syntax_check ∧ t.example_ = s.example_
      ∧ t.raw_stats = s.raw_stats ∧ t.single_generation = s.single_generation
      ∧ t.example_pop = s.example_pop
      ∧ t.input_individuals_count = s.input_individuals_count
      ∧ t.isMicrosats = s.isMicrosats
      ∧ t.bottleneck_individuals_count = s.bottleneck_individuals_count := by
    rw [← ht]; split_ifs <;> exact ⟨rfl, rfl, rfl, rfl, rfl, rfl, rfl, rfl⟩
  obtain ⟨f1, f2, f3, f4, f5, f6, f7, f8⟩ := hflags
  obtain ⟨t1, h7, hrest⟩ := bind_eq_ok h
  obtain ⟨hpos, _, v, rfl, hlen⟩ := allocateStruct7_inv h7
  refine ⟨t, v, rfl, hpos, hlen, ?_⟩
  by_cases hraw : s.raw_stats ≠ 0
  · have hraw1 : t.raw_stats ≠ 0 := by rw [f3]; exact hraw
    simp only [if_pos hraw1] at hrest
    have := rawStatsOverrides_inv hrest
    subst this
    exact ⟨rfl, f1, f2, f3, f4, f5, f6, f7, fun _ => ⟨rfl, rfl, f6⟩, fun h0 => absurd h0 hraw⟩
  · have hraw1 : ¬ t.raw_stats ≠ 0 := by rw [f3]; exact hraw
    simp only [if_neg hraw1] at hrest
    by_cases hsc : t.syntax_check = 0
    · simp only [if_pos hsc] at hrest
      obtain ⟨t2, h89, h10⟩ := bind_eq_ok hrest
      obtain ⟨v10, rfl, _⟩ := allocateStruct10_inv h10
      by_cases hsg : t.single_generation = 0
      · simp only [if_pos hsg] at h89
        obtain ⟨t3, h8, h9⟩ := bind_eq_ok h89
        obtain ⟨v8, rfl, _⟩ := allocateStruct8_inv h8
        obtain ⟨v9, rfl, _⟩ := allocateStruct9_inv h9
        exact ⟨rfl, f1, f2, f3, f4, f5, f6, f7, fun h1 => absurd h1 hraw, fun _ => ⟨rfl, f8⟩⟩
      · simp only [if_neg hsg] at h89
        have := (Except.ok.inj h89).symm
        subst this
        exact ⟨rfl, f1, f2, f3, f4, f5, f6, f7, fun h1 => absurd h1 hraw, fun _ => ⟨rfl, f8⟩⟩
    · simp only [if_neg hsc] at hrest
      have := (Except.ok.inj hrest).symm
      subst this
      exact ⟨rfl, f1, f2, f3, f4, f5, f6, f7, fun h1 => absurd h1 hraw, fun _ => ⟨rfl, f8⟩⟩

/-- The result of `parseArguments` through its two parts. -/
theorem parseArguments_eq_ok {ext : Extern} {s0 s : Store} {programArg : List Char}
    {args : List (List Char)} (h : parseArguments ext s0 programArg args = .ok s) :
    ∃ s1, parseArgumentsLoop (loopStart s0 programArg) args = .ok s1
      ∧ parseArgumentsResolve ext s1 = .ok s := by
  unfold parseArguments at h
  cases h1 : parseArgumentsLoop (loopStart s0 programArg) args with
  | error e => rw [h1] at h; cases h
  | ok s1 => rw [h1] at h; exact ⟨s1, rfl, h⟩

theorem parseArguments_of_loop {ext : Extern} {s0 s1 : Store} {programArg : List Char}
    {args : List (List Char)} (h : parseArgumentsLoop (loopStart s0 programArg) args = .ok s1) :
    parseArguments ext s0 programArg args = parseArgumentsResolve ext s1 := by
  unfold parseArguments
  rw [h]

theorem parseArguments_of_loop_error {ext : Extern} {s0 : Store} {programArg : List Char}
    {args : List (List Char)} {e : Err}
    (h : parseArgumentsLoop (loopStart s0 programArg) args = .error e) :
    parseArguments ext s0 programArg args = .error e := by
  unfold parseArguments
  rw [h]

/-- A successful `parseArgumentsResolve` outside syntax check mode went
through the draws, and an operation is selected in its result. -/
theorem parseArgumentsResolve_inv {ext : Extern} {s1 s : Store}
    (h : parseArgumentsResolve ext s1 = .ok s) (hsc : s1.syntax_check = 0) :
    parseArgumentsDraws ext s1 = .ok s
      ∧ ¬(s.syntax_check = 0 ∧ s.raw_stats = 0 ∧ s.example_ = 0 ∧ s.single_generation = 0
          ∧ s.example_pop = 0) := by
  unfold parseArgumentsResolve at h
  simp only [parseSyntaxCheck, parseRawSample, parseExample, parseSingleGeneration,
    parseExamplePop, if_pos hsc] at h
  obtain ⟨s2, h2, h3⟩ := bind_eq_ok h
  obtain ⟨s3, h4, h5⟩ := bind_eq_ok h2
  obtain ⟨_, _, h6⟩ := bind_eq_ok h5
  have := (Except.ok.inj h6).symm
  subst this
  split_ifs at h3 with hm
  · cases h3
  · have := (Except.ok.inj h3).symm
    subst this
    exact ⟨h4, hm⟩

/-! ## Fetching the arguments -/

theorem readSample_zero {α : Type} {v : List α} (h : 0 < v.length) :
    ∃ x, readSample (some v) 0 = .ok x := by
  cases v with
  | nil => simp at h
  | cons x xs => exact ⟨x, by simp [readSample]⟩

/-- In raw statistics mode the arguments fetched are the kind of loci, the
number of loci, the number of input individuals and the omission threshold. -/
theorem fetchGeneral_raw_stats {s : Store} (hraw : s.raw_stats ≠ 0) (hm : s.isMicrosats ≠ -1)
    (hl : 0 < s.num_loci) (hi : 0 < s.input_individuals_count) (ho : s.omitThreshold ≠ -1) :
    fetchGeneral s = .ok () := by
  simp [fetchGeneral, unlessRawSample, parseRawSample, hraw, parseFormFlag, hm, parseNLoci,
    not_le.mpr hl, parseInputSamples, not_le.mpr hi, parseOmitLocusThreshold, ho]

/-- Outside raw statistics mode every argument is fetched; the draws must be
there for the four reads of entry 0. -/
theorem fetchGeneral_general {s : Store} (hraw : s.raw_stats = 0) (hv : generalFetchesValid s)
    {v7 v8 : List Int} {v9 v10 : List ℚ}
    (h7 : s.bottleneck_individuals_count_random_choices = some v7) (l7 : 0 < v7.length)
    (h8 : s.bottleneck_length_random_choices = some v8) (l8 : 0 < v8.length)
    (h9 : s.theta_random_choices = some v9) (l9 : 0 < v9.length)
    (h10 : s.mutation_rate_random_choices = some v10) (l10 : 0 < v10.length) :
    fetchGeneral s = .ok () := by
  obtain ⟨hrep, ⟨b, hb⟩, ⟨d, hd, hd1, hd2⟩, ⟨u, hu, hu1, hu2⟩, ⟨t, ht, ht1, ht2⟩, hm, hl, hi,
    ho, hr⟩ := hv
  obtain ⟨x7, e7⟩ := readSample_zero l7
  obtain ⟨x8, e8⟩ := readSample_zero l8
  obtain ⟨x9, e9⟩ := readSample_zero l9
  obtain ⟨x10, e10⟩ := readSample_zero l10
  simp [fetchGeneral, unlessRawSample, parseRawSample, hraw, parseFormFlag, hm, parseNLoci,
    not_le.mpr hl, parseInputSamples, not_le.mpr hi, parseOmitLocusThreshold, ho,
    parseIterations, not_le.mpr hrep, parseBottleneck, hb, h7, e7, parseBottleneckLength, hd,
    not_lt.mpr hd1, not_lt.mpr hd2, h8, e8, parseMRate, hu, not_lt.mpr hu1, not_lt.mpr hu2, h10,
    e10, parseRFlag, hr, parseTheta, ht, not_le.mpr ht1, not_le.mpr ht2, h9, e9]

/-! ## C1: the operation flags exclude one another -/

/-- The exclusion of the operation flags as far as the loop enforces it: when
one of `-x`, `-e`, `-w`, `-g` has been accepted and no argument after it raised
an error, the next operation flag (`-p` included) ends `parseArguments` with
the duplicate operation error. -/
theorem duplicate_mode_after_xewg (ext : Extern) (s0 : Store) (programArg : List Char)
    (pre mid post : List (List Char)) (a b : List Char) (s : Store)
    (ha : charAt a 1 = 'x' ∨ charAt a 1 = 'e' ∨ charAt a 1 = 'w' ∨ charAt a 1 = 'g')
    (hb0 : charAt b 0 = '-') (hb : isModeFlag b)
    (hloop : parseArgumentsLoop (loopStart s0 programArg) (pre ++ a :: mid) = .ok s) :
    parseArguments ext s0 programArg (pre ++ a :: mid ++ b :: post)
      = .error (.general msgDuplicateMode) := by
  obtain ⟨s1, s2, _, h2, h3⟩ := parseArgumentsLoop_split hloop
  have hg2 : modeGuard s2 := by
    rcases (parseArgumentsBody_ok h2).2 with
      ⟨hr, _⟩ | ⟨hr, _⟩ | ⟨hr, _⟩ | ⟨hr, _⟩
      | ⟨hr, _⟩ | ⟨hr, _⟩ | ⟨hr, _⟩ | ⟨hr, _⟩
      | ⟨hr, _⟩ | ⟨_, _, rfl⟩ | ⟨hr, _⟩
      | ⟨hr, _⟩ | ⟨hr, _⟩
    all_goals first
      | (rcases ha with ha | ha | ha | ha <;> exact absurd hr (by rw [ha]; decide))
      | skip
    unfold modeGuard
    rcases ha with ha | ha | ha | ha <;> simp [ha, TRUE, FALSE]
  have hg : modeGuard s :=
    parseArgumentsLoop_invariant modeGuard mid
      (fun _ _ _ _ hb hs => parseArgumentsBody_modeGuard hb hs) h3 hg2
  have hbody : parseArgumentsBody s b = .error (.general msgDuplicateMode) := by
    rw [parseArgumentsBody_mode hb0 hb]
    unfold onFlagMode
    unfold modeGuard at hg
    rw [if_pos hg]
    rfl
  have hl := parseArgumentsLoop_error post hloop hbody
  apply parseArguments_of_loop_error
  rw [← hl, List.append_assoc, List.cons_append]

/-- C1: on the complete command line
`-rC -l10 -i10 -s -t5 -o0.5 -b10,20 -d1,2 -u1e-7,1e-6 -v0.04,4.0 -p -e`
`parseArguments` returns successfully, whatever the draws, and leaves both the
example population flag and the coalescent example flag set: the test made
before an operation flag is accepted does not look at `example_pop`. -/
theorem example_pop_escapes_duplicate_mode (ext : Extern) :
    ∃ s, parseArguments ext initialStore onesamp argsExamplePopThenExample = .ok s
      ∧ parseExamplePop s = TRUE ∧ parseExample s = TRUE :=
  ⟨_, by with_unfolding_all rfl, by with_unfolding_all rfl, by with_unfolding_all rfl⟩

/-! ## C2: no operation selected -/

/-- With every argument of the general mode valid and none of `-x`, `-w`, `-g`
set, the draws fill the four vectors, each with as many entries as there are
repetitions, and change nothing else. -/
theorem parseArgumentsDraws_general (ext : Extern) {s : Store} (hv : generalFetchesValid s)
    (hsc : s.syntax_check = 0) (hraw : s.raw_stats = 0) (hsg : s.single_generation = 0) :
    ∃ (v7 v8 : List Int) (v9 v10 : List ℚ),
      parseArgumentsDraws ext s = .ok { s with
        bottleneck_individuals_count_random_choices := some v7
        bottleneck_length_random_choices := some v8
        theta_random_choices := some v9
        mutation_rate_random_choices := some v10 }
      ∧ (v7.length : Int) = s.repetitions ∧ (v8.length : Int) = s.repetitions
      ∧ (v9.length : Int) = s.repetitions ∧ (v10.length : Int) = s.repetitions := by
  obtain ⟨hrep, ⟨b, hb⟩, ⟨d, hd, hd1, hd2⟩, ⟨u, hu, hu1, hu2⟩, ⟨t, ht, ht1, ht2⟩, _⟩ := hv
  obtain ⟨v7, e7, l7⟩ := allocateStruct7_of_valid ext hrep hb
  obtain ⟨v8, e8, l8⟩ := allocateStruct8_of_valid ext
    (s := { s with bottleneck_individuals_count_random_choices := some v7 }) hrep hd hd1 hd2
  obtain ⟨v9, e9, l9⟩ := allocateStruct9_of_valid ext
    (s := { s with
      bottleneck_individuals_count_random_choices := some v7
      bottleneck_length_random_choices := some v8 }) hrep hu hu1 hu2 hb ht ht1 ht2
  obtain ⟨v10, e10, l10⟩ := allocateStruct10_of_valid ext
    (s := { s with
      bottleneck_individuals_count_random_choices := some v7
      bottleneck_length_random_choices := some v8
      theta_random_choices := some v9 }) hrep hu hu1 hu2
  refine ⟨v7, v8, v9, v10, ?_, l7, l8, l9, l10⟩
  have c1 : ¬ (parseSingleGeneration s ≠ 0) := not_not.mpr hsg
  have c2 : ¬ (parseRawSample
      { s with bottleneck_individuals_count_random_choices := some v7 } ≠ 0) := not_not.mpr hraw
  have c3 : parseSyntaxCheck
      { s with bottleneck_individuals_count_random_choices := some v7 } = 0 := hsc
  have c4 : parseSingleGeneration
      { s with bottleneck_individuals_count_random_choices := some v7 } = 0 := hsg
  unfold parseArgumentsDraws
  simp only [if_neg c1, e7, bind_ok, if_neg c2, if_pos c3, if_pos c4, e8, e9, e10]


/-- C2, counterexample: on `-l10 -i10 -s -t5 -o0.9`, a command line without an
operation flag and without a duplicate or unknown flag, `parseArguments` fails
with the `-b` error of the accessor, not with the missing operation error: the
draws come before the test for an operation. -/
theorem missing_operation_preceded_by_bottleneck :
    parseArguments lowestDraw initialStore onesamp argsNoOperationShort
        = .error (.argument msgBottleneck)
      ∧ parseArguments lowestDraw initialStore onesamp argsNoOperationShort
        ≠ .error (.argument msgMissingOperation) := by
  have h : parseArguments lowestDraw initialStore onesamp argsNoOperationShort
      = .error (.argument msgBottleneck) := by with_unfolding_all rfl
  refine ⟨h, ?_⟩
  rw [h]
  intro hne
  have := Err.argument.inj (Except.error.inj hne)
  revert this
  decide

/-- C2, amended: on a store whose example population flag is clear, a command
line without an operation flag never makes `parseArguments` return; when its
loop raises no error and every argument fetched in the general mode is valid,
`parseArguments` fails with the missing operation error. -/
theorem missing_operation_after_valid_fetches (ext : Extern) (s0 : Store)
    (programArg : List Char) (args : List (List Char))
    (hfresh : s0.example_pop = FALSE) (hmode : ∀ a ∈ args, ¬ isModeFlag a) :
    (∀ s, parseArguments ext s0 programArg args ≠ .ok s)
      ∧ (∀ s1, parseArgumentsLoop (loopStart s0 programArg) args = .ok s1 →
          generalFetchesValid s1 →
          parseArguments ext s0 programArg args = .error (.argument msgMissingOperation)) := by
  have hzero : ∀ s1, parseArgumentsLoop (loopStart s0 programArg) args = .ok s1 →
      s1.syntax_check = 0 ∧ s1.example_ = 0 ∧ s1.raw_stats = 0 ∧ s1.single_generation = 0
        ∧ s1.example_pop = 0 := by
    intro s1 h1
    obtain ⟨m1, m2, m3, m4, m5⟩ := parseArgumentsLoop_modes_unchanged h1 hmode
    obtain ⟨z1, z2, z3, z4⟩ := loopStart_not_modeGuard s0 programArg
    refine ⟨m1.trans z1, m2.trans z2, m3.trans z3, m4.trans z4, m5.trans ?_⟩
    simpa [loopStart, resetArguments] using hfresh
  constructor
  · intro s h
    obtain ⟨s1, h1, h2⟩ := parseArguments_eq_ok h
    obtain ⟨z1, z2, z3, z4, z5⟩ := hzero s1 h1
    obtain ⟨hd, hm⟩ := parseArgumentsResolve_inv h2 z1
    obtain ⟨t, v, _, _, _, _, f1, f2, f3, f4, f5, _⟩ := parseArgumentsDraws_inv hd
    exact hm ⟨f1.trans z1, f3.trans z3, f2.trans z2, f4.trans z4, f5.trans z5⟩
  · intro s1 h1 hv
    obtain ⟨z1, z2, z3, z4, z5⟩ := hzero s1 h1
    rw [parseArguments_of_loop h1]
    have hv0 := hv
    obtain ⟨hrep, ⟨b, hb⟩, ⟨d, hd, hd1, hd2⟩, ⟨u, hu, hu1, hu2⟩, ⟨t, ht, ht1, ht2⟩, hm, hl, hi,
      ho, hr⟩ := hv
    obtain ⟨v7, v8, v9, v10, hdraws, l7, l8, l9, l10⟩ :=
      parseArgumentsDraws_general ext hv0 z1 z3 z4
    have hfetch : fetchGeneral { s1 with
        bottleneck_individuals_count_random_choices := some v7
        bottleneck_length_random_choices := some v8
        theta_random_choices := some v9
        mutation_rate_random_choices := some v10 } = .ok () :=
      fetchGeneral_general z3 hv0 rfl (by omega) rfl (by omega) rfl (by omega) rfl (by omega)
    have c1 : parseSyntaxCheck s1 = 0 := z1
    have c2 : ¬ (parseSingleGeneration { s1 with
        bottleneck_individuals_count_random_choices := some v7
        bottleneck_length_random_choices := some v8
        theta_random_choices := some v9
        mutation_rate_random_choices := some v10 } ≠ 0) := not_not.mpr z4
    have c3 : parseSyntaxCheck { s1 with
        bottleneck_individuals_count_random_choices := some v7
        bottleneck_length_random_choices := some v8
        theta_random_choices := some v9
        mutation_rate_random_choices := some v10 } = 0
      ∧ parseRawSample { s1 with
        bottleneck_individuals_count_random_choices := some v7
        bottleneck_length_random_choices := some v8
        theta_random_choices := some v9
        mutation_rate_random_choices := some v10 } = 0
      ∧ parseExample { s1 with
        bottleneck_individuals_count_random_choices := some v7
        bottleneck_length_random_choices := some v8
        theta_random_choices := some v9
        mutation_rate_random_choices := some v10 } = 0
      ∧ parseSingleGeneration { s1 with
        bottleneck_individuals_count_random_choices := some v7
        bottleneck_length_random_choices := some v8
        theta_random_choices := some v9
        mutation_rate_random_choices := some v10 } = 0
      ∧ parseExamplePop { s1 with
        bottleneck_individuals_count_random_choices := some v7
        bottleneck_length_random_choices := some v8
        theta_random_choices := some v9
        mutation_rate_random_choices := some v10 } = 0 := ⟨z1, z3, z2, z4, z5⟩
    unfold parseArgumentsResolve
    simp only [if_pos c1, hdraws, bind_ok, if_neg c2, hfetch, pure_eq_ok, if_pos c3,
      reportArgumentError]

/-- C2, witness: the complete command line without an operation flag. -/
theorem missing_operation_after_valid_fetches_witness :
    initialStore.example_pop = FALSE
      ∧ (∀ a ∈ argsNoOperationComplete, ¬ isModeFlag a)
      ∧ parseArgumentsLoop (loopStart initialStore onesamp) argsNoOperationComplete
          = .ok storeNoOperationComplete
      ∧ generalFetchesValid storeNoOperationComplete
      ∧ parseArguments lowestDraw initialStore onesamp argsNoOperationComplete
          = .error (.argument msgMissingOperation) := by
  have h1 : initialStore.example_pop = FALSE := rfl
  have h2 : ∀ a ∈ argsNoOperationComplete, ¬ isModeFlag a := by decide
  have h3 : parseArgumentsLoop (loopStart initialStore onesamp) argsNoOperationComplete
      = .ok storeNoOperationComplete := by with_unfolding_all rfl
  have h4 : generalFetchesValid storeNoOperationComplete :=
    ⟨by decide, ⟨(5, 10), rfl⟩, ⟨(1, 5), rfl, by decide, by decide⟩,
      ⟨(1 / 1000000, 1 / 100000), rfl, by norm_num, by norm_num⟩,
      ⟨(1 / 25, 4), rfl, by norm_num, by norm_num⟩, by decide, by decide, by decide,
      by norm_num [storeNoOperationComplete], by decide⟩
  exact ⟨h1, h2, h3, h4,
    (missing_operation_after_valid_fetches lowestDraw initialStore onesamp
      argsNoOperationComplete h1 h2).2 storeNoOperationComplete h3 h4⟩

/-! ## C3, C4, C5: raw statistics mode and the length of the draw vector -/

/-- In syntax check mode nothing is done after the loop. -/
theorem parseArgumentsResolve_syntax_check (ext : Extern) {s : Store}
    (hsc : s.syntax_check ≠ 0) : parseArgumentsResolve ext s = .ok s := by
  have c1 : ¬ (parseSyntaxCheck s = 0) := hsc
  have c2 : ¬ (parseSyntaxCheck s = 0 ∧ parseRawSample s = 0 ∧ parseExample s = 0
      ∧ parseSingleGeneration s = 0 ∧ parseExamplePop s = 0) := fun h => hsc h.1
  unfold parseArgumentsResolve
  simp only [if_neg c1, pure_eq_ok, bind_ok, if_neg c2]

/-- In raw statistics mode the draws need the repetitions and the bottleneck
range; they fill the vector of bottleneck sizes and apply the overrides. -/
theorem parseArgumentsDraws_raw_stats (ext : Extern) {s : Store} {b : Int × Int}
    (hraw : s.raw_stats ≠ 0) (hsg : s.single_generation = 0) (hrep : 0 < s.repetitions)
    (hb : s.bottleneck_individuals_count = some b) :
    ∃ v : List Int,
      parseArgumentsDraws ext s = .ok { s with
        bottleneck_individuals_count_random_choices := some v
        final_individuals_count := s.input_individuals_count
        bottleneck_length := none
        bottleneck_individuals_count := some (2, 2)
        repetitions := 1 }
      ∧ (v.length : Int) = s.repetitions := by
  obtain ⟨v, e7, l7⟩ := allocateStruct7_of_valid ext hrep hb
  refine ⟨v, ?_, l7⟩
  have c1 : ¬ (parseSingleGeneration s ≠ 0) := not_not.mpr hsg
  have c2 : parseRawSample
      { s with bottleneck_individuals_count_random_choices := some v } ≠ 0 := hraw
  have c3 : rawStatsOverrides { s with bottleneck_individuals_count_random_choices := some v }
      = .ok { s with
        bottleneck_individuals_count_random_choices := some v
        final_individuals_count := s.input_individuals_count
        bottleneck_length := none
        bottleneck_individuals_count := some (2, 2)
        repetitions := 1 } := by
    unfold rawStatsOverrides
    simp only [hb]
  unfold parseArgumentsDraws
  simp only [if_neg c1, e7, bind_ok, if_pos c2, c3]

/-- C3, counterexample: `-rGFSR -l10 -i20 -s -o1.0 -t5 -b4,8 -w` is accepted and
the bottleneck range stored afterwards is `(2, 2)`, not `(1, 1)`. -/
theorem raw_stats_range_is_two :
    parseArguments lowestDraw initialStore onesamp argsRawStats = .ok storeRawStatsResolved
      ∧ parseBottleneckMin storeRawStatsResolved = .ok 2
      ∧ parseBottleneckMax storeRawStatsResolved = .ok 2
      ∧ ¬(parseBottleneckMin storeRawStatsResolved = .ok 1
          ∧ parseBottleneckMax storeRawStatsResolved = .ok 1) := by
  refine ⟨by with_unfolding_all rfl, by with_unfolding_all rfl, by with_unfolding_all rfl, ?_⟩
  rintro ⟨h, _⟩
  have h2 : parseBottleneckMin storeRawStatsResolved = .ok 2 := by with_unfolding_all rfl
  rw [h2] at h
  exact absurd (Except.ok.inj h) (by decide)

/-- C3, amended: whenever `parseArguments` returns successfully on a command
line holding `-w`, the iteration count is 1, the final individuals equal the
input individuals, and the bottleneck range read by `parseBottleneckMin` and
`parseBottleneckMax` is `(2, 2)`. -/
theorem raw_stats_resulting_state (ext : Extern) (s0 s : Store) (programArg : List Char)
    (args : List (List Char)) (hw : ∃ a ∈ args, charAt a 1 = 'w')
    (h : parseArguments ext s0 programArg args = .ok s) :
    parseIterations s = .ok 1
      ∧ s.final_individuals_count = s.input_individuals_count
      ∧ parseBottleneckMin s = .ok 2 ∧ parseBottleneckMax s = .ok 2 := by
  obtain ⟨s1, h1, h2⟩ := parseArguments_eq_ok h
  obtain ⟨hraw, hsc, _⟩ := parseArgumentsLoop_raw_stats h1 hw
  obtain ⟨hd, _⟩ := parseArgumentsResolve_inv h2 hsc
  obtain ⟨t, v, _, _, _, _, _, _, _, _, _, f6, _, fraw, _⟩ := parseArgumentsDraws_inv hd
  obtain ⟨r1, r2, r3⟩ := fraw hraw
  refine ⟨?_, r3.trans f6.symm, ?_, ?_⟩
  · simp [parseIterations, r1]
  · simp [parseBottleneckMin, r2]
  · simp [parseBottleneckMax, r2]

/-- C3, witness: the command line of the counterexample. -/
theorem raw_stats_resulting_state_witness :
    (∃ a ∈ argsRawStats, charAt a 1 = 'w')
      ∧ parseArguments lowestDraw initialStore onesamp argsRawStats = .ok storeRawStatsResolved
      ∧ parseIterations storeRawStatsResolved = .ok 1
      ∧ storeRawStatsResolved.final_individuals_count
          = storeRawStatsResolved.input_individuals_count
      ∧ parseBottleneckMin storeRawStatsResolved = .ok 2
      ∧ parseBottleneckMax storeRawStatsResolved = .ok 2 := by
  have hw : ∃ a ∈ argsRawStats, charAt a 1 = 'w' := ⟨"-w".toList, by decide, by decide⟩
  have h : parseArguments lowestDraw initialStore onesamp argsRawStats
      = .ok storeRawStatsResolved := by with_unfolding_all rfl
  exact ⟨hw, h,
    raw_stats_resulting_state lowestDraw initialStore storeRawStatsResolved onesamp
      argsRawStats hw h⟩

/-- C4, counterexample: `-rGFSR -l10 -i20 -s -o1.0 -w` is rejected with the
`-t` argument error, and with `-t1` added it is rejected with the `-b` argument
error: the bottleneck sizes are drawn, between the bounds of `-b`, before the
overrides of the raw statistics mode. -/
theorem raw_stats_requires_bottleneck :
    parseArguments lowestDraw initialStore onesamp argsRawStatsShort
        = .error (.argument msgIterations)
      ∧ parseArguments lowestDraw initialStore onesamp argsRawStatsNoBottleneck
        = .error (.argument msgBottleneck)
      ∧ (∀ s, parseArguments lowestDraw initialStore onesamp argsRawStatsShort ≠ .ok s)
      ∧ ∀ s, parseArguments lowestDraw initialStore onesamp argsRawStatsNoBottleneck
        ≠ .ok s := by
  have h : parseArguments lowestDraw initialStore onesamp argsRawStatsShort
      = .error (.argument msgIterations) := by with_unfolding_all rfl
  have h2 : parseArguments lowestDraw initialStore onesamp argsRawStatsNoBottleneck
      = .error (.argument msgBottleneck) := by with_unfolding_all rfl
  refine ⟨h, h2, fun s hs => ?_, fun s hs => ?_⟩
  · rw [h] at hs
    cases hs
  · rw [h2] at hs
    cases hs

/-- C4, amended: a command line that selects `-w`, whose loop raises no error
and leaves positive repetitions (`-t`), a bottleneck range (`-b`), a number of
loci, a number of input individuals, a kind of loci and an omission threshold,
makes `parseArguments` return successfully, with iteration count 1 and that
kind of loci; nothing is asked of `-d`, `-u`, `-v` and `-r`. -/
theorem raw_stats_without_ranges (ext : Extern) (s0 s1 : Store) (programArg : List Char)
    (args : List (List Char)) (hw : ∃ a ∈ args, charAt a 1 = 'w')
    (hloop : parseArgumentsLoop (loopStart s0 programArg) args = .ok s1)
    (hrep : 0 < s1.repetitions) (hb : s1.bottleneck_individuals_count ≠ none)
    (hl : 0 < s1.num_loci) (hi : 0 < s1.input_individuals_count)
    (hm : s1.isMicrosats ≠ -1) (ho : s1.omitThreshold ≠ -1) :
    ∃ s, parseArguments ext s0 programArg args = .ok s
      ∧ parseIterations s = .ok 1 ∧ parseFormFlag s = .ok s1.isMicrosats := by
  obtain ⟨hraw, hsc, hsg⟩ := parseArgumentsLoop_raw_stats hloop hw
  obtain ⟨b, hb1⟩ := Option.ne_none_iff_exists'.mp hb
  obtain ⟨v, hd, _⟩ := parseArgumentsDraws_raw_stats ext hraw hsg hrep hb1
  refine ⟨{ s1 with
    bottleneck_individuals_count_random_choices := some v
    final_individuals_count := s1.input_individuals_count
    bottleneck_length := none
    bottleneck_individuals_count := some (2, 2)
    repetitions := 1 }, ?_, ?_, ?_⟩
  · rw [parseArguments_of_loop hloop]
    have hfetch : fetchGeneral { s1 with
        bottleneck_individuals_count_random_choices := some v
        final_individuals_count := s1.input_individuals_count
        bottleneck_length := none
        bottleneck_individuals_count := some (2, 2)
        repetitions := 1 } = .ok () := fetchGeneral_raw_stats hraw hm hl hi ho
    have c1 : parseSyntaxCheck s1 = 0 := hsc
    have c2 : ¬ (parseSingleGeneration { s1 with
        bottleneck_individuals_count_random_choices := some v
        final_individuals_count := s1.input_individuals_count
        bottleneck_length := none
        bottleneck_individuals_count := some (2, 2)
        repetitions := 1 } ≠ 0) := not_not.mpr hsg
    have c3 : ¬ (parseSyntaxCheck { s1 with
        bottleneck_individuals_count_random_choices := some v
        final_individuals_count := s1.input_individuals_count
        bottleneck_length := none
        bottleneck_individuals_count := some (2, 2)
        repetitions := 1 } = 0
      ∧ parseRawSample { s1 with
        bottleneck_individuals_count_random_choices := some v
        final_individuals_count := s1.input_individuals_count
        bottleneck_length := none
        bottleneck_individuals_count := some (2, 2)
        repetitions := 1 } = 0
      ∧ parseExample { s1 with
        bottleneck_individuals_count_random_choices := some v
        final_individuals_count := s1.input_individuals_count
        bottleneck_length := none
        bottleneck_individuals_count := some (2, 2)
        repetitions := 1 } = 0
      ∧ parseSingleGeneration { s1 with
        bottleneck_individuals_count_random_choices := some v
        final_individuals_count := s1.input_individuals_count
        bottleneck_length := none
        bottleneck_individuals_count := some (2, 2)
        repetitions := 1 } = 0
      ∧ parseExamplePop { s1 with
        bottleneck_individuals_count_random_choices := some v
        final_individuals_count := s1.input_individuals_count
        bottleneck_length := none
        bottleneck_individuals_count := some (2, 2)
        repetitions := 1 } = 0) := fun hz => hraw hz.2.1
    unfold parseArgumentsResolve
    simp only [if_pos c1, hd, bind_ok, if_neg c2, hfetch, pure_eq_ok, if_neg c3]
  · simp [parseIterations]
  · simp [parseFormFlag, hm]

/-- C4, witness: `-l10 -i20 -s -o1.0 -t1 -b2 -w`, without `-r`, `-d`, `-u`,
`-v`. -/
theorem raw_stats_without_ranges_witness :
    (∃ a ∈ argsRawStatsMinimal, charAt a 1 = 'w')
      ∧ parseArgumentsLoop (loopStart initialStore onesamp) argsRawStatsMinimal
          = .ok storeRawStatsMinimal
      ∧ ∃ s, parseArguments lowestDraw initialStore onesamp argsRawStatsMinimal = .ok s
          ∧ parseIterations s = .ok 1 ∧ parseFormFlag s = .ok 0 := by
  have hw : ∃ a ∈ argsRawStatsMinimal, charAt a 1 = 'w' := ⟨"-w".toList, by decide, by decide⟩
  have hloop : parseArgumentsLoop (loopStart initialStore onesamp) argsRawStatsMinimal
      = .ok storeRawStatsMinimal := by with_unfolding_all rfl
  exact ⟨hw, hloop,
    raw_stats_without_ranges lowestDraw initialStore storeRawStatsMinimal onesamp
      argsRawStatsMinimal hw hloop (by decide) (by decide) (by decide) (by decide) (by decide)
      (by norm_num [storeRawStatsMinimal])⟩

/-- C5: on `-rGFSR -l10 -i20 -s -o1.0 -t5 -b4,8 -w` `parseArguments` returns
successfully, the vector of bottleneck sizes has 5 entries, and
`parseIterations` returns 1 afterwards: in raw statistics mode the repetitions
are set to 1 after the vector is drawn, not before as in single generation
mode. -/
theorem raw_stats_draw_vector_longer :
    parseArguments lowestDraw initialStore onesamp argsRawStats = .ok storeRawStatsResolved
      ∧ storeRawStatsResolved.bottleneck_individuals_count_random_choices = some [2, 2, 2, 2, 2]
      ∧ [(2 : Int), 2, 2, 2, 2].length = 5
      ∧ parseIterations storeRawStatsResolved = .ok 1 :=
  ⟨by with_unfolding_all rfl, rfl, rfl, by with_unfolding_all rfl⟩

/-- The length of the vector of bottleneck sizes in every mode: after
a successful `parseArguments` outside syntax check mode the vector is
allocated; outside raw statistics mode its number of entries is the iteration
count returned by `parseIterations`; in raw statistics mode `parseIterations`
returns 1 and the number of entries is the repetitions count left by the loop
(the `-t` value). -/
theorem draw_vector_length (ext : Extern) (s0 s : Store) (programArg : List Char)
    (args : List (List Char)) (h : parseArguments ext s0 programArg args = .ok s)
    (hsc : parseSyntaxCheck s = 0) :
    ∃ (v : List Int) (s1 : Store),
      s.bottleneck_individuals_count_random_choices = some v
      ∧ parseArgumentsLoop (loopStart s0 programArg) args = .ok s1
      ∧ (parseRawSample s = 0 → parseIterations s = .ok (v.length : Int))
      ∧ (parseRawSample s ≠ 0 →
          parseIterations s = .ok 1 ∧ (v.length : Int) = s1.repetitions) := by
  obtain ⟨s1, h1, h2⟩ := parseArguments_eq_ok h
  have hsc1 : s1.syntax_check = 0 := by
    by_contra hne
    rw [parseArgumentsResolve_syntax_check ext hne] at h2
    exact hne ((Except.ok.inj h2) ▸ hsc)
  obtain ⟨hd, _⟩ := parseArgumentsResolve_inv h2 hsc1
  obtain ⟨t, v, ht, hpos, hlen, hv, _, _, f3, _, _, _, _, fraw, fgen⟩ :=
    parseArgumentsDraws_inv hd
  refine ⟨v, s1, hv, h1, ?_, ?_⟩
  · intro hr
    have hr1 : s1.raw_stats = 0 := f3 ▸ hr
    obtain ⟨r1, _⟩ := fgen hr1
    rw [hlen, ← r1]
    exact parseIterations_ok (r1 ▸ hpos)
  · intro hr
    have hr1 : s1.raw_stats ≠ 0 := f3 ▸ hr
    obtain ⟨r1, _, _⟩ := fraw hr1
    refine ⟨by simp [parseIterations, r1], ?_⟩
    have hone := parseArgumentsLoop_atMostOneMode h1
    have hsg : s1.single_generation = 0 := by
      rcases hone.2.2.2.2.2 with h6 | h6
      · exact absurd h6 hr1
      · exact h6
    rw [hlen, ht, if_neg (not_not.mpr hsg)]

/-- The length of the vector of bottleneck sizes on the command line
`-rGFSR -l10 -i20 -s -o1.0 -t5 -b4,8 -w`. -/
theorem draw_vector_length_witness :
    parseArguments lowestDraw initialStore onesamp argsRawStats = .ok storeRawStatsResolved
      ∧ parseSyntaxCheck storeRawStatsResolved = 0
      ∧ ∃ (v : List Int) (s1 : Store),
        storeRawStatsResolved.bottleneck_individuals_count_random_choices = some v
        ∧ parseArgumentsLoop (loopStart initialStore onesamp) argsRawStats = .ok s1
        ∧ (parseRawSample storeRawStatsResolved = 0 →
            parseIterations storeRawStatsResolved = .ok (v.length : Int))
        ∧ (parseRawSample storeRawStatsResolved ≠ 0 →
            parseIterations storeRawStatsResolved = .ok 1
              ∧ (v.length : Int) = s1.repetitions) := by
  have h : parseArguments lowestDraw initialStore onesamp argsRawStats
      = .ok storeRawStatsResolved := by with_unfolding_all rfl
  have hsc : parseSyntaxCheck storeRawStatsResolved = 0 := rfl
  exact ⟨h, hsc,
    draw_vector_length lowestDraw initialStore storeRawStatsResolved onesamp argsRawStats h hsc⟩

/-! ## C6: the bottleneck range is halved, or rejected -/

/-- A bottleneck range that is set stays as it is through the loop: `-b` is
refused from then on. -/
theorem parseArgumentsBody_bottleneck_kept {s s1 : Store} {a : List Char} {b : Int × Int}
    (h : parseArgumentsBody s a = .ok s1) (hs : s.bottleneck_individuals_count = some b) :
    s1.bottleneck_individuals_count = some b := by
  rcases (parseArgumentsBody_ok h).2 with
    ⟨_, _, _, v, _, rfl⟩ | ⟨_, _, _, _, rfl⟩ | ⟨_, _, _, _, rfl⟩ | ⟨_, hn, _⟩
    | ⟨_, _, _, _, rfl⟩ | ⟨_, _, rfl⟩ | ⟨_, _, _, _, rfl⟩ | ⟨_, _, _, _, rfl⟩
    | ⟨_, _, _, _, rfl⟩ | ⟨_, _, rfl⟩ | ⟨_, _, _, _, rfl⟩
    | ⟨_, _, rfl⟩ | ⟨_, _, _, _, rfl⟩
  all_goals first | exact hs | skip
  rw [hn] at hs
  cases hs

/-- An argument whose second character is a flag letter has two characters at
least. -/
theorem length_of_charAt {a : List Char} {c : Char} (h : charAt a 1 = c) (hc : c ≠ '\x00') :
    ¬ a.length < 2 := by
  intro hlt
  apply hc
  rw [← h]
  unfold charAt
  match a, hlt with
  | [], _ => rfl
  | [_], _ => rfl

/-- The pair returned by `parsePositiveIntPair`, from what `sscanf` reads. -/
theorem parsePositiveIntPair_of_scan {a : List Char} {c : Char} (h : charAt a 1 = c)
    (hc : c ≠ '\x00') {r : Option Int × Option Int} (hscan : sscanfIntPair (a.drop 2) = .ok r) :
    parsePositiveIntPair a = .ok (orderIntPair (r.1.getD (-1)) (r.2.getD (-1))) := by
  unfold parsePositiveIntPair
  rw [if_neg (length_of_charAt h hc), hscan]

/-- The pair made of two endpoints of which the second, when there is one, is
not negative: two positive even endpoints are put in order, and a pair of
positive even numbers comes from such endpoints only. -/
theorem orderIntPair_endpoints (r : Option Int × Option Int)
    (hsecond : ∀ y, r.2 = some y → 0 ≤ y) :
    (∀ x y, payloadEndpoints r = some (x, y) → positiveEven x → positiveEven y →
        orderIntPair (r.1.getD (-1)) (r.2.getD (-1)) = (min x y, max x y))
      ∧ ((∀ x y, payloadEndpoints r = some (x, y) → ¬(positiveEven x ∧ positiveEven y)) →
        ¬(positiveEven (orderIntPair (r.1.getD (-1)) (r.2.getD (-1))).1
          ∧ positiveEven (orderIntPair (r.1.getD (-1)) (r.2.getD (-1))).2)) := by
  obtain ⟨r1, r2⟩ := r
  cases r1 with
  | none =>
    refine ⟨fun x y h => by simp [payloadEndpoints] at h, fun _ => ?_⟩
    cases r2 with
    | none =>
      simp only [Option.getD_none, orderIntPair, positiveEven]
      norm_num
    | some y =>
      have hy := hsecond y rfl
      simp only [Option.getD_none, Option.getD_some, orderIntPair, positiveEven]
      split_ifs <;> simp only [] <;> omega
  | some x =>
    cases r2 with
    | none =>
      constructor
      · intro x1 y1 h hx hy
        simp only [payloadEndpoints, Option.some.injEq, Prod.mk.injEq] at h
        obtain ⟨rfl, rfl⟩ := h
        have hx0 := hx.1
        simp only [Option.getD_none, Option.getD_some, orderIntPair, min_self, max_self]
        split_ifs <;> first | rfl | omega
      · intro h
        have hx := h x x rfl
        simp only [Option.getD_none, Option.getD_some, orderIntPair]
        unfold positiveEven at hx ⊢
        split_ifs <;> simp only [] <;> omega
    | some y =>
      have hy0 := hsecond y rfl
      constructor
      · intro x1 y1 h hx hy
        simp only [payloadEndpoints, Option.some.injEq, Prod.mk.injEq] at h
        obtain ⟨rfl, rfl⟩ := h
        have hx0 := hx.1
        simp only [Option.getD_some, orderIntPair]
        split_ifs with c1 c2 c3 c4
        all_goals first
          | omega
          | (rw [min_eq_right (by omega), max_eq_left (by omega)])
          | (rw [min_eq_left (by omega), max_eq_right (by omega)])
      · intro h
        have hxy := h x y rfl
        simp only [Option.getD_some, orderIntPair]
        unfold positiveEven at hxy ⊢
        split_ifs <;> simp only [] <;> omega

/-- C7: on `-lx -l5 -x` the flag `-l` occurs twice and `parseArguments` returns
successfully, with 5 loci: the first payload is not a number, so the field
keeps the value `-1` that the duplicate check takes as unset. The same happens
for `-t` after a negative number and for `-o` after an empty payload. The
duplicate is reported when the first payload is a number (`-l10 -l5 -x`), and,
for a flag whose check tests a pointer, whatever the first payload is
(`-dx -d5 -x`). -/
theorem duplicate_loci_flag_accepted (ext : Extern) :
    (∃ s, parseArguments ext initialStore onesamp argsLociTwice = .ok s ∧ s.num_loci = 5)
      ∧ (∃ s, parseArguments ext initialStore onesamp (words ["-t-3", "-t5", "-x"]) = .ok s
          ∧ s.repetitions = 5)
      ∧ (∃ s, parseArguments ext initialStore onesamp (words ["-o", "-o0.5", "-x"]) = .ok s
          ∧ s.omitThreshold = 1 / 2)
      ∧ parseArguments ext initialStore onesamp (words ["-l10", "-l5", "-x"])
          = .error (.general "Duplicate flag: -l")
      ∧ parseArguments ext initialStore onesamp (words ["-dx", "-d5", "-x"])
          = .error (.general "Duplicate flag: -d") :=
  ⟨⟨_, by with_unfolding_all rfl, by with_unfolding_all rfl⟩,
    ⟨_, by with_unfolding_all rfl, by with_unfolding_all rfl⟩,
    ⟨_, by with_unfolding_all rfl, by with_unfolding_all rfl⟩,
    by with_unfolding_all rfl, by with_unfolding_all rfl⟩

/-! ## C8: the two entries of a pair are in order -/

theorem isDigitC_not_space {c : Char} (h : isDigitC c = true) : isSpaceC c = false := by
  by_contra hs
  have hs2 : isSpaceC c = true := by simpa using hs
  simp only [isSpaceC, Bool.or_eq_true, decide_eq_true_eq] at hs2
  rcases hs2 with ((((rfl | rfl) | rfl) | rfl) | rfl) | rfl <;> exact absurd h (by decide)

theorem scanSign_digit {c : Char} (cs : List Char) (h : isDigitC c = true) :
    scanSign (c :: cs) = (false, c :: cs) := by
  have h1 : c ≠ '-' := by rintro rfl; exact absurd h (by decide)
  have h2 : c ≠ '+' := by rintro rfl; exact absurd h (by decide)
  unfold scanSign
  split
  · rename_i heq; exact absurd (List.cons.inj heq).1 h1
  · rename_i heq; exact absurd (List.cons.inj heq).1 h2
  · rfl

/-- The code of a decimal digit. -/
theorem digit_toNat {c : Char} (h : isDigitC c = true) : 48 ≤ c.toNat ∧ c.toNat ≤ 57 := by
  simp only [isDigitC, Bool.and_eq_true, decide_eq_true_eq] at h
  obtain ⟨h1, h2⟩ := h
  rw [Char.le_def] at h1 h2
  constructor
  · have := h1
    simp only [UInt32.le_def] at this
    exact this
  · have := h2
    simp only [UInt32.le_def] at this
    exact this

/-- The conversion `%d` on a nonempty string of digits whose value fits an
`int` reads its value and leaves nothing. -/
theorem scanInt_digits (ds : List Char) (hne : ds ≠ []) (hd : ∀ c ∈ ds, isDigitC c = true)
    (hmax : (digitsValue ds : Int) ≤ INT_MAX) :
    scanInt ds = .ok (some ((digitsValue ds : Int), [])) := by
  obtain ⟨c, cs, rfl⟩ := List.exists_cons_of_ne_nil hne
  have hc := hd c (List.mem_cons_self _ _)
  have h1 : (c :: cs).dropWhile isSpaceC = c :: cs := by
    rw [List.dropWhile_cons_of_neg]
    simp [isDigitC_not_space hc]
  have h2 : (c :: cs).takeWhile isDigitC = c :: cs := List.takeWhile_eq_self_iff.mpr hd
  have h3 : (c :: cs).dropWhile isDigitC = [] := List.dropWhile_eq_nil_iff.mpr hd
  have hmin : INT_MIN ≤ (digitsValue (c :: cs) : Int) :=
    le_trans (by decide) (Int.ofNat_nonneg _)
  unfold scanInt
  simp only [h1, scanSign_digit cs hc, h2, h3]
  rw [if_neg (by simp), if_pos]
  · rfl
  · exact ⟨hmin, hmax⟩

theorem toLower_digit {c : Char} (h : isDigitC c = true) : c.toLower = c := by
  have := (digit_toNat h).2
  unfold Char.toLower
  simp only
  rw [if_neg]
  omega

/-- A text that starts with a digit does not begin with a word of letters. -/
theorem beginsWith_digit {c w : Char} (ws cs : List Char) (h : isDigitC c = true)
    (hw : isDigitC w = false) : beginsWith (w :: ws) (c :: cs) = false := by
  unfold beginsWith
  simp only [List.length_cons, List.take_succ_cons, List.map_cons, toLower_digit h,
    decide_eq_false_iff_not]
  intro heq
  have := (List.cons.inj heq).1
  rw [this, hw] at h
  cases h

/-- A string of digits does not begin with `0x`. -/
theorem beginsWith_hex_digits (ds : List Char) (hd : ∀ c ∈ ds, isDigitC c = true) :
    beginsWith ['0', 'x'] ds = false := by
  unfold beginsWith
  simp only [decide_eq_false_iff_not]
  intro heq
  match ds, hd, heq with
  | c :: d :: _, hd, heq =>
    have h2 := hd d (by simp)
    simp only [List.length_cons, List.length_nil, List.take_succ_cons, List.take_zero,
      List.map_cons, List.map_nil, List.cons.injEq, and_true] at heq
    rw [toLower_digit h2] at heq
    rw [heq.2] at h2
    exact absurd h2 (by decide)
  | [_], _, heq => simp at heq
  | [], _, heq => simp at heq

theorem overflowBound_pos : 1 < overflowBound := by decide

theorem underflowScale_pos : 1 < underflowScale := by decide

/-- A natural number below the bound of the overflow is read as itself. -/
theorem toDouble_natCast (n : Nat) (h : n < overflowBound) :
    toDouble (n : ℚ) = .finite (n : ℚ) := by
  unfold toDouble
  have habs : |(n : ℚ)| = (n : ℚ) := abs_of_nonneg (Nat.cast_nonneg n)
  rw [habs, if_neg (by exact_mod_cast not_le.mpr h)]
  by_cases hn : n = 0
  · subst hn
    simp
  · have h1 : 1 ≤ n := Nat.one_le_iff_ne_zero.mpr hn
    have h2 : 1 < n * underflowScale :=
      lt_of_lt_of_le underflowScale_pos (Nat.le_mul_of_pos_left _ h1)
    rw [if_neg]
    exact_mod_cast not_le.mpr h2

/-- The conversion `%lf` on a nonempty string of digits whose value is in the
range of the `double` numbers reads its value and leaves nothing. -/
theorem scanDouble_digits (ds : List Char) (hne : ds ≠ []) (hd : ∀ c ∈ ds, isDigitC c = true)
    (hmax : digitsValue ds < overflowBound) :
    scanDouble ds = .ok (some (.finite (digitsValue ds : ℚ), [])) := by
  have hhex := beginsWith_hex_digits ds hd
  obtain ⟨c, cs, rfl⟩ := List.exists_cons_of_ne_nil hne
  have hc := hd c (List.mem_cons_self _ _)
  have h1 : (c :: cs).dropWhile isSpaceC = c :: cs := by
    rw [List.dropWhile_cons_of_neg]
    simp [isDigitC_not_space hc]
  have h2 : (c :: cs).takeWhile isDigitC = c :: cs := List.takeWhile_eq_self_iff.mpr hd
  have h3 : (c :: cs).dropWhile isDigitC = [] := List.dropWhile_eq_nil_iff.mpr hd
  have hm : scanMantissa isDigitC (c :: cs) = (c :: cs, [], []) := by
    unfold scanMantissa
    rw [h3, h2]
  have hdec : scanDecimal (c :: cs) = .ok (some ((digitsValue (c :: cs) : ℚ), [])) := by
    unfold scanDecimal
    rw [hm]
    simp [scanExponent, scale10, Rat.mkRat_one]
  have hu : scanUnsigned (c :: cs)
      = .ok (some (.finite (digitsValue (c :: cs) : ℚ), [])) := by
    unfold scanUnsigned
    rw [beginsWith_digit _ cs hc (by decide), beginsWith_digit _ cs hc (by decide),
      beginsWith_digit _ cs hc (by decide), beginsWith_digit _ cs hc (by decide),
      beginsWith_digit _ cs hc (by decide), hhex, hdec]
    simp only [Bool.false_eq_true, if_false]
    rw [toDouble_natCast _ hmax]
  unfold scanDouble
  rw [h1, scanSign_digit cs hc]
  simp only [hu, Bool.false_eq_true, if_false]

/-! The order of the `double` values -/

/-- Two `double` values of which none is a NaN are comparable. -/
theorem Dbl.le_of_not_lt {x y : Dbl} (hx : x ≠ .nan) (hy : y ≠ .nan)
    (h : Dbl.lt y x = false) : Dbl.le x y = true := by
  cases x with
  | nan => exact absurd rfl hx
  | infinite n1 =>
    cases y with
    | nan => exact absurd rfl hy
    | infinite n2 => cases n1 <;> cases n2 <;> first | rfl | cases h
    | finite q => cases n1 <;> first | rfl | cases h
  | finite p =>
    cases y with
    | nan => exact absurd rfl hy
    | infinite n2 => cases n2 <;> first | rfl | cases h
    | finite q =>
      have hq : ¬ q < p := by simpa [Dbl.lt] using h
      have : p < q ∨ p = q := lt_or_eq_of_le (not_lt.mp hq)
      simpa [Dbl.le, Dbl.lt, Dbl.eq] using this

theorem Dbl.le_of_lt {x y : Dbl} (h : Dbl.lt x y = true) : Dbl.le x y = true := by
  unfold Dbl.le
  rw [h]
  rfl

/-- The swap that ends `parsePositiveDoublePair` leaves the entries in order
when none of them is a NaN. -/
theorem ordered_after_swap (a b : Dbl)
    (h1 : (if Dbl.lt b a then (b, a) else (a, b)).1 ≠ .nan)
    (h2 : (if Dbl.lt b a then (b, a) else (a, b)).2 ≠ .nan) :
    Dbl.le (if Dbl.lt b a then (b, a) else (a, b)).1
      (if Dbl.lt b a then (b, a) else (a, b)).2 = true := by
  by_cases h : Dbl.lt b a = true
  · rw [if_pos h] at h1 h2 ⊢
    exact Dbl.le_of_lt h
  · rw [if_neg h] at h1 h2 ⊢
    exact Dbl.le_of_not_lt h1 h2 (Bool.eq_false_iff.mpr h)

/-- The pair made by the statements after `sscanf` is in order when none of
its entries is a NaN. -/
theorem orderDoublePair_le (r0 r1 : Dbl) (h1 : (orderDoublePair r0 r1).1 ≠ .nan)
    (h2 : (orderDoublePair r0 r1).2 ≠ .nan) :
    Dbl.le (orderDoublePair r0 r1).1 (orderDoublePair r0 r1).2 = true :=
  ordered_after_swap _ _ h1 h2

/-- The pair of integers made by the statements after `sscanf` is in order. -/
theorem orderIntPair_le (r0 r1 : Int) : (orderIntPair r0 r1).1 ≤ (orderIntPair r0 r1).2 := by
  unfold orderIntPair
  simp only
  split_ifs <;> simp only [] <;> omega

/-- C8, counterexample: from `-unan,3` `sscanf` reads a NaN and 3, and
`parsePositiveDoublePair` returns the NaN and 3 in this order: a NaN is not
below zero, and it is not above 3, so that it is neither replaced nor swapped.
The first entry is not at most the second. -/
theorem nan_pair_not_ordered :
    sscanfDoublePair ("-unan,3".toList.drop 2) = .ok (some .nan, some (.finite 3))
      ∧ parsePositiveDoublePair "-unan,3".toList = .ok (.nan, .finite 3)
      ∧ Dbl.le .nan (.finite 3) = false :=
  ⟨by with_unfolding_all rfl, by with_unfolding_all rfl, rfl⟩

/-- C8, amended: whatever the argument, a pair returned by `parsePositiveIntPair` has
its first entry at most its second, and so has a pair returned by
`parsePositiveDoublePair` of which no entry is a NaN. When `sscanf` reads one
value `x`, not negative, and no second value, the pair is `(x, x)`; this is so
in particular when the payload is a nonempty string of digits, `x` being its
value, if the value fits an `int`, or the range of the `double` numbers. -/
theorem pair_ordering (arg : List Char) :
    (∀ p, parsePositiveIntPair arg = .ok p → p.1 ≤ p.2)
      ∧ (∀ p, parsePositiveDoublePair arg = .ok p → p.1 ≠ .nan → p.2 ≠ .nan →
          Dbl.le p.1 p.2 = true)
      ∧ (∀ x : Int, 0 ≤ x → ¬ arg.length < 2 →
          sscanfIntPair (arg.drop 2) = .ok (some x, none) →
          parsePositiveIntPair arg = .ok (x, x))
      ∧ (∀ x : Dbl, Dbl.le (.finite 0) x = true → ¬ arg.length < 2 →
          sscanfDoublePair (arg.drop 2) = .ok (some x, none) →
          parsePositiveDoublePair arg = .ok (x, x))
      ∧ (∀ ds : List Char, ds ≠ [] → (∀ c ∈ ds, isDigitC c = true) → ¬ arg.length < 2 →
          arg.drop 2 = ds →
          ((digitsValue ds : Int) ≤ INT_MAX →
            parsePositiveIntPair arg = .ok ((digitsValue ds : Int), (digitsValue ds : Int)))
          ∧ (digitsValue ds < overflowBound →
            parsePositiveDoublePair arg
              = .ok (.finite (digitsValue ds : ℚ), .finite (digitsValue ds : ℚ)))) := by
  have hint : ∀ x : Int, 0 ≤ x → ¬ arg.length < 2 →
      sscanfIntPair (arg.drop 2) = .ok (some x, none) →
      parsePositiveIntPair arg = .ok (x, x) := by
    intro x hx hlen hscan
    unfold parsePositiveIntPair
    rw [if_neg hlen, hscan]
    simp [orderIntPair, not_lt.mpr hx]
  have hdbl : ∀ x : Dbl, Dbl.le (.finite 0) x = true → ¬ arg.length < 2 →
      sscanfDoublePair (arg.drop 2) = .ok (some x, none) →
      parsePositiveDoublePair arg = .ok (x, x) := by
    intro x hx hlen hscan
    have h0 : Dbl.lt x (.finite 0) = false := by
      cases x with
      | nan => rfl
      | infinite n => cases n <;> first | rfl | cases hx
      | finite q =>
        have : (0 : ℚ) < q ∨ (0 : ℚ) = q := by simpa [Dbl.le, Dbl.lt, Dbl.eq] using hx
        have h2 : ¬ q < 0 := by
          rcases this with h3 | h3
          · exact not_lt.mpr (le_of_lt h3)
          · exact not_lt.mpr (le_of_eq h3)
        simpa [Dbl.lt] using h2
    have hxx : Dbl.lt x x = false := by
      cases x with
      | nan => rfl
      | infinite n => cases n <;> rfl
      | finite q => simp [Dbl.lt]
    have hm : Dbl.lt (.finite (-1)) (.finite 0) = true := by simp [Dbl.lt]
    have he : Dbl.eq (.finite (-1)) (.finite (-1)) = true := by simp [Dbl.eq]
    unfold parsePositiveDoublePair
    rw [if_neg hlen, hscan]
    simp only [orderDoublePair, Option.getD_some, Option.getD_none, h0, hm, he, hxx,
      Bool.false_eq_true, if_false, if_true]
  refine ⟨fun p hp => ?_, fun p hp h1 h2 => ?_, hint, hdbl, ?_⟩
  · unfold parsePositiveIntPair at hp
    split_ifs at hp
    cases hs : sscanfIntPair (arg.drop 2) with
    | error e =>
      rw [hs] at hp
      cases hp
    | ok r =>
      rw [hs] at hp
      rw [← Except.ok.inj hp]
      exact orderIntPair_le _ _
  · unfold parsePositiveDoublePair at hp
    split_ifs at hp
    cases hs : sscanfDoublePair (arg.drop 2) with
    | error e =>
      rw [hs] at hp
      cases hp
    | ok r =>
      rw [hs] at hp
      have e := Except.ok.inj hp
      subst e
      exact orderDoublePair_le _ _ h1 h2
  · intro ds hne hd hlen hdrop
    constructor
    · intro hmax
      apply hint _ (Int.ofNat_nonneg _) hlen
      rw [hdrop]
      unfold sscanfIntPair
      rw [scanInt_digits _ hne hd hmax]
    · intro hmax
      apply hdbl _ _ hlen
      · rw [hdrop]
        unfold sscanfDoublePair
        rw [scanDouble_digits _ hne hd hmax]
      · have : (0 : ℚ) < (digitsValue ds : ℚ) ∨ (0 : ℚ) = (digitsValue ds : ℚ) :=
          lt_or_eq_of_le (Nat.cast_nonneg _)
        simpa [Dbl.le, Dbl.lt, Dbl.eq] using this

/-- C8, witness: `-b20,10` and `-b10,20` both give `(10, 20)`, `-u1e-6,1e-7`
gives `(1e-7, 1e-6)`, `-d7` gives `(7, 7)`, `-v0.5` gives `(0.5, 0.5)`, and
`-t12` gives `(12, 12)` with both readers. -/
theorem pair_ordering_witness :
    parsePositiveIntPair "-b20,10".toList = .ok (10, 20)
      ∧ parsePositiveIntPair "-b10,20".toList = .ok (10, 20)
      ∧ ((10 : Int), (20 : Int)).1 ≤ ((10 : Int), (20 : Int)).2
      ∧ parsePositiveDoublePair "-u1e-6,1e-7".toList
          = .ok (.finite (1 / 10000000), .finite (1 / 1000000))
      ∧ Dbl.le (Dbl.finite (1 / 10000000), Dbl.finite (1 / 1000000)).1
          (Dbl.finite (1 / 10000000), Dbl.finite (1 / 1000000)).2 = true
      ∧ sscanfIntPair ("-d7".toList.drop 2) = .ok (some 7, none)
      ∧ parsePositiveIntPair "-d7".toList = .ok (7, 7)
      ∧ sscanfDoublePair ("-v0.5".toList.drop 2) = .ok (some (.finite (1 / 2)), none)
      ∧ parsePositiveDoublePair "-v0.5".toList = .ok (.finite (1 / 2), .finite (1 / 2))
      ∧ parsePositiveIntPair "-t12".toList = .ok (((12 : Nat) : Int), ((12 : Nat) : Int))
      ∧ parsePositiveDoublePair "-t12".toList
          = .ok (.finite ((12 : Nat) : ℚ), .finite ((12 : Nat) : ℚ)) := by
  have hb : parsePositiveIntPair "-b20,10".toList = .ok (10, 20) := by with_unfolding_all rfl
  have hu : parsePositiveDoublePair "-u1e-6,1e-7".toList
      = .ok (.finite (1 / 10000000), .finite (1 / 1000000)) := by with_unfolding_all rfl
  have h7 : sscanfIntPair ("-d7".toList.drop 2) = .ok (some 7, none) := by
    with_unfolding_all rfl
  have h5 : sscanfDoublePair ("-v0.5".toList.drop 2) = .ok (some (.finite (1 / 2)), none) := by
    with_unfolding_all rfl
  have h12 := (pair_ordering "-t12".toList).2.2.2.2 ['1', '2'] (by decide) (by decide)
    (by decide) rfl
  exact ⟨hb, by with_unfolding_all rfl,
    (pair_ordering "-b20,10".toList).1 _ hb,
    hu,
    (pair_ordering "-u1e-6,1e-7".toList).2.1 _ hu (by decide) (by decide),
    h7,
    (pair_ordering "-d7".toList).2.2.1 7 (by decide) (by decide) h7,
    h5,
    (pair_ordering "-v0.5".toList).2.2.2.1 (.finite (1 / 2)) (by with_unfolding_all rfl)
      (by decide) h5,
    h12.1 (by decide),
    h12.2 (by decide)⟩

/-! ## C9: the range recommended for theta -/

/-- The loop does not touch the four draw vectors. -/
theorem parseArgumentsBody_choices_unchanged {s s1 : Store} {a : List Char}
    (h : parseArgumentsBody s a = .ok s1) :
    s1.bottleneck_individuals_count_random_choices = s.bottleneck_individuals_count_random_choices
      ∧ s1.bottleneck_length_random_choices = s.bottleneck_length_random_choices
      ∧ s1.theta_random_choices = s.theta_random_choices
      ∧ s1.mutation_rate_random_choices = s.mutation_rate_random_choices := by
  rcases (parseArgumentsBody_ok h).2 with
    ⟨_, _, _, v, _, rfl⟩ | ⟨_, _, _, _, rfl⟩ | ⟨_, _, _, _, rfl⟩ | ⟨_, _, _, _, _, rfl⟩
    | ⟨_, _, _, _, rfl⟩ | ⟨_, _, rfl⟩ | ⟨_, _, _, _, rfl⟩ | ⟨_, _, _, _, rfl⟩
    | ⟨_, _, _, _, rfl⟩ | ⟨_, _, rfl⟩ | ⟨_, _, _, _, rfl⟩
    | ⟨_, _, rfl⟩ | ⟨_, _, _, _, rfl⟩
  all_goals exact ⟨rfl, rfl, rfl, rfl⟩

/-- When the loop of `parseArguments` ends without an error the four draw
vectors are empty, whatever the store before the call. -/
theorem parseArgumentsLoop_choices_empty {s0 s : Store} {programArg : List Char}
    {args : List (List Char)} (h : parseArgumentsLoop (loopStart s0 programArg) args = .ok s) :
    s.bottleneck_individuals_count_random_choices = none
      ∧ s.bottleneck_length_random_choices = none
      ∧ s.theta_random_choices = none
      ∧ s.mutation_rate_random_choices = none :=
  parseArgumentsLoop_invariant
    (fun t => t.bottleneck_individuals_count_random_choices = none
      ∧ t.bottleneck_length_random_choices = none
      ∧ t.theta_random_choices = none
      ∧ t.mutation_rate_random_choices = none) args
    (fun _ _ _ _ hb ht => by
      obtain ⟨e1, e2, e3, e4⟩ := parseArgumentsBody_choices_unchanged hb
      exact ⟨e1.trans ht.1, e2.trans ht.2.1, e3.trans ht.2.2.1, e4.trans ht.2.2.2⟩) h
    (by simp [loopStart, resetArguments])

/-- What a round of the loop does to the four operation flags that the loop
tests: a flag that is set stays set, and the flag of the letter of the argument
is set afterwards. -/
theorem parseArgumentsBody_mode_flags {s s1 : Store} {a : List Char}
    (h : parseArgumentsBody s a = .ok s1) :
    (s.syntax_check ≠ 0 → s1.syntax_check ≠ 0) ∧ (s.example_ ≠ 0 → s1.example_ ≠ 0)
      ∧ (s.single_generation ≠ 0 → s1.single_generation ≠ 0)
      ∧ (charAt a 1 = 'x' → s1.syntax_check ≠ 0) ∧ (charAt a 1 = 'e' → s1.example_ ≠ 0)
      ∧ (charAt a 1 = 'g' → s1.single_generation ≠ 0) := by
  rcases (parseArgumentsBody_ok h).2 with
    ⟨hr, _, _, v, _, rfl⟩ | ⟨hr, _, _, _, rfl⟩ | ⟨hr, _, _, _, rfl⟩ | ⟨hr, _, _, _, _, rfl⟩
    | ⟨hr, _, _, _, rfl⟩ | ⟨hr, _, rfl⟩ | ⟨hr, _, _, _, rfl⟩ | ⟨hr, _, _, _, rfl⟩
    | ⟨hr, _, _, _, rfl⟩ | ⟨hr, hg, rfl⟩ | ⟨hr, _, _, _, rfl⟩
    | ⟨hr, _, rfl⟩ | ⟨hr, _, _, _, rfl⟩
  all_goals first
    | exact ⟨id, id, id, fun hc => absurd hr (by rw [hc]; decide),
        fun hc => absurd hr (by rw [hc]; decide), fun hc => absurd hr (by rw [hc]; decide)⟩
    | skip
  obtain ⟨g1, g2, _, g4⟩ := hg
  refine ⟨fun h1 => absurd g1 h1, fun h1 => absurd g2 h1, fun h1 => absurd g4 h1, ?_, ?_, ?_⟩
  · intro hc; simp [hc, TRUE]
  · intro hc; simp [hc, TRUE]
  · intro hc; simp [hc, TRUE]

/-- A loop that succeeds on a command line with `-g` ends with
`single_generation` set and with `syntax_check` and `raw_stats` clear. -/
theorem parseArgumentsLoop_single_generation {s0 s : Store} {programArg : List Char}
    {args : List (List Char)} (h : parseArgumentsLoop (loopStart s0 programArg) args = .ok s)
    (hg : ∃ a ∈ args, charAt a 1 = 'g') :
    s.single_generation ≠ 0 ∧ s.syntax_check = 0 ∧ s.raw_stats = 0 := by
  obtain ⟨a, hmem, hc⟩ := hg
  obtain ⟨pre, post, rfl⟩ := List.append_of_mem hmem
  obtain ⟨s1, s2, _, h2, h3⟩ := parseArgumentsLoop_split h
  have hs2 : s2.single_generation ≠ 0 := (parseArgumentsBody_mode_flags h2).2.2.2.2.2 hc
  have hs : s.single_generation ≠ 0 :=
    parseArgumentsLoop_invariant (fun t => t.single_generation ≠ 0) post
      (fun _ _ _ _ hb ht => (parseArgumentsBody_mode_flags hb).2.2.1 ht) h3 hs2
  obtain ⟨_, _, h13, _, _, h34⟩ := parseArgumentsLoop_atMostOneMode h
  refine ⟨hs, ?_, ?_⟩
  · rcases h13 with h13 | h13
    · exact h13
    · exact absurd h13 hs
  · rcases h34 with h34 | h34
    · exact h34
    · exact absurd h34 hs

/-- A loop that succeeds on a command line with `-e` ends with `example` set
and with `syntax_check`, `raw_stats` and `single_generation` clear. -/
theorem parseArgumentsLoop_example {s0 s : Store} {programArg : List Char}
    {args : List (List Char)} (h : parseArgumentsLoop (loopStart s0 programArg) args = .ok s)
    (he : ∃ a ∈ args, charAt a 1 = 'e') :
    s.example_ ≠ 0 ∧ s.syntax_check = 0 ∧ s.raw_stats = 0 ∧ s.single_generation = 0 := by
  obtain ⟨a, hmem, hc⟩ := he
  obtain ⟨pre, post, rfl⟩ := List.append_of_mem hmem
  obtain ⟨s1, s2, _, h2, h3⟩ := parseArgumentsLoop_split h
  have hs2 : s2.example_ ≠ 0 := (parseArgumentsBody_mode_flags h2).2.2.2.2.1 hc
  have hs : s.example_ ≠ 0 :=
    parseArgumentsLoop_invariant (fun t => t.example_ ≠ 0) post
      (fun _ _ _ _ hb ht => (parseArgumentsBody_mode_flags hb).2.1 ht) h3 hs2
  obtain ⟨h12, _, _, h23, h24, _⟩ := parseArgumentsLoop_atMostOneMode h
  refine ⟨hs, ?_, ?_, ?_⟩
  · rcases h12 with h12 | h12
    · exact h12
    · exact absurd h12 hs
  · rcases h23 with h23 | h23
    · exact absurd h23 hs
    · exact h23
  · rcases h24 with h24 | h24
    · exact absurd h24 hs
    · exact h24

/-- A loop that succeeds on a command line with `-x` ends with `syntax_check`
set. -/
theorem parseArgumentsLoop_syntax_check {s0 s : Store} {programArg : List Char}
    {args : List (List Char)} (h : parseArgumentsLoop (loopStart s0 programArg) args = .ok s)
    (hx : ∃ a ∈ args, charAt a 1 = 'x') : s.syntax_check ≠ 0 := by
  obtain ⟨a, hmem, hc⟩ := hx
  obtain ⟨pre, post, rfl⟩ := List.append_of_mem hmem
  obtain ⟨s1, s2, _, h2, h3⟩ := parseArgumentsLoop_split h
  have hs2 : s2.syntax_check ≠ 0 := (parseArgumentsBody_mode_flags h2).2.2.2.1 hc
  exact parseArgumentsLoop_invariant (fun t => t.syntax_check ≠ 0) post
    (fun _ _ _ _ hb ht => (parseArgumentsBody_mode_flags hb).1 ht) h3 hs2

/-! ## C11: single generation mode -/

theorem fetchSingleGeneration_ok {s : Store} {b : Int × Int} {u : ℚ × ℚ} {v7 : List Int}
    {v10 : List ℚ} (hl : 0 < s.num_loci) (hi : 0 < s.input_individuals_count)
    (hu : s.mutation_rate = some u) (hu1 : 0 ≤ u.1) (hu2 : 0 ≤ u.2)
    (h10 : s.mutation_rate_random_choices = some v10) (l10 : 0 < v10.length)
    (hb : s.bottleneck_individuals_count = some b)
    (h7 : s.bottleneck_individuals_count_random_choices = some v7) (l7 : 0 < v7.length)
    (hm : s.isMicrosats ≠ -1) (hr : s.randomFlag ≠ -1) :
    fetchSingleGeneration s = .ok () := by
  obtain ⟨x7, e7⟩ := readSample_zero l7
  obtain ⟨x10, e10⟩ := readSample_zero l10
  simp [fetchSingleGeneration, parseNLoci, not_le.mpr hl, parseInputSamples, not_le.mpr hi,
    parseMRate, hu, not_lt.mpr hu1, not_lt.mpr hu2, h10, e10, parseBottleneck, hb, h7, e7,
    parseFormFlag, hm, parseRFlag, hr]

/-- In single generation mode the draws set the repetitions to 1 and fill the
vector of bottleneck sizes and the vector of mutation rates, each with one
entry. -/
theorem parseArgumentsDraws_single_generation (ext : Extern) {s : Store} {b : Int × Int}
    {u : ℚ × ℚ} (hsg : s.single_generation ≠ 0) (hsc : s.syntax_check = 0)
    (hraw : s.raw_stats = 0) (hb : s.bottleneck_individuals_count = some b)
    (hu : s.mutation_rate = some u) (hu1 : 0 ≤ u.1) (hu2 : 0 ≤ u.2) :
    ∃ (v7 : List Int) (v10 : List ℚ),
      parseArgumentsDraws ext s = .ok { s with
        repetitions := 1
        bottleneck_individuals_count_random_choices := some v7
        mutation_rate_random_choices := some v10 }
      ∧ v7.length = 1 ∧ v10.length = 1 := by
  obtain ⟨v7, e7, l7⟩ := allocateStruct7_of_valid ext (s := { s with repetitions := 1 })
    Int.one_pos hb
  obtain ⟨v10, e10, l10⟩ := allocateStruct10_of_valid ext
    (s := { s with
      repetitions := 1
      bottleneck_individuals_count_random_choices := some v7 }) Int.one_pos hu hu1 hu2
  have l7a : (v7.length : Int) = 1 := l7
  have l10a : (v10.length : Int) = 1 := l10
  refine ⟨v7, v10, ?_, by exact_mod_cast l7a, by exact_mod_cast l10a⟩
  have c1 : parseSingleGeneration s ≠ 0 := hsg
  have c2 : ¬ (parseRawSample { s with
      repetitions := 1
      bottleneck_individuals_count_random_choices := some v7 } ≠ 0) := not_not.mpr hraw
  have c3 : parseSyntaxCheck { s with
      repetitions := 1
      bottleneck_individuals_count_random_choices := some v7 } = 0 := hsc
  have c4 : ¬ (parseSingleGeneration { s with
      repetitions := 1
      bottleneck_individuals_count_random_choices := some v7 } = 0) := hsg
  unfold parseArgumentsDraws
  simp only [if_pos c1, e7, bind_ok, if_neg c2, if_pos c3, if_neg c4, pure_eq_ok, e10]

/-- C11: let a command line hold `-g` and let its loop end without an error,
leaving a source of random numbers (`-r`), positive numbers of loci (`-l`) and
of input individuals (`-i`), a bottleneck range (`-b`), a mutation rate range
without a negative entry (`-u`) and a kind of loci. Then `parseArguments`
returns successfully, whatever `-t`, `-d`, `-v` and `-o` are; afterwards
`parseIterations` returns 1, the vector of mutation rates has exactly one
entry, and the vectors of bottleneck lengths and of theta are empty. -/
theorem single_generation_mode (ext : Extern) (s0 s1 : Store) (programArg : List Char)
    (args : List (List Char)) (b : Int × Int) (u : ℚ × ℚ)
    (hg : ∃ a ∈ args, charAt a 1 = 'g')
    (hloop : parseArgumentsLoop (loopStart s0 programArg) args = .ok s1)
    (hr : s1.randomFlag ≠ -1) (hl : 0 < s1.num_loci) (hi : 0 < s1.input_individuals_count)
    (hb : s1.bottleneck_individuals_count = some b)
    (hu : s1.mutation_rate = some u) (hu1 : 0 ≤ u.1) (hu2 : 0 ≤ u.2)
    (hm : s1.isMicrosats ≠ -1) :
    ∃ (s : Store) (v10 : List ℚ),
      parseArguments ext s0 programArg args = .ok s
        ∧ parseIterations s = .ok 1
        ∧ s.mutation_rate_random_choices = some v10 ∧ v10.length = 1
        ∧ s.bottleneck_length_random_choices = none
        ∧ s.theta_random_choices = none := by
  obtain ⟨hsg, hsc, hraw⟩ := parseArgumentsLoop_single_generation hloop hg
  obtain ⟨_, e8, e9, _⟩ := parseArgumentsLoop_choices_empty hloop
  obtain ⟨v7, v10, hd, l7, l10⟩ :=
    parseArgumentsDraws_single_generation ext hsg hsc hraw hb hu hu1 hu2
  refine ⟨{ s1 with
    repetitions := 1
    bottleneck_individuals_count_random_choices := some v7
    mutation_rate_random_choices := some v10 }, v10, ?_, ?_, rfl, l10, e8, e9⟩
  · rw [parseArguments_of_loop hloop]
    have hfetch : fetchSingleGeneration { s1 with
        repetitions := 1
        bottleneck_individuals_count_random_choices := some v7
        mutation_rate_random_choices := some v10 } = .ok () :=
      fetchSingleGeneration_ok hl hi hu hu1 hu2 rfl (by omega) hb rfl (by omega) hm hr
    have c1 : parseSyntaxCheck s1 = 0 := hsc
    have c2 : parseSingleGeneration { s1 with
        repetitions := 1
        bottleneck_individuals_count_random_choices := some v7
        mutation_rate_random_choices := some v10 } ≠ 0 := hsg
    have c3 : ¬ (parseSyntaxCheck { s1 with
        repetitions := 1
        bottleneck_individuals_count_random_choices := some v7
        mutation_rate_random_choices := some v10 } = 0
      ∧ parseRawSample { s1 with
        repetitions := 1
        bottleneck_individuals_count_random_choices := some v7
        mutation_rate_random_choices := some v10 } = 0
      ∧ parseExample { s1 with
        repetitions := 1
        bottleneck_individuals_count_random_choices := some v7
        mutation_rate_random_choices := some v10 } = 0
      ∧ parseSingleGeneration { s1 with
        repetitions := 1
        bottleneck_individuals_count_random_choices := some v7
        mutation_rate_random_choices := some v10 } = 0
      ∧ parseExamplePop { s1 with
        repetitions := 1
        bottleneck_individuals_count_random_choices := some v7
        mutation_rate_random_choices := some v10 } = 0) := fun hz => hsg hz.2.2.2.1
    unfold parseArgumentsResolve
    simp only [if_pos c1, hd, bind_ok, if_pos c2, hfetch, pure_eq_ok, if_neg c3]
  · simp [parseIterations]

/-- C11, witness: the command line
`-rRESET -l5 -i4 -b4,4 -d0,0 -m2,3 -t10 -u0,0 -v0.01,0.01 -f0 -o0.5 -g`, whose
`-t10` is overridden, and the command line `-rRESET -l5 -i4 -b4,4 -m2,3 -u0,0 -g`
without `-t`, `-d`, `-v` and `-o`. -/
theorem single_generation_mode_witness :
    (∃ a ∈ argsSingleGeneration, charAt a 1 = 'g')
      ∧ parseArgumentsLoop (loopStart initialStore onesamp) argsSingleGeneration
          = .ok storeSingleGeneration
      ∧ (∃ (s : Store) (v10 : List ℚ),
          parseArguments lowestDraw initialStore onesamp argsSingleGeneration = .ok s
            ∧ parseIterations s = .ok 1
            ∧ s.mutation_rate_random_choices = some v10 ∧ v10.length = 1
            ∧ s.bottleneck_length_random_choices = none
            ∧ s.theta_random_choices = none)
      ∧ (∃ a ∈ argsSingleGenerationMinimal, charAt a 1 = 'g')
      ∧ parseArgumentsLoop (loopStart initialStore onesamp) argsSingleGenerationMinimal
          = .ok storeSingleGenerationMinimal
      ∧ (∃ (s : Store) (v10 : List ℚ),
          parseArguments lowestDraw initialStore onesamp argsSingleGenerationMinimal = .ok s
            ∧ parseIterations s = .ok 1
            ∧ s.mutation_rate_random_choices = some v10 ∧ v10.length = 1
            ∧ s.bottleneck_length_random_choices = none
            ∧ s.theta_random_choices = none) := by
  have hg : ∃ a ∈ argsSingleGeneration, charAt a 1 = 'g' := ⟨"-g".toList, by decide, by decide⟩
  have hloop : parseArgumentsLoop (loopStart initialStore onesamp) argsSingleGeneration
      = .ok storeSingleGeneration := by with_unfolding_all rfl
  have hg2 : ∃ a ∈ argsSingleGenerationMinimal, charAt a 1 = 'g' :=
    ⟨"-g".toList, by decide, by decide⟩
  have hloop2 : parseArgumentsLoop (loopStart initialStore onesamp) argsSingleGenerationMinimal
      = .ok storeSingleGenerationMinimal := by with_unfolding_all rfl
  exact ⟨hg, hloop,
    single_generation_mode lowestDraw initialStore storeSingleGeneration onesamp
      argsSingleGeneration (2, 2) (0, 0) hg hloop (by decide) (by decide) (by decide) rfl rfl
      (by norm_num) (by norm_num) (by decide),
    hg2, hloop2,
    single_generation_mode lowestDraw initialStore storeSingleGenerationMinimal onesamp
      argsSingleGenerationMinimal (2, 2) (0, 0) hg2 hloop2 (by decide) (by decide) (by decide)
      rfl rfl (by norm_num) (by norm_num) (by decide)⟩

/-! ## C12: coalescent example mode -/

/-- Repetitions that are set stay as they are through a round of the loop. -/
theorem parseArgumentsBody_repetitions_kept {s s1 : Store} {a : List Char}
    (h : parseArgumentsBody s a = .ok s1) (hs : s.repetitions ≠ -1) :
    s1.repetitions = s.repetitions := by
  rcases (parseArgumentsBody_ok h).2 with
    ⟨_, _, _, v, _, rfl⟩ | ⟨_, _, _, _, rfl⟩ | ⟨_, _, _, _, rfl⟩ | ⟨_, _, _, _, _, rfl⟩
    | ⟨_, _, _, _, rfl⟩ | ⟨_, _, rfl⟩ | ⟨_, hn, _⟩ | ⟨_, _, _, _, rfl⟩
    | ⟨_, _, _, _, rfl⟩ | ⟨_, _, rfl⟩ | ⟨_, _, _, _, rfl⟩
    | ⟨_, _, rfl⟩ | ⟨_, _, _, _, rfl⟩
  all_goals first | rfl | skip
  exact absurd hn hs

/-- After a loop without an error, the repetitions are the number returned by
`parsePositiveInt` for any `-t` argument, when it is not the sentinel. -/
theorem parseArgumentsLoop_repetitions_of_token {s0 s : Store} {args : List (List Char)}
    {a : List Char} (h : parseArgumentsLoop s0 args = .ok s) (hmem : a ∈ args)
    (ha : charAt a 1 = 't') {n : Int} (hn : parsePositiveInt a = .ok n) (hst : n ≠ -1) :
    s.repetitions = n := by
  obtain ⟨pre, post, rfl⟩ := List.append_of_mem hmem
  obtain ⟨s1, s2, _, h2, h3⟩ := parseArgumentsLoop_split h
  have hs2 : s2.repetitions = n := by
    rcases (parseArgumentsBody_ok h2).2 with
      ⟨hr, _⟩ | ⟨hr, _⟩ | ⟨hr, _⟩ | ⟨hr, _⟩
      | ⟨hr, _⟩ | ⟨hr, _⟩ | ⟨_, _, m, hm, rfl⟩ | ⟨hr, _⟩
      | ⟨hr, _⟩ | ⟨hr, _⟩ | ⟨hr, _⟩
      | ⟨hr, _⟩ | ⟨hr, _⟩
    all_goals first | exact absurd hr (by rw [ha]; decide) | skip
    rw [hn] at hm
    exact (Except.ok.inj hm).symm
  exact parseArgumentsLoop_invariant (fun t => t.repetitions = n) post
    (fun _ _ _ _ hb ht => (parseArgumentsBody_repetitions_kept hb (ht ▸ hst)).trans ht) h3 hs2

/-- After a loop without an error, the bottleneck range is the halved pair
returned by `parsePositiveIntPair` for any `-b` argument. -/
theorem parseArgumentsLoop_bottleneck_of_token {s0 s : Store} {args : List (List Char)}
    {a : List Char} (h : parseArgumentsLoop s0 args = .ok s) (hmem : a ∈ args)
    (ha : charAt a 1 = 'b') {b : Int × Int} (hb : parsePositiveIntPair a = .ok b) :
    s.bottleneck_individuals_count = some (b.1 / 2, b.2 / 2) := by
  obtain ⟨pre, post, rfl⟩ := List.append_of_mem hmem
  obtain ⟨s1, s2, _, h2, h3⟩ := parseArgumentsLoop_split h
  have hs2 : s2.bottleneck_individuals_count = some (b.1 / 2, b.2 / 2) := by
    rcases (parseArgumentsBody_ok h2).2 with
      ⟨hr, _⟩ | ⟨hr, _⟩ | ⟨hr, _⟩ | ⟨_, _, m, hm, _, rfl⟩
      | ⟨hr, _⟩ | ⟨hr, _⟩ | ⟨hr, _⟩ | ⟨hr, _⟩
      | ⟨hr, _⟩ | ⟨hr, _⟩ | ⟨hr, _⟩
      | ⟨hr, _⟩ | ⟨hr, _⟩
    all_goals first | exact absurd hr (by rw [ha]; decide) | skip
    rw [hb] at hm
    rw [Except.ok.inj hm]
  exact parseArgumentsLoop_invariant
    (fun t => t.bottleneck_individuals_count = some (b.1 / 2, b.2 / 2)) post
    (fun _ _ _ _ hbody ht => parseArgumentsBody_bottleneck_kept hbody ht) h3 hs2

/-- C12: let a command line hold `-e` and let its loop end without an error,
leaving valid `-r`, `-l`, `-i`, `-b`, `-d`, `-u`, `-v`, `-t`, `-o` and a kind of
loci. Then `parseArguments` returns successfully; `parseIterations` returns the
repetitions left by the loop, which are the number, not negative, that `%d`
reads from the payload of the `-t` argument; the bottleneck range is the one
left by the loop, which holds the halves of the smaller and of the larger
endpoint of the `-b` argument (its one or two numbers as read by `sscanf`, the
second not negative); and each of the four draw vectors has as many entries as
there are iterations. -/
theorem coalescent_example_mode (ext : Extern) (s0 s1 : Store) (programArg : List Char)
    (args : List (List Char)) (he : ∃ a ∈ args, charAt a 1 = 'e')
    (hloop : parseArgumentsLoop (loopStart s0 programArg) args = .ok s1)
    (hv : generalFetchesValid s1) :
    (∃ (s : Store) (v7 v8 : List Int) (v9 v10 : List ℚ),
      parseArguments ext s0 programArg args = .ok s
        ∧ parseIterations s = .ok s1.repetitions
        ∧ s.bottleneck_individuals_count = s1.bottleneck_individuals_count
        ∧ s.bottleneck_individuals_count_random_choices = some v7
        ∧ s.bottleneck_length_random_choices = some v8
        ∧ s.theta_random_choices = some v9
        ∧ s.mutation_rate_random_choices = some v10
        ∧ (v7.length : Int) = s1.repetitions ∧ (v8.length : Int) = s1.repetitions
        ∧ (v9.length : Int) = s1.repetitions ∧ (v10.length : Int) = s1.repetitions)
      ∧ (∀ a ∈ args, charAt a 1 = 't' → ∀ v rest, scanInt (a.drop 2) = .ok (some (v, rest)) →
          0 ≤ v → s1.repetitions = v)
      ∧ (∀ a ∈ args, charAt a 1 = 'b' → ∀ r, sscanfIntPair (a.drop 2) = .ok r →
          (∀ y, r.2 = some y → 0 ≤ y) → ∀ x y, payloadEndpoints r = some (x, y) →
          s1.bottleneck_individuals_count = some (min x y / 2, max x y / 2)) := by
  refine ⟨?_, fun a hmem ha v rest hscan hv0 => ?_, fun a hmem ha r hscan hsecond x y hxy => ?_⟩
  rotate_left
  · have hn : parsePositiveInt a = .ok v := by
      unfold parsePositiveInt
      rw [if_neg (length_of_charAt ha (by decide)), hscan]
      simp only [if_neg (not_lt.mpr hv0)]
    exact parseArgumentsLoop_repetitions_of_token hloop hmem ha hn (by omega)
  · have hread := parsePositiveIntPair_of_scan ha (by decide) hscan
    have hstored := parseArgumentsLoop_bottleneck_of_token hloop hmem ha hread
    obtain ⟨pre, post, rfl⟩ := List.append_of_mem hmem
    obtain ⟨t1, t2, _, h2, _⟩ := parseArgumentsLoop_split hloop
    have hpos : positiveEven (orderIntPair (r.1.getD (-1)) (r.2.getD (-1))).1
        ∧ positiveEven (orderIntPair (r.1.getD (-1)) (r.2.getD (-1))).2 := by
      rcases (parseArgumentsBody_ok h2).2 with
        ⟨hr, _⟩ | ⟨hr, _⟩ | ⟨hr, _⟩ | ⟨_, _, m, hm, hev, _⟩
        | ⟨hr, _⟩ | ⟨hr, _⟩ | ⟨hr, _⟩ | ⟨hr, _⟩
        | ⟨hr, _⟩ | ⟨hr, _⟩ | ⟨hr, _⟩
        | ⟨hr, _⟩ | ⟨hr, _⟩
      all_goals first | exact absurd hr (by rw [ha]; decide) | skip
      rw [hread] at hm
      rw [Except.ok.inj hm]
      exact hev
    have hend := orderIntPair_endpoints r hsecond
    have hboth : positiveEven x ∧ positiveEven y := by
      by_contra hnot
      refine hend.2 (fun x1 y1 h1 => ?_) hpos
      rw [hxy] at h1
      obtain ⟨rfl, rfl⟩ := Prod.mk.inj (Option.some.inj h1)
      exact hnot
    rw [hstored, hend.1 x y hxy hboth.1 hboth.2]
  obtain ⟨hex, hsc, hraw, hsg⟩ := parseArgumentsLoop_example hloop he
  obtain ⟨v7, v8, v9, v10, hdraws, l7, l8, l9, l10⟩ :=
    parseArgumentsDraws_general ext hv hsc hraw hsg
  have hrep : 0 < s1.repetitions := hv.1
  refine ⟨{ s1 with
    bottleneck_individuals_count_random_choices := some v7
    bottleneck_length_random_choices := some v8
    theta_random_choices := some v9
    mutation_rate_random_choices := some v10 }, v7, v8, v9, v10, ?_,
    parseIterations_ok hrep, rfl, rfl, rfl, rfl, rfl, l7, l8, l9, l10⟩
  have hfetch : fetchGeneral { s1 with
      bottleneck_individuals_count_random_choices := some v7
      bottleneck_length_random_choices := some v8
      theta_random_choices := some v9
      mutation_rate_random_choices := some v10 } = .ok () :=
    fetchGeneral_general hraw hv rfl (by omega) rfl (by omega) rfl (by omega) rfl (by omega)
  have c1 : parseSyntaxCheck s1 = 0 := hsc
  have c2 : ¬ (parseSingleGeneration { s1 with
      bottleneck_individuals_count_random_choices := some v7
      bottleneck_length_random_choices := some v8
      theta_random_choices := some v9
      mutation_rate_random_choices := some v10 } ≠ 0) := not_not.mpr hsg
  have c3 : ¬ (parseSyntaxCheck { s1 with
      bottleneck_individuals_count_random_choices := some v7
      bottleneck_length_random_choices := some v8
      theta_random_choices := some v9
      mutation_rate_random_choices := some v10 } = 0
    ∧ parseRawSample { s1 with
      bottleneck_individuals_count_random_choices := some v7
      bottleneck_length_random_choices := some v8
      theta_random_choices := some v9
      mutation_rate_random_choices := some v10 } = 0
    ∧ parseExample { s1 with
      bottleneck_individuals_count_random_choices := some v7
      bottleneck_length_random_choices := some v8
      theta_random_choices := some v9
      mutation_rate_random_choices := some v10 } = 0
    ∧ parseSingleGeneration { s1 with
      bottleneck_individuals_count_random_choices := some v7
      bottleneck_length_random_choices := some v8
      theta_random_choices := some v9
      mutation_rate_random_choices := some v10 } = 0
    ∧ parseExamplePop { s1 with
      bottleneck_individuals_count_random_choices := some v7
      bottleneck_length_random_choices := some v8
      theta_random_choices := some v9
      mutation_rate_random_choices := some v10 } = 0) := fun hz => hex hz.2.2.1
  rw [parseArguments_of_loop hloop]
  unfold parseArgumentsResolve
  simp only [if_pos c1, hdraws, bind_ok, if_neg c2, hfetch, pure_eq_ok, if_neg c3]

/-- C12, witness: the command line
`-rC -l50 -i30 -b10,20 -d1,5 -s -t100 -u1e-6,1e-5 -v0.04,4.0 -f0.05 -o0.8 -e`:
100 iterations, the range `(5, 10)`, four vectors of 100 entries. -/
theorem coalescent_example_mode_witness :
    (∃ a ∈ argsCoalescentExample, charAt a 1 = 'e')
      ∧ parseArgumentsLoop (loopStart initialStore onesamp) argsCoalescentExample
          = .ok storeCoalescentExample
      ∧ generalFetchesValid storeCoalescentExample
      ∧ (∃ (s : Store) (v7 v8 : List Int) (v9 v10 : List ℚ),
          parseArguments lowestDraw initialStore onesamp argsCoalescentExample = .ok s
            ∧ parseIterations s = .ok 100
            ∧ s.bottleneck_individuals_count = some (5, 10)
            ∧ s.bottleneck_individuals_count_random_choices = some v7
            ∧ s.bottleneck_length_random_choices = some v8
            ∧ s.theta_random_choices = some v9
            ∧ s.mutation_rate_random_choices = some v10
            ∧ (v7.length : Int) = 100 ∧ (v8.length : Int) = 100
            ∧ (v9.length : Int) = 100 ∧ (v10.length : Int) = 100)
      ∧ scanInt ("-t100".toList.drop 2) = .ok (some (100, []))
      ∧ sscanfIntPair ("-b10,20".toList.drop 2) = .ok (some 10, some 20) := by
  have he : ∃ a ∈ argsCoalescentExample, charAt a 1 = 'e' := ⟨"-e".toList, by decide, by decide⟩
  have hloop : parseArgumentsLoop (loopStart initialStore onesamp) argsCoalescentExample
      = .ok storeCoalescentExample := by with_unfolding_all rfl
  have hv : generalFetchesValid storeCoalescentExample :=
    ⟨by decide, ⟨(5, 10), rfl⟩, ⟨(1, 5), rfl, by decide, by decide⟩,
      ⟨(1 / 1000000, 1 / 100000), rfl, by norm_num, by norm_num⟩,
      ⟨(1 / 25, 4), rfl, by norm_num, by norm_num⟩, by decide, by decide, by decide,
      by norm_num [storeCoalescentExample, storeNoOperationComplete], by decide⟩
  exact ⟨he, hloop, hv,
    (coalescent_example_mode lowestDraw initialStore storeCoalescentExample onesamp
      argsCoalescentExample he hloop hv).1, by with_unfolding_all rfl, by with_unfolding_all rfl⟩

/-! ## C13: syntax check mode -/

/-- C13: when a command line holds `-x` and its loop ends without an error,
`parseArguments` returns successfully with the store left by the loop, whatever
the other fields are, and the four draw vectors are empty. -/
theorem syntax_check_short_circuit (ext : Extern) (s0 s1 : Store) (programArg : List Char)
    (args : List (List Char)) (hx : ∃ a ∈ args, charAt a 1 = 'x')
    (hloop : parseArgumentsLoop (loopStart s0 programArg) args = .ok s1) :
    parseArguments ext s0 programArg args = .ok s1
      ∧ s1.bottleneck_individuals_count_random_choices = none
      ∧ s1.bottleneck_length_random_choices = none
      ∧ s1.theta_random_choices = none
      ∧ s1.mutation_rate_random_choices = none := by
  refine ⟨?_, parseArgumentsLoop_choices_empty hloop⟩
  rw [parseArguments_of_loop hloop]
  exact parseArgumentsResolve_syntax_check ext (parseArgumentsLoop_syntax_check hloop hx)

/-- C13, witness: `-l0 -tmany -x` is accepted although the number of loci is
not positive and neither repetitions nor any range is given. -/
theorem syntax_check_short_circuit_witness :
    (∃ a ∈ argsSyntaxCheck, charAt a 1 = 'x')
      ∧ parseArgumentsLoop (loopStart initialStore onesamp) argsSyntaxCheck
          = .ok storeSyntaxCheck
      ∧ parseArguments lowestDraw initialStore onesamp argsSyntaxCheck = .ok storeSyntaxCheck
      ∧ storeSyntaxCheck.bottleneck_individuals_count_random_choices = none
      ∧ storeSyntaxCheck.bottleneck_length_random_choices = none
      ∧ storeSyntaxCheck.theta_random_choices = none
      ∧ storeSyntaxCheck.mutation_rate_random_choices = none := by
  have hx : ∃ a ∈ argsSyntaxCheck, charAt a 1 = 'x' := ⟨"-x".toList, by decide, by decide⟩
  have hloop : parseArgumentsLoop (loopStart initialStore onesamp) argsSyntaxCheck
      = .ok storeSyntaxCheck := by with_unfolding_all rfl
  exact ⟨hx, hloop,
    syntax_check_short_circuit lowestDraw initialStore storeSyntaxCheck onesamp argsSyntaxCheck
      hx hloop⟩

/-! ## C14: the omission threshold -/

/-- A `double` that is not below zero is a NaN or is at least zero. -/
theorem Dbl.not_lt_zero {v : Dbl} (h : Dbl.lt v (.finite 0) = false) :
    v = .nan ∨ Dbl.le (.finite 0) v = true := by
  cases v with
  | nan => exact Or.inl rfl
  | infinite negative =>
    right
    have hn : negative = false := h
    subst hn
    rfl
  | finite q =>
    right
    have hq : ¬ q < 0 := by simpa [Dbl.lt] using h
    have hq2 : (0 : ℚ) < q ∨ (0 : ℚ) = q := lt_or_eq_of_le (not_lt.mp hq)
    simpa [Dbl.le, Dbl.lt, Dbl.eq] using hq2

/-- The number returned by `parsePositiveDouble` is the sentinel `-1`, a NaN,
or is at least zero. -/
theorem parsePositiveDouble_range {a : List Char} {d : Dbl} (h : parsePositiveDouble a = .ok d) :
    d = .finite (-1) ∨ d = .nan ∨ Dbl.le (.finite 0) d = true := by
  unfold parsePositiveDouble at h
  split_ifs at h
  cases hs : scanDouble (a.drop 2) with
  | error e =>
    rw [hs] at h
    cases h
  | ok r =>
    rw [hs] at h
    cases r with
    | none => exact Or.inl (Except.ok.inj h).symm
    | some vr =>
      obtain ⟨v, rest⟩ := vr
      have hd : (if Dbl.lt v (.finite 0) then Dbl.finite (-1) else v) = d := Except.ok.inj h
      by_cases hlt : Dbl.lt v (.finite 0) = true
      · rw [if_pos hlt] at hd
        exact Or.inl hd.symm
      · rw [if_neg hlt] at hd
        rw [← hd]
        exact Or.inr (Dbl.not_lt_zero (by simpa using hlt))

/-- A number that is stored from the payload of an argument is `-1` or is not
negative. -/
theorem storedDouble_range {a : List Char} {q : ℚ}
    (h : (parsePositiveDouble a >>= storedDouble) = .ok q) : q = -1 ∨ 0 ≤ q := by
  obtain ⟨d, h1, h2⟩ := bind_eq_ok h
  cases d with
  | nan => cases h2
  | infinite negative => cases h2
  | finite v =>
    have hq : v = q := Except.ok.inj h2
    subst hq
    rcases parsePositiveDouble_range h1 with e | e | e
    · exact Or.inl (Dbl.finite.inj e)
    · cases e
    · right
      have : (0 : ℚ) < v ∨ (0 : ℚ) = v := by simpa [Dbl.le, Dbl.lt, Dbl.eq] using e
      rcases this with h3 | h3
      · exact le_of_lt h3
      · exact le_of_eq h3

/-- C14, counterexample: after `-o5 -x` the accessor returns 5, which is not
between 0 and 1. From `-onan` the reader returns a NaN, which is neither the
sentinel nor a number between 0 and 1. -/
theorem omit_threshold_above_one :
    parseArguments lowestDraw initialStore onesamp argsOmitFive = .ok storeOmitFive
      ∧ parseOmitLocusThreshold storeOmitFive = .ok 5
      ∧ ¬((0 : ℚ) ≤ 5 ∧ (5 : ℚ) ≤ 1)
      ∧ parsePositiveDouble "-onan".toList = .ok .nan := by
  refine ⟨by with_unfolding_all rfl, by with_unfolding_all rfl, ?_, by with_unfolding_all rfl⟩
  norm_num

/-- C14, amended: whenever `parseOmitLocusThreshold` returns a value `x`, `x` is
the stored threshold and is not the sentinel `-1`; when the threshold is a
number stored from the payload of a `-o` argument, `0 ≤ x`. No upper bound is
enforced. -/
theorem omit_threshold_accessor (s : Store) (x : ℚ)
    (h : parseOmitLocusThreshold s = .ok x) :
    x = s.omitThreshold ∧ x ≠ -1
      ∧ (∀ a : List Char,
          (parsePositiveDouble a >>= storedDouble) = .ok s.omitThreshold → 0 ≤ x) := by
  unfold parseOmitLocusThreshold at h
  split_ifs at h with h1
  · cases h
  · have hx : x = s.omitThreshold := (Except.ok.inj h).symm
    refine ⟨hx, hx ▸ h1, fun a ha => ?_⟩
    rcases storedDouble_range ha with h2 | h2
    · exact absurd h2 h1
    · rw [hx]; exact h2

/-- C14, witness: the store after `-o5 -x`. -/
theorem omit_threshold_accessor_witness :
    parseOmitLocusThreshold storeOmitFive = .ok 5
      ∧ (5 : ℚ) = storeOmitFive.omitThreshold ∧ (5 : ℚ) ≠ -1
      ∧ (∀ a : List Char,
          (parsePositiveDouble a >>= storedDouble) = .ok storeOmitFive.omitThreshold →
            (0 : ℚ) ≤ 5) := by
  have h : parseOmitLocusThreshold storeOmitFive = .ok 5 := by with_unfolding_all rfl
  exact ⟨h, omit_threshold_accessor storeOmitFive 5 h⟩

/-! ## C15: the initial length of a microsatellite -/

/-- C15: with two input individuals whose four alleles at the locus are 1, 2,
2, 2 (mean 1.75, which rounds to 2) `initializeMicrosat1` returns 1, for each of
the motif lengths 2, 3, 4 and 6: the term added before the division is half a
motif length, not half the divisor, so the quotient is truncated. -/
theorem initial_length_truncates :
    (∀ m ∈ [(2 : Int), 3, 4, 6], initializeMicrosat1 genotypesSeven (storeMicrosat m) 0 = .ok 1)
      ∧ parseExamplePop (storeMicrosat 2) = 0
      ∧ sumGenotypes genotypesSeven 0 2 = 7
      ∧ round ((7 : ℚ) / (2 * 2)) = 2 := by
  refine ⟨?_, rfl, by decide, ?_⟩
  · intro m hm
    simp only [List.mem_cons, List.mem_singleton, List.not_mem_nil, or_false] at hm
    rcases hm with rfl | rfl | rfl | rfl <;> with_unfolding_all rfl
  · rw [round_eq]
    norm_num [Int.floor_eq_iff]

/-! ## C16: the accessors after a reset -/

/-- C16, counterexample: after a reset `parseThetaMin` and `parseThetaMax` fail
with the argument error of `-u`, not with an error of `-v`: they call the
mutation rate accessors first. -/
theorem theta_bounds_after_reset :
    parseThetaMin (resetArguments initialStore) = .error (.argument msgMRate)
      ∧ parseThetaMax (resetArguments initialStore) = .error (.argument msgMRate)
      ∧ parseThetaMin (resetArguments initialStore) ≠ .error (.argument msgTheta)
      ∧ parseThetaMax (resetArguments initialStore) ≠ .error (.argument msgTheta)
      ∧ ∀ x y : ℚ,
        parseThetaMin (resetArguments initialStore) ≠ .error (.theta msgThetaRecommended x y)
          ∧ parseThetaMax (resetArguments initialStore)
            ≠ .error (.theta msgThetaRecommended x y) := by
  have h1 : parseThetaMin (resetArguments initialStore) = .error (.argument msgMRate) := rfl
  have h2 : parseThetaMax (resetArguments initialStore) = .error (.argument msgMRate) := rfl
  have hne : msgMRate ≠ msgTheta := by decide
  refine ⟨h1, h2, ?_, ?_, fun x y => ⟨?_, ?_⟩⟩
  · rw [h1]; intro h; exact hne (Err.argument.inj (Except.error.inj h))
  · rw [h2]; intro h; exact hne (Err.argument.inj (Except.error.inj h))
  · rw [h1]; intro h; cases h
  · rw [h2]; intro h; cases h

/-- C16, amended: in the store produced by `resetArguments`, from any store,
each accessor that requires its field fails with an argument error:
`parseMinAlleleFrequency`, `parseOmitLocusThreshold`, `parseFormFlag`,
`parseIterations`, `parseNLoci`, `parseInputSamples`, `parseRFlag`, the three
accessors of the bottleneck size, of the bottleneck length and of the mutation
rate, and `parseTheta`, each with the message of its own flag; `parseThetaMin`
and `parseThetaMax` with the message of `-u`, raised by the mutation rate
accessors that they call first. -/
theorem accessors_after_reset (s : Store) (samp : Int) :
    parseMinAlleleFrequency (resetArguments s) = .error (.argument msgMinAlleleFrequency)
      ∧ parseOmitLocusThreshold (resetArguments s) = .error (.argument msgOmitLocusThreshold)
      ∧ parseFormFlag (resetArguments s) = .error (.argument msgFormFlag)
      ∧ parseIterations (resetArguments s) = .error (.argument msgIterations)
      ∧ parseNLoci (resetArguments s) = .error (.argument msgNLoci)
      ∧ parseInputSamples (resetArguments s) = .error (.argument msgInputSamples)
      ∧ parseBottleneck (resetArguments s) samp = .error (.argument msgBottleneck)
      ∧ parseBottleneckMin (resetArguments s) = .error (.argument msgBottleneck)
      ∧ parseBottleneckMax (resetArguments s) = .error (.argument msgBottleneck)
      ∧ parseBottleneckLength (resetArguments s) samp
          = .error (.argument msgBottleneckLength)
      ∧ parseBottleneckLengthMin (resetArguments s) = .error (.argument msgBottleneckLength)
      ∧ parseBottleneckLengthMax (resetArguments s) = .error (.argument msgBottleneckLength)
      ∧ parseTheta (resetArguments s) samp = .error (.argument msgTheta)
      ∧ parseThetaMin (resetArguments s) = .error (.argument msgMRate)
      ∧ parseThetaMax (resetArguments s) = .error (.argument msgMRate)
      ∧ parseMRate (resetArguments s) samp = .error (.argument msgMRate)
      ∧ parseMRateMin (resetArguments s) = .error (.argument msgMRate)
      ∧ parseMRateMax (resetArguments s) = .error (.argument msgMRate)
      ∧ parseRFlag (resetArguments s) = .error (.argument msgRFlag) := by
  refine ⟨?_, ?_, ?_, ?_, ?_, ?_, rfl, rfl, rfl, rfl, rfl, rfl, rfl, rfl, rfl, rfl, rfl, rfl, ?_⟩
  · simp [parseMinAlleleFrequency, resetArguments, reportArgumentError]
  · simp [parseOmitLocusThreshold, resetArguments, reportArgumentError]
  · simp [parseFormFlag, resetArguments, reportArgumentError]
  · simp [parseIterations, resetArguments, reportArgumentError]
  · simp [parseNLoci, resetArguments, reportArgumentError]
  · simp [parseInputSamples, resetArguments, reportArgumentError]
  · simp [parseRFlag, resetArguments, reportArgumentError]

/-! ## C17: resetting twice -/

/-- The values of the store after two resets are those after one. -/
theorem resetArguments_idempotent (s : Store) :
    resetArguments (resetArguments s) = resetArguments s := rfl

/-- A reset that is defined leaves the values of `resetArguments`. -/
theorem resetArgumentsMemory_store {m m1 : Memory} (h : resetArgumentsMemory m = .ok m1) :
    m1.store = resetArguments m.store := by
  unfold resetArgumentsMemory at h
  split at h
  · cases h; rfl
  · split_ifs at h
    cases h; rfl

/-- With `motif_lengths` null the second reset is defined and changes
nothing. -/
theorem resetArgumentsTwice_without_motif_lengths (m : Memory)
    (h : m.store.motif_lengths = none) : resetArgumentsTwice m = resetArgumentsMemory m := by
  have e1 : resetArgumentsMemory m
      = .ok { store := resetArguments m.store, motifLengthsReleased := m.motifLengthsReleased } := by
    unfold resetArgumentsMemory
    rw [h]
  have h2 : (resetArguments m.store).motif_lengths = none := h
  unfold resetArgumentsTwice
  rw [e1, bind_ok]
  unfold resetArgumentsMemory
  simp only [h2]
  rfl

/-- C17: from a store whose motif lengths are allocated, the first reset
releases their block and leaves the pointer as it is, and the second reset
releases the same block again, which C does not define: no store is produced
by the second call. -/
theorem second_reset_releases_motif_lengths_again :
    memoryWithMotifLengths.store.motif_lengths = some [2, 3]
      ∧ resetArgumentsMemory memoryWithMotifLengths
        = .ok { store := resetArguments memoryWithMotifLengths.store
                motifLengthsReleased := true }
      ∧ (resetArguments memoryWithMotifLengths.store).motif_lengths = some [2, 3]
      ∧ resetArgumentsTwice memoryWithMotifLengths
        = .error (.undefined "free of a block that was released before") :=
  ⟨rfl, rfl, rfl, rfl⟩

/-! ## C18: the setters -/

/-- C18: `setInputSamples` sets the numbers of input individuals and of final
individuals to `size`, `setNLoci` sets the number of loci to `size`, and each
leaves every other field of the store as it is; in particular
`parseNLociAllocation` and `parseInputSamplesAllocation` return what they
returned before. -/
theorem setters_frame (s : Store) (size : Int) :
    ((setInputSamples s size).input_individuals_count = size
      ∧ (setInputSamples s size).final_individuals_count = size
      ∧ (setInputSamples s size).randomFlag = s.randomFlag
      ∧ (setInputSamples s size).num_loci = s.num_loci
      ∧ (setInputSamples s size).bottleneck_individuals_count = s.bottleneck_individuals_count
      ∧ (setInputSamples s size).bottleneck_length = s.bottleneck_length
      ∧ (setInputSamples s size).isMicrosats = s.isMicrosats
      ∧ (setInputSamples s size).minAlleleFrequency = s.minAlleleFrequency
      ∧ (setInputSamples s size).omitThreshold = s.omitThreshold
      ∧ (setInputSamples s size).theta = s.theta
      ∧ (setInputSamples s size).mutation_rate = s.mutation_rate
      ∧ (setInputSamples s size).repetitions = s.repetitions
      ∧ (setInputSamples s size).programName = s.programName
      ∧ (setInputSamples s size).syntax_check = s.syntax_check
      ∧ (setInputSamples s size).example_ = s.example_
      ∧ (setInputSamples s size).raw_stats = s.raw_stats
      ∧ (setInputSamples s size).single_generation = s.single_generation
      ∧ (setInputSamples s size).example_pop = s.example_pop
      ∧ (setInputSamples s size).absentDataExtrapolate = s.absentDataExtrapolate
      ∧ (setInputSamples s size).input_individuals_count_allocation
          = s.input_individuals_count_allocation
      ∧ (setInputSamples s size).num_loci_allocation = s.num_loci_allocation
      ∧ (setInputSamples s size).motif_lengths = s.motif_lengths
      ∧ (setInputSamples s size).bottleneck_individuals_count_random_choices
          = s.bottleneck_individuals_count_random_choices
      ∧ (setInputSamples s size).bottleneck_length_random_choices
          = s.bottleneck_length_random_choices
      ∧ (setInputSamples s size).theta_random_choices = s.theta_random_choices
      ∧ (setInputSamples s size).mutation_rate_random_choices = s.mutation_rate_random_choices
      ∧ (setInputSamples s size).proportionMissingData = s.proportionMissingData
      ∧ parseNLociAllocation (setInputSamples s size) = parseNLociAllocation s
      ∧ parseInputSamplesAllocation (setInputSamples s size) = parseInputSamplesAllocation s)
    ∧ ((setNLoci s size).num_loci = size
      ∧ (setNLoci s size).randomFlag = s.randomFlag
      ∧ (setNLoci s size).input_individuals_count = s.input_individuals_count
      ∧ (setNLoci s size).bottleneck_individuals_count = s.bottleneck_individuals_count
      ∧ (setNLoci s size).bottleneck_length = s.bottleneck_length
      ∧ (setNLoci s size).final_individuals_count = s.final_individuals_count
      ∧ (setNLoci s size).isMicrosats = s.isMicrosats
      ∧ (setNLoci s size).minAlleleFrequency = s.minAlleleFrequency
      ∧ (setNLoci s size).omitThreshold = s.omitThreshold
      ∧ (setNLoci s size).theta = s.theta
      ∧ (setNLoci s size).mutation_rate = s.mutation_rate
      ∧ (setNLoci s size).repetitions = s.repetitions
      ∧ (setNLoci s size).programName = s.programName
      ∧ (setNLoci s size).syntax_check = s.syntax_check
      ∧ (setNLoci s size).example_ = s.example_
      ∧ (setNLoci s size).raw_stats = s.raw_stats
      ∧ (setNLoci s size).single_generation = s.single_generation
      ∧ (setNLoci s size).example_pop = s.example_pop
      ∧ (setNLoci s size).absentDataExtrapolate = s.absentDataExtrapolate
      ∧ (setNLoci s size).input_individuals_count_allocation
          = s.input_individuals_count_allocation
      ∧ (setNLoci s size).num_loci_allocation = s.num_loci_allocation
      ∧ (setNLoci s size).motif_lengths = s.motif_lengths
      ∧ (setNLoci s size).bottleneck_individuals_count_random_choices
          = s.bottleneck_individuals_count_random_choices
      ∧ (setNLoci s size).bottleneck_length_random_choices = s.bottleneck_length_random_choices
      ∧ (setNLoci s size).theta_random_choices = s.theta_random_choices
      ∧ (setNLoci s size).mutation_rate_random_choices = s.mutation_rate_random_choices
      ∧ (setNLoci s size).proportionMissingData = s.proportionMissingData
      ∧ parseNLociAllocation (setNLoci s size) = parseNLociAllocation s
      ∧ parseInputSamplesAllocation (setNLoci s size) = parseInputSamplesAllocation s)
    ∧ (∀ (a : List Char) (s1 : Store), onFlagL s a = .ok s1 →
        parsePositiveInt a = .ok (parseNLociAllocation (setNLoci s1 size)))
    ∧ (∀ (a : List Char) (s1 : Store), onFlagI s a = .ok s1 →
        parsePositiveInt a = .ok (parseInputSamplesAllocation (setInputSamples s1 size))) := by
  refine ⟨?_, ?_, ?_, ?_⟩
  · exact ⟨rfl, rfl, rfl, rfl, rfl, rfl, rfl, rfl, rfl, rfl, rfl, rfl, rfl, rfl, rfl, rfl, rfl,
      rfl, rfl, rfl, rfl, rfl, rfl, rfl, rfl, rfl, rfl, rfl, rfl⟩
  · exact ⟨rfl, rfl, rfl, rfl, rfl, rfl, rfl, rfl, rfl, rfl, rfl, rfl, rfl, rfl, rfl, rfl, rfl,
      rfl, rfl, rfl, rfl, rfl, rfl, rfl, rfl, rfl, rfl, rfl, rfl⟩
  · intro a s1 h
    unfold onFlagL at h
    split_ifs at h
    · cases h
    · cases hr : parsePositiveInt a with
      | error e =>
        rw [hr] at h
        cases h
      | ok n =>
        rw [hr] at h
        rw [← Except.ok.inj h]
        rfl
  · intro a s1 h
    unfold onFlagI at h
    split_ifs at h
    · cases h
    · cases hr : parsePositiveInt a with
      | error e =>
        rw [hr] at h
        cases h
      | ok n =>
        rw [hr] at h
        rw [← Except.ok.inj h]
        rfl

/-- C18, witness: after `-l10` and `-i20`, the setters change the counts and the
allocation sizes stay 10 and 20. -/
theorem setters_frame_witness :
    onFlagL (loopStart initialStore onesamp) "-l10".toList
        = .ok { loopStart initialStore onesamp with num_loci := 10, num_loci_allocation := 10 }
      ∧ parsePositiveInt "-l10".toList = .ok (parseNLociAllocation (setNLoci
          { loopStart initialStore onesamp with num_loci := 10, num_loci_allocation := 10 } 7))
      ∧ parseNLociAllocation (setNLoci
          { loopStart initialStore onesamp with num_loci := 10, num_loci_allocation := 10 } 7)
        = 10
      ∧ onFlagI (loopStart initialStore onesamp) "-i20".toList
        = .ok { loopStart initialStore onesamp with
            input_individuals_count := 20
            input_individuals_count_allocation := 20
            final_individuals_count := 20 }
      ∧ parsePositiveInt "-i20".toList = .ok (parseInputSamplesAllocation (setInputSamples
          { loopStart initialStore onesamp with
            input_individuals_count := 20
            input_individuals_count_allocation := 20
            final_individuals_count := 20 } 7))
      ∧ parseInputSamplesAllocation (setInputSamples
          { loopStart initialStore onesamp with
            input_individuals_count := 20
            input_individuals_count_allocation := 20
            final_individuals_count := 20 } 7)
        = 20 := by
  have h1 : onFlagL (loopStart initialStore onesamp) "-l10".toList
      = .ok { loopStart initialStore onesamp with num_loci := 10, num_loci_allocation := 10 } := by
    with_unfolding_all rfl
  have h2 : onFlagI (loopStart initialStore onesamp) "-i20".toList
      = .ok { loopStart initialStore onesamp with
          input_individuals_count := 20
          input_individuals_count_allocation := 20
          final_individuals_count := 20 } := by
    with_unfolding_all rfl
  exact ⟨h1,
    (setters_frame (loopStart initialStore onesamp) 7).2.2.1 "-l10".toList _ h1, rfl, h2,
    (setters_frame (loopStart initialStore onesamp) 7).2.2.2 "-i20".toList _ h2, rfl⟩

/-! ## C19: negative entries of a pair -/

/-- C19: from `-d5,-3` `sscanf` reads 5 and -3 and `parsePositiveIntPair`
returns `(5, 5)`: the second entry is first set to `-1` and then, being `-1`,
takes the value of the first. Neither entry is `-1`, and after
`parseArguments` on `-d5,-3 -x` the accessors of the bottleneck length return
5. A negative first entry is kept as `-1`: `-d-3,5` gives `(-1, 5)`, which the
accessors reject. -/
theorem negative_second_entry_accepted (ext : Extern) :
    sscanfIntPair ("-d5,-3".toList.drop 2) = .ok (some 5, some (-3))
      ∧ parsePositiveIntPair "-d5,-3".toList = .ok (5, 5)
      ∧ (∃ s, parseArguments ext initialStore onesamp (words ["-d5,-3", "-x"]) = .ok s
          ∧ s.bottleneck_length = some (5, 5)
          ∧ parseBottleneckLengthMin s = .ok 5
          ∧ parseBottleneckLengthMax s = .ok 5)
      ∧ sscanfIntPair ("-d-3,5".toList.drop 2) = .ok (some (-3), some 5)
      ∧ parsePositiveIntPair "-d-3,5".toList = .ok (-1, 5)
      ∧ (∃ s, parseArguments ext initialStore onesamp (words ["-d-3,5", "-x"]) = .ok s
          ∧ s.bottleneck_length = some (-1, 5)
          ∧ parseBottleneckLengthMin s = .error (.argument msgBottleneckLength)
          ∧ parseBottleneckLengthMax s = .error (.argument msgBottleneckLength)) :=
  ⟨by with_unfolding_all rfl, by with_unfolding_all rfl,
    ⟨_, by with_unfolding_all rfl, by with_unfolding_all rfl, by with_unfolding_all rfl,
      by with_unfolding_all rfl⟩,
    by with_unfolding_all rfl, by with_unfolding_all rfl,
    ⟨_, by with_unfolding_all rfl, by with_unfolding_all rfl, by with_unfolding_all rfl,
      by with_unfolding_all rfl⟩⟩

/-! ## C20: a successful parse and the minimum allele frequency -/

/-- C20: on `-rC -l50 -i30 -b10,20 -d1,5 -s -t3 -u1e-6,1e-5 -v0.04,4.0 -o0.8 -e`,
without `-f`, and on the same command line with `-f0.9`, `parseArguments`
returns successfully, whatever the draws, and `parseMinAlleleFrequency` then
fails with the argument error of `-f`: the accessor is not among those called
by `parseArguments`. -/
theorem successful_parse_without_frequency (ext : Extern) :
    (∃ s, parseArguments ext initialStore onesamp argsNoFrequency = .ok s
      ∧ parseExample s = TRUE
      ∧ parseMinAlleleFrequency s = .error (.argument msgMinAlleleFrequency))
    ∧ (∃ s, parseArguments ext initialStore onesamp argsFrequencyTooLarge = .ok s
      ∧ parseExample s = TRUE
      ∧ s.minAlleleFrequency = 9 / 10
      ∧ parseMinAlleleFrequency s = .error (.argument msgMinAlleleFrequency)) :=
  ⟨⟨_, by with_unfolding_all rfl, by with_unfolding_all rfl, by with_unfolding_all rfl⟩,
    ⟨_, by with_unfolding_all rfl, by with_unfolding_all rfl, by with_unfolding_all rfl,
      by with_unfolding_all rfl⟩⟩

/-! ## C21: the reset and the operation flags -/

/-- C21: `resetArguments` clears the flags of the operations `-x`, `-e`, `-w`
and `-g` and leaves the flag of `-p` as it finds it. After a first
`parseArguments` with `-p`, the flag is still set after a reset, and a second
`parseArguments` on a command line without an operation succeeds with the
example population flag set, where the same command line on a fresh store is
refused for its missing operation. -/
theorem reset_keeps_example_population (ext : Extern) :
    (∀ s : Store, parseSyntaxCheck (resetArguments s) = FALSE
        ∧ parseExample (resetArguments s) = FALSE
        ∧ parseRawSample (resetArguments s) = FALSE
        ∧ parseSingleGeneration (resetArguments s) = FALSE
        ∧ parseExamplePop (resetArguments s) = parseExamplePop s)
      ∧ (∃ s1, parseArguments ext initialStore onesamp argsExamplePopulation = .ok s1
          ∧ parseExamplePop (resetArguments s1) = TRUE
          ∧ ∃ s2, parseArguments ext s1 onesamp argsNoOperationComplete = .ok s2
              ∧ parseExamplePop s2 = TRUE)
      ∧ parseArguments ext initialStore onesamp argsNoOperationComplete
          = .error (.argument msgMissingOperation) :=
  ⟨fun _ => ⟨rfl, rfl, rfl, rfl, rfl⟩,
    ⟨_, by with_unfolding_all rfl, by with_unfolding_all rfl,
      _, by with_unfolding_all rfl, by with_unfolding_all rfl⟩,
    by with_unfolding_all rfl⟩

/-! ## C22: what `flushArguments` releases -/

/-- C22: `flushArguments` clears the program name, the bottleneck range and
its draws in every mode; the bottleneck length, theta and mutation rate ranges
and their draws are cleared in raw statistics mode and kept in the other
modes. After a successful `parseArguments` in coalescent example mode the three
ranges and the three vectors of draws are still in place after
`flushArguments`, and so is the bottleneck length range after a syntax
check. -/
theorem flush_keeps_ranges_outside_raw_stats (ext : Extern) :
    (∀ s : Store, (flushArguments s).programName = none
        ∧ (flushArguments s).bottleneck_individuals_count = none
        ∧ (flushArguments s).bottleneck_individuals_count_random_choices = none
        ∧ (flushArguments s).bottleneck_length
            = (if parseRawSample s ≠ 0 then none else s.bottleneck_length)
        ∧ (flushArguments s).theta = (if parseRawSample s ≠ 0 then none else s.theta)
        ∧ (flushArguments s).mutation_rate
            = (if parseRawSample s ≠ 0 then none else s.mutation_rate)
        ∧ (flushArguments s).bottleneck_length_random_choices
            = (if parseRawSample s ≠ 0 then none else s.bottleneck_length_random_choices)
        ∧ (flushArguments s).theta_random_choices
            = (if parseRawSample s ≠ 0 then none else s.theta_random_choices)
        ∧ (flushArguments s).mutation_rate_random_choices
            = (if parseRawSample s ≠ 0 then none else s.mutation_rate_random_choices))
      ∧ (∃ s, parseArguments ext initialStore onesamp argsCoalescentThree = .ok s
          ∧ parseExample s = TRUE
          ∧ (flushArguments s).bottleneck_length = some (1, 5)
          ∧ (flushArguments s).theta = some (1 / 25, 4)
          ∧ (flushArguments s).mutation_rate = some (1 / 1000000, 1 / 100000)
          ∧ (∃ v, (flushArguments s).bottleneck_length_random_choices = some v ∧ v.length = 3)
          ∧ (∃ v, (flushArguments s).theta_random_choices = some v ∧ v.length = 3)
          ∧ (∃ v, (flushArguments s).mutation_rate_random_choices = some v ∧ v.length = 3))
      ∧ (∃ s, parseArguments ext initialStore onesamp argsSyntaxCheckLength = .ok s
          ∧ parseSyntaxCheck s = TRUE
          ∧ (flushArguments s).bottleneck_length = some (1, 5)) := by
  refine ⟨fun s => ?_, ?_, ?_⟩
  · by_cases h : s.raw_stats = 0
    · simp [flushArguments, parseRawSample, h]
    · simp [flushArguments, parseRawSample, h]
  · exact ⟨_, by with_unfolding_all rfl, by with_unfolding_all rfl, by with_unfolding_all rfl,
      by with_unfolding_all rfl, by with_unfolding_all rfl,
      ⟨_, by with_unfolding_all rfl, by rfl⟩, ⟨_, by with_unfolding_all rfl, by rfl⟩,
      ⟨_, by with_unfolding_all rfl, by rfl⟩⟩
  · exact ⟨_, by with_unfolding_all rfl, by with_unfolding_all rfl, by with_unfolding_all rfl⟩

/-! ## C23: the scan of the motif lengths -/

/-- The conversion `%d` on a payload of digits separated by commas reads the
first digit. -/
theorem scanInt_motifPayload (d : Char) (ds : List Char) (hd : isDigitC d = true) :
    ∃ rest, scanInt (motifPayload (d :: ds)) = .ok (some ((digitVal d : Int), rest)) := by
  have h1 : ∀ tl, (d :: tl).dropWhile isSpaceC = d :: tl := by
    intro tl
    rw [List.dropWhile_cons_of_neg]
    simp [isDigitC_not_space hd]
  have hval : digitsValue [d] = digitVal d := by simp [digitsValue]
  have hle : digitVal d ≤ 9 := by
    have := (digit_toNat hd).2
    unfold digitVal
    omega
  have hmax : ((digitVal d : Nat) : Int) ≤ INT_MAX :=
    le_trans (Int.ofNat_le.mpr hle) (by decide)
  have hmin : INT_MIN ≤ ((digitVal d : Nat) : Int) := le_trans (by decide) (Int.ofNat_nonneg _)
  cases ds with
  | nil =>
    refine ⟨[], ?_⟩
    have := scanInt_digits [d] (by simp) (by simpa using hd) (by rw [hval]; exact hmax)
    rw [hval] at this
    exact this
  | cons e es =>
    refine ⟨',' :: motifPayload (e :: es), ?_⟩
    have h2 : (d :: ',' :: motifPayload (e :: es)).takeWhile isDigitC = [d] := by
      rw [List.takeWhile_cons_of_pos hd, List.takeWhile_cons_of_neg (by decide)]
    have h3 : (d :: ',' :: motifPayload (e :: es)).dropWhile isDigitC
        = ',' :: motifPayload (e :: es) := by
      rw [List.dropWhile_cons_of_pos hd, List.dropWhile_cons_of_neg (by decide)]
    unfold scanInt
    simp only [motifPayload, h1, scanSign_digit _ hd, h2, h3, hval]
    rw [if_neg (by simp), if_pos ⟨hmin, hmax⟩]
    rfl

theorem motifPayload_length (d : Char) (ds : List Char) :
    (motifPayload (d :: ds)).length = 2 * ds.length + 1 := by
  induction ds generalizing d with
  | nil => rfl
  | cons e es ih =>
    simp only [motifPayload, List.length_cons, ih e]
    ring

/-- The number of entries counted for `-m` followed by `k` digits separated by
commas is `k`. -/
theorem motifArgument_inputs (ds : List Char) (hne : ds ≠ []) :
    ((motifArgument ds).length - 1) / 2 = ds.length := by
  obtain ⟨d, es, rfl⟩ := List.exists_cons_of_ne_nil hne
  simp only [motifArgument, List.length_cons, motifPayload_length]
  omega

/-- The loop over the entries reads the digits in turn when all of them are
motif lengths. -/
theorem readMotifEntries_valid (ds : List Char) (hd : ∀ d ∈ ds, isDigitC d = true)
    (hv : ∀ d ∈ ds, isMotifLength (digitVal d)) (p : List Char) (i : Nat) (acc : List Int)
    (hp : p.length = 2 * i + 2) :
    readMotifEntries (p ++ motifPayload ds) ds.length i acc = .ok (some (acc ++ motifValues ds)) := by
  induction ds generalizing p i acc with
  | nil => simp [readMotifEntries, motifValues]
  | cons d es ih =>
    obtain ⟨rest, hscan⟩ := scanInt_motifPayload d es (hd d (List.mem_cons_self _ _))
    have hdrop : (p ++ motifPayload (d :: es)).drop (2 * i + 2) = motifPayload (d :: es) :=
      List.drop_left' hp
    have hvd : isMotifLength (digitVal d) := hv d (List.mem_cons_self _ _)
    unfold isMotifLength at hvd
    simp only [List.length_cons, readMotifEntries, hdrop, hscan, hvd, not_true_eq_false,
      if_false]
    cases es with
    | nil => simp [readMotifEntries, motifValues]
    | cons e es2 =>
      have hp2 : (p ++ [d, ',']).length = 2 * (i + 1) + 2 := by
        simp only [List.length_append, hp, List.length_cons, List.length_nil]
        omega
      have h := ih (fun c hc => hd c (List.mem_cons_of_mem _ hc))
        (fun c hc => hv c (List.mem_cons_of_mem _ hc)) (p ++ [d, ',']) (i + 1)
        (acc ++ [(digitVal d : Int)]) hp2
      have e1 : p ++ motifPayload (d :: e :: es2) = (p ++ [d, ',']) ++ motifPayload (e :: es2) := by
        simp [motifPayload]
      rw [e1, h]
      simp [motifValues]

/-- The loop over the entries leaves by `return -1` when one of the digits is
not a motif length. -/
theorem readMotifEntries_invalid (ds : List Char) (hd : ∀ d ∈ ds, isDigitC d = true)
    (hv : ∃ d ∈ ds, ¬ isMotifLength (digitVal d)) (p : List Char) (i : Nat) (acc : List Int)
    (hp : p.length = 2 * i + 2) :
    readMotifEntries (p ++ motifPayload ds) ds.length i acc = .ok none := by
  induction ds generalizing p i acc with
  | nil =>
    obtain ⟨d, hmem, _⟩ := hv
    exact absurd hmem (List.not_mem_nil d)
  | cons d es ih =>
    obtain ⟨rest, hscan⟩ := scanInt_motifPayload d es (hd d (List.mem_cons_self _ _))
    have hdrop : (p ++ motifPayload (d :: es)).drop (2 * i + 2) = motifPayload (d :: es) :=
      List.drop_left' hp
    by_cases hvd : isMotifLength (digitVal d)
    · have hes : ∃ c ∈ es, ¬ isMotifLength (digitVal c) := by
        obtain ⟨c, hmem, hc⟩ := hv
        rcases List.mem_cons.mp hmem with rfl | hmem2
        · exact absurd hvd hc
        · exact ⟨c, hmem2, hc⟩
      unfold isMotifLength at hvd
      simp only [List.length_cons, readMotifEntries, hdrop, hscan, hvd, not_true_eq_false,
        if_false]
      cases es with
      | nil =>
        obtain ⟨c, hmem, _⟩ := hes
        exact absurd hmem (List.not_mem_nil c)
      | cons e es2 =>
        have hp2 : (p ++ [d, ',']).length = 2 * (i + 1) + 2 := by
          simp only [List.length_append, hp, List.length_cons, List.length_nil]
          omega
        have h := ih (fun c hc => hd c (List.mem_cons_of_mem _ hc)) hes (p ++ [d, ','])
          (i + 1) (acc ++ [(digitVal d : Int)]) hp2
        have e1 : p ++ motifPayload (d :: e :: es2)
            = (p ++ [d, ',']) ++ motifPayload (e :: es2) := by
          simp [motifPayload]
        rw [e1, h]
    · unfold isMotifLength at hvd
      simp only [List.length_cons, readMotifEntries, hdrop, hscan, hvd, not_false_eq_true,
        if_true]

/-- The loop over the arguments passes over those that are not `-m`. -/
theorem readMicrosatelliteMotifLengthsLoop_skip (s : Store) (pre rest : List (List Char))
    (locals : Option (Int × List Int)) (hpre : ∀ t ∈ pre, notMotifArgument t) :
    readMicrosatelliteMotifLengthsLoop s (pre ++ rest) locals
      = readMicrosatelliteMotifLengthsLoop s rest locals := by
  induction pre with
  | nil => rfl
  | cons t ts ih =>
    have ht := hpre t (List.mem_cons_self _ _)
    have h1 : t ≠ [] := ht.1
    have h2 : charAt t 1 ≠ 'm' := ht.2
    rw [List.cons_append, readMicrosatelliteMotifLengthsLoop, if_neg h1, if_pos h2]
    exact ih (fun c hc => hpre c (List.mem_cons_of_mem _ hc))

/-- C23: on a command line with one argument `-m` followed by `k ≥ 1` digits
separated by commas, the other arguments being nonempty with a second character
other than `m`, `readMicrosatelliteMotifLengths` returns `k` and stores the
list of the digits as the motif lengths when each of them is 2, 3, 4 or 6, and
returns `-1` with the store as it was when one of them is not. -/
theorem motif_length_scan (s : Store) (pre post : List (List Char)) (ds : List Char)
    (hk : ds ≠ []) (hd : ∀ d ∈ ds, isDigitC d = true)
    (hpre : ∀ t ∈ pre, notMotifArgument t) (hpost : ∀ t ∈ post, notMotifArgument t) :
    ((∀ d ∈ ds, isMotifLength (digitVal d)) →
        readMicrosatelliteMotifLengths s (pre ++ motifArgument ds :: post)
          = .ok ((ds.length : Int), { s with motif_lengths := some (motifValues ds) }))
      ∧ ((∃ d ∈ ds, ¬ isMotifLength (digitVal d)) →
        readMicrosatelliteMotifLengths s (pre ++ motifArgument ds :: post) = .ok (-1, s)) := by
  have h1 : motifArgument ds ≠ [] := by simp [motifArgument]
  have h2 : ¬ charAt (motifArgument ds) 1 ≠ 'm' := by simp [motifArgument, charAt]
  have hp : ['-', 'm'].length = 2 * 0 + 2 := rfl
  have harg : motifArgument ds = ['-', 'm'] ++ motifPayload ds := rfl
  constructor
  · intro hv
    have hentries := readMotifEntries_valid ds hd hv ['-', 'm'] 0 [] hp
    rw [← harg] at hentries
    unfold readMicrosatelliteMotifLengths
    rw [readMicrosatelliteMotifLengthsLoop_skip s pre _ none hpre,
      readMicrosatelliteMotifLengthsLoop, if_neg h1, if_neg h2, motifArgument_inputs ds hk,
      hentries]
    have hskip := readMicrosatelliteMotifLengthsLoop_skip s post []
      (some ((ds.length : Int), motifValues ds)) hpost
    rw [List.append_nil] at hskip
    simp only [List.nil_append]
    rw [hskip]
    rfl
  · intro hv
    have hentries := readMotifEntries_invalid ds hd hv ['-', 'm'] 0 [] hp
    rw [← harg] at hentries
    unfold readMicrosatelliteMotifLengths
    rw [readMicrosatelliteMotifLengthsLoop_skip s pre _ none hpre,
      readMicrosatelliteMotifLengthsLoop, if_neg h1, if_neg h2, motifArgument_inputs ds hk,
      hentries]

/-- C23, witness: on
`-rRESET -l5 -i4 -b4,4 -d0,0 -m2,3 -t10 -u0,0 -v0.01,0.01 -f0 -o0.5 -g` the
scan returns 2 and stores the motif lengths `[2, 3]`; with `-m2,5` in the place
of `-m2,3` it returns `-1` and the store is as it was. -/
theorem motif_length_scan_witness :
    argsSingleGeneration
        = words ["-rRESET", "-l5", "-i4", "-b4,4", "-d0,0"] ++ motifArgument ['2', '3']
          :: words ["-t10", "-u0,0", "-v0.01,0.01", "-f0", "-o0.5", "-g"]
      ∧ readMicrosatelliteMotifLengths initialStore argsSingleGeneration
          = .ok (2, { initialStore with motif_lengths := some [2, 3] })
      ∧ motifArgument ['2', '5'] = "-m2,5".toList
      ∧ readMicrosatelliteMotifLengths initialStore
          (words ["-rRESET", "-l5", "-i4", "-b4,4", "-d0,0"] ++ motifArgument ['2', '5']
            :: words ["-t10", "-u0,0", "-v0.01,0.01", "-f0", "-o0.5", "-g"])
          = .ok (-1, initialStore) :=
  ⟨by decide,
    (motif_length_scan initialStore (words ["-rRESET", "-l5", "-i4", "-b4,4", "-d0,0"])
      (words ["-t10", "-u0,0", "-v0.01,0.01", "-f0", "-o0.5", "-g"]) ['2', '3']
      (by decide) (by decide) (by decide) (by decide)).1 (by decide),
    by decide,
    (motif_length_scan initialStore (words ["-rRESET", "-l5", "-i4", "-b4,4", "-d0,0"])
      (words ["-t10", "-u0,0", "-v0.01,0.01", "-f0", "-o0.5", "-g"]) ['2', '5']
      (by decide) (by decide) (by decide) (by decide)).2 (by decide)⟩

/-! ## C24: the value computed by `initializeMicrosat1` -/

theorem intResult_ok {x : Int} (h1 : INT_MIN ≤ x) (h2 : x ≤ INT_MAX) : intResult x = .ok x := by
  unfold intResult
  rw [if_pos ⟨h1, h2⟩]

theorem intResult_inv {x y : Int} (h : intResult x = .ok y) :
    y = x ∧ INT_MIN ≤ x ∧ x ≤ INT_MAX := by
  unfold intResult at h
  split_ifs at h with hc
  exact ⟨(Except.ok.inj h).symm, hc.1, hc.2⟩

/-- When the loop of `initializeMicrosat1` completes, its total is the sum of
the alleles. -/
theorem totalMicrosatLength_eq_sum (ld : Int → Int → Int × Int) (val : Int) (k : Nat) (T : Int)
    (h : totalMicrosatLength ld val k = .ok T) : T = sumGenotypes ld val k := by
  induction k generalizing T with
  | zero =>
    simp only [totalMicrosatLength] at h
    exact (Except.ok.inj h).symm
  | succ i ih =>
    simp only [totalMicrosatLength] at h
    obtain ⟨total, h1, h2⟩ := bind_eq_ok h
    obtain ⟨genes, h3, h4⟩ := bind_eq_ok h2
    have e1 := ih total h1
    have e2 := (intResult_inv h3).1
    have e3 := (intResult_inv h4).1
    simp only [sumGenotypes]
    rw [e3, e2, e1]

/-- The quotient of the last expression of `initializeMicrosat1` over the
integers. -/
theorem microsat_quotient (T m n : Int) (hT : 0 ≤ T) (hm : 1 ≤ m) (hn : 0 < n) :
    Int.tdiv (T * m + Int.tdiv m 2) (2 * m * n) = T / (2 * n) := by
  have hm2 : Int.tdiv m 2 = m / 2 := Int.tdiv_eq_ediv (by omega) (by omega)
  have hD : 0 < 2 * m * n := by positivity
  have hN : 0 ≤ T * m + m / 2 := by
    have : 0 ≤ T * m := mul_nonneg hT (by omega)
    omega
  rw [hm2, Int.tdiv_eq_ediv hN (le_of_lt hD)]
  have h2n : 0 < 2 * n := by omega
  have hdiv := Int.emod_add_ediv T (2 * n)
  have hr0 := Int.emod_nonneg T (ne_of_gt h2n)
  have hr1 := Int.emod_lt_of_pos T h2n
  have hhalf0 : 0 ≤ m / 2 := by omega
  have hhalf1 : m / 2 < m := by omega
  refine ((Int.ediv_emod_unique hD).mpr
    (⟨?_, ?_, ?_⟩ : (T % (2 * n) * m + m / 2) + 2 * m * n * (T / (2 * n)) = T * m + m / 2
      ∧ 0 ≤ T % (2 * n) * m + m / 2 ∧ T % (2 * n) * m + m / 2 < 2 * m * n)).1
  · linear_combination m * hdiv
  · have : 0 ≤ T % (2 * n) * m := mul_nonneg hr0 (by omega)
    omega
  · have : T % (2 * n) * m ≤ (2 * n - 1) * m :=
      mul_le_mul_of_nonneg_right (by omega) (by omega)
    nlinarith

/-- The integer quotient by a positive integer is the floor of the quotient
over the rationals. -/
theorem floor_quotient (T d : Int) (hd : 0 < d) : ⌊(T : ℚ) / (d : ℚ)⌋ = T / d := by
  have hdq : (0 : ℚ) < (d : ℚ) := by exact_mod_cast hd
  rw [Int.floor_eq_iff]
  have hdiv := Int.emod_add_ediv T d
  have hr0 := Int.emod_nonneg T (ne_of_gt hd)
  have hr1 := Int.emod_lt_of_pos T hd
  constructor
  · rw [le_div_iff₀ hdq]
    have : (T / d) * d ≤ T := by nlinarith
    exact_mod_cast this
  · rw [div_lt_iff₀ hdq]
    have : T < (T / d + 1) * d := by nlinarith
    exact_mod_cast this

/-- C24, counterexample: with two input individuals whose four alleles are
250000000 each, the total is `T = 1000000000` and `floor(T / (2n))` is
250000000. With the motif length 2 `initializeMicrosat1` returns 250000000; with
the motif length 3 the product `T * m = 3000000000` does not fit an `int`, and
no value is returned. -/
theorem initial_length_depends_on_motif :
    totalMicrosatLength genotypesLarge 0 2 = .ok 1000000000
      ∧ ⌊(1000000000 : ℚ) / ((2 * 2 : Int) : ℚ)⌋ = 250000000
      ∧ initializeMicrosat1 genotypesLarge (storeMicrosat 2) 0 = .ok 250000000
      ∧ INT_MAX < 1000000000 * 3
      ∧ initializeMicrosat1 genotypesLarge (storeMicrosat 3) 0
          = .error (.undefined "signed integer overflow") := by
  refine ⟨by with_unfolding_all rfl, ?_, by with_unfolding_all rfl, by decide,
    by with_unfolding_all rfl⟩
  have h := floor_quotient 1000000000 (2 * 2) (by norm_num)
  rw [show ((1000000000 : Int) : ℚ) = 1000000000 by norm_num] at h
  rw [h]
  norm_num

/-- C24: outside example population mode, for `n > 0` input individuals, a
motif length `m ≥ 1` and a total `T ≥ 0` of the `2n` alleles at the locus, when
`T * m + m / 2` and `2 * m * n` fit an `int`, `initializeMicrosat1` returns
`(T * m + m / 2) / (2 * m * n)` with the division of C, which is
`floor(T / (2n))`, whatever `m` is. -/
theorem initial_length_is_floor (ld : Int → Int → Int × Int) (s : Store)
    (locus nLoci n m T : Int)
    (hl : parseNLoci s = .ok nLoci) (hp : parseExamplePop s = 0)
    (hn : parseInputSamples s = .ok n)
    (hT : totalMicrosatLength ld (Int.tmod locus nLoci) n.toNat = .ok T) (hT0 : 0 ≤ T)
    (hm : readMotifLength s (Int.tmod locus nLoci) = .ok m) (hm1 : 1 ≤ m)
    (hnum : T * m + Int.tdiv m 2 ≤ INT_MAX) (hden : 2 * m * n ≤ INT_MAX) :
    0 < n
      ∧ T = sumGenotypes ld (Int.tmod locus nLoci) n.toNat
      ∧ initializeMicrosat1 ld s locus = .ok (Int.tdiv (T * m + Int.tdiv m 2) (2 * m * n))
      ∧ Int.tdiv (T * m + Int.tdiv m 2) (2 * m * n) = ⌊(T : ℚ) / ((2 * n : Int) : ℚ)⌋ := by
  have hn0 : 0 < n := by
    unfold parseInputSamples at hn
    split_ifs at hn with hc
    · cases hn
    · rw [← Except.ok.inj hn]
      omega
  have hq := microsat_quotient T m n hT0 hm1 hn0
  have hfl := floor_quotient T (2 * n) (by omega)
  have hmin : INT_MIN ≤ 0 := by decide
  have hhalf : 0 ≤ Int.tdiv m 2 := by
    rw [Int.tdiv_eq_ediv (by omega) (by omega)]
    omega
  have hTm : 0 ≤ T * m := mul_nonneg hT0 (by omega)
  have h2m : 2 * m ≤ 2 * m * n := by nlinarith
  have hquot0 : 0 ≤ T / (2 * n) := Int.ediv_nonneg hT0 (by omega)
  have hquot1 : T / (2 * n) ≤ T := Int.ediv_le_self _ hT0
  have hTle : T ≤ T * m := by nlinarith
  have r1 : intResult (T * m) = .ok (T * m) := intResult_ok (by omega) (by omega)
  have r2 : intResult (T * m + Int.tdiv m 2) = .ok (T * m + Int.tdiv m 2) :=
    intResult_ok (by omega) hnum
  have r3 : intResult (2 * m) = .ok (2 * m) := intResult_ok (by omega) (by omega)
  have r4 : intResult (2 * m * n) = .ok (2 * m * n) :=
    intResult_ok (by nlinarith) hden
  have r5 : intResult (Int.tdiv (T * m + Int.tdiv m 2) (2 * m * n))
      = .ok (Int.tdiv (T * m + Int.tdiv m 2) (2 * m * n)) := by
    rw [hq]
    exact intResult_ok (by omega) (by omega)
  have hne : ¬ parseExamplePop s ≠ 0 := by simp [hp]
  have hd0 : ¬ (2 * m * n = 0) := by nlinarith
  refine ⟨hn0, totalMicrosatLength_eq_sum ld _ _ T hT, ?_, ?_⟩
  · unfold initializeMicrosat1
    simp only [hl, bind_ok, if_neg hne, hn, hT, hm, r1, r2, r3, r4, if_neg hd0, r5]
  · rw [hq, hfl]

/-- C24, witness: one locus, two individuals with the alleles 1, 2, 2, 2 and
the motif length 3 give `(7 * 3 + 1) / 12 = 1 = floor(7 / 4)`. -/
theorem initial_length_is_floor_witness :
    parseNLoci (storeMicrosat 3) = .ok 1 ∧ parseExamplePop (storeMicrosat 3) = 0
      ∧ parseInputSamples (storeMicrosat 3) = .ok 2
      ∧ totalMicrosatLength genotypesSeven (Int.tmod 0 1) (2 : Int).toNat = .ok 7
      ∧ readMotifLength (storeMicrosat 3) (Int.tmod 0 1) = .ok 3
      ∧ (0 < (2 : Int)
        ∧ (7 : Int) = sumGenotypes genotypesSeven (Int.tmod 0 1) (2 : Int).toNat
        ∧ initializeMicrosat1 genotypesSeven (storeMicrosat 3) 0
            = .ok (Int.tdiv (7 * 3 + Int.tdiv 3 2) (2 * 3 * 2))
        ∧ Int.tdiv (7 * 3 + Int.tdiv 3 2) (2 * 3 * 2) = ⌊((7 : Int) : ℚ) / ((2 * 2 : Int) : ℚ)⌋) :=
  ⟨by with_unfolding_all rfl, rfl, by with_unfolding_all rfl, by with_unfolding_all rfl,
    by with_unfolding_all rfl,
    initial_length_is_floor genotypesSeven (storeMicrosat 3) 0 1 2 3 7
      (by with_unfolding_all rfl) rfl (by with_unfolding_all rfl) (by with_unfolding_all rfl)
      (by decide) (by with_unfolding_all rfl) (by decide) (by decide) (by decide)⟩

end ONeSAMP
